import Mathlib

/-!
# piecehealth/actioncable: subscription, streaming and broker model

A shallow embedding of `subscriber_map.go`, `channel.go`, `connection.go` and the
parts of `cable.go` and `messages.go` they use.

Conventions of the embedding

* A Go `map[K]V` is an association list read by first match (`GoMap`); a Go
  `map[K]struct{}` is a list of keys (`GoSet`).  A nil map reads as the empty map,
  and every writer of the source allocates before it stores, so nil and empty are
  one value here.  A `range` loop visits the entries in list order.
* A `*Channel` is an address (`ChanPtr`) into a heap of `Channel` records; the state
  holds one `Connection`, the `Cable` and its broker, a `SubscriberMap`.
* The critical sections guarded by the per-channel and per-broker mutexes run as
  one step each, so only the connection mutex, which `Close` can leave locked,
  is part of the state.  A call that waits on a held mutex ends as `Outcome.blocked`.
* A goroutine started with `go` is recorded as a pending `Goroutine`; its body runs as
  one step when a schedule picks it.
* `conn.send <- m` is recorded by appending `m` to the connection's `send` log,
  and `WriteJSON` by appending to the socket's `messageBox`.
* A user callback is the list of calls it makes on the Channel it is given;
  `encoding/json` is a parameter of the functions that use it.
-/

namespace ActionCable

/-! ## Go maps and sets -/

/-- Association-list rendering of a Go map; the first entry of a key is its value. -/
abbrev GoMap (K V : Type) := List (K × V)

/-- Rendering of `map[K]struct{}`: the keys that are present. -/
abbrev GoSet (K : Type) := List K

/-- Go `m[k]` in its two-result form: `some v` when the key is present. -/
def GoMap.lookup {K V : Type} [DecidableEq K] : GoMap K V → K → Option V
  | [], _ => none
  | (k', v) :: m, k => if k' = k then some v else GoMap.lookup m k

/-- Go `m[k] = v`: overwrite the entry of `k`, or add one. -/
def GoMap.store {K V : Type} [DecidableEq K] : GoMap K V → K → V → GoMap K V
  | [], k, v => [(k, v)]
  | (k', v') :: m, k, v => if k' = k then (k, v) :: m else (k', v') :: GoMap.store m k v

/-- Go `delete(m, k)`. -/
def GoMap.delete {K V : Type} [DecidableEq K] : GoMap K V → K → GoMap K V
  | [], _ => []
  | (k', v) :: m, k => if k' = k then GoMap.delete m k else (k', v) :: GoMap.delete m k

/-- Go `len(m)`. -/
def GoMap.len {K V : Type} (m : GoMap K V) : Nat := m.length

/-- Go `s[k] = struct{}{}`. -/
def GoSet.add {K : Type} [DecidableEq K] (s : GoSet K) (k : K) : GoSet K :=
  if k ∈ s then s else s ++ [k]

/-- Go `delete(s, k)` on a set. -/
def GoSet.remove {K : Type} [DecidableEq K] (s : GoSet K) (k : K) : GoSet K :=
  s.filter (fun x => !decide (x = k))

/-! ## subscriber_map.go -/

/-- Address of a `Channel` object. -/
abbrev ChanPtr := Nat

/-- The `error` values the modelled functions can return. -/
inductive GoError where
  | decode (input : String)
  | didntFindChannel (identifier : String)
  | unrecognizedCommand (command : String)
deriving DecidableEq, Repr

/-- The `envelope` struct of subscriber_map.go. -/
structure envelope where
  receiver : ChanPtr
  message : String
deriving DecidableEq, Repr

/-- The `SubscriberMap` struct; `done` and `sending` hold the handle of the Go channel,
`none` for nil. -/
structure SubscriberMap where
  broadcastConcurrentNum : Int := 0
  done : Option Nat := none
  sending : Option Nat := none
  subscribers : GoMap String (GoMap String (GoSet ChanPtr)) := []
deriving DecidableEq, Repr

/-- Whether workers receive from the work queue: `Run` has made the queue and its loop has
started at least one worker.  On a map on which `Run` was not called the queue is nil, and a
send on it waits for ever. -/
def SubscriberMap.serving (sm : SubscriberMap) : Bool :=
  sm.sending.isSome && decide (0 < sm.broadcastConcurrentNum)

/-- The set `subscribers[n][b]`, empty when the path is absent. -/
def SubscriberMap.members (sm : SubscriberMap) (n b : String) : GoSet ChanPtr :=
  match GoMap.lookup sm.subscribers n with
  | none => []
  | some inner => (GoMap.lookup inner b).getD []

/-- `SubscriberMap.Subscribe`; `nameOf c` is the field `c.Name`. -/
def SubscriberMap.Subscribe (nameOf : ChanPtr → String) (sm : SubscriberMap) (c : ChanPtr)
    (broadcasting : String) : SubscriberMap × Option GoError :=
  let s0 := sm.subscribers
  let s1 := if GoMap.lookup s0 (nameOf c) = none then GoMap.store s0 (nameOf c) [] else s0
  let inner1 := (GoMap.lookup s1 (nameOf c)).getD []
  let inner2 :=
    if GoMap.lookup inner1 broadcasting = none then GoMap.store inner1 broadcasting [] else inner1
  let set2 := (GoMap.lookup inner2 broadcasting).getD []
  let inner3 := GoMap.store inner2 broadcasting (GoSet.add set2 c)
  ({ sm with subscribers := GoMap.store s1 (nameOf c) inner3 }, none)

/-- The goroutine `SubscriberMap.Broadcast` starts.  It holds the map object the call found
at `subscribers[n][b]`, not a copy, and ranges over it when it runs: `set` is `some (n, b)`
while that object is the one in the map, and `none` once `Unsubscribe` has deleted the entry
from the map, after which the object the goroutine holds is empty and stays so. -/
structure Sender where
  set : Option (String × String)
  message : String
deriving DecidableEq, Repr

/-- Result of `SubscriberMap.Broadcast`: the map, the returned error and the goroutine the
call started, `none` when it returned before the `go` statement. -/
structure BroadcastResult where
  sm : SubscriberMap
  err : Option GoError
  started : Option Sender
deriving DecidableEq, Repr

/-- `SubscriberMap.Broadcast`. -/
def SubscriberMap.Broadcast (sm : SubscriberMap) (channelName broadcasting : String)
    (message : String) : BroadcastResult :=
  match GoMap.lookup sm.subscribers channelName with
  | none => { sm := sm, err := none, started := none }
  | some inner =>
    match GoMap.lookup inner broadcasting with
    | none => { sm := sm, err := none, started := none }
    | some _ =>
      { sm := sm, err := none,
        started := some { set := some (channelName, broadcasting), message := message } }

/-- `SubscriberMap.Unsubscribe`; `nameOf c` is the field `c.Name`. -/
def SubscriberMap.Unsubscribe (nameOf : ChanPtr → String) (sm : SubscriberMap) (c : ChanPtr)
    (broadcasting : String) : SubscriberMap × Option GoError :=
  match GoMap.lookup sm.subscribers (nameOf c) with
  | none => (sm, none)
  | some inner =>
    match GoMap.lookup inner broadcasting with
    | none => (sm, none)
    | some set =>
      let set1 := GoSet.remove set c
      let inner1 := GoMap.store inner broadcasting set1
      let inner2 := if set1.length = 0 then GoMap.delete inner1 broadcasting else inner1
      let s1 := GoMap.store sm.subscribers (nameOf c) inner2
      let s2 := if GoMap.len inner2 = 0 then GoMap.delete s1 (nameOf c) else s1
      ({ sm with subscribers := s2 }, none)

/-- The entry `subscribers[n][b]`, `none` when the channel name or the broadcasting is
absent. -/
def SubscriberMap.entry (sm : SubscriberMap) (n b : String) : Option (GoSet ChanPtr) :=
  match GoMap.lookup sm.subscribers n with
  | none => none
  | some inner => GoMap.lookup inner b

/-- A call of the broker's mutating interface. -/
inductive SMCall where
  | subscribe (c : ChanPtr) (broadcasting : String)
  | unsubscribe (c : ChanPtr) (broadcasting : String)
deriving DecidableEq, Repr

/-- The state after a sequence of `Subscribe` and `Unsubscribe` calls. -/
def SubscriberMap.run (nameOf : ChanPtr → String) (sm : SubscriberMap) :
    List SMCall → SubscriberMap
  | [] => sm
  | .subscribe c b :: rest => SubscriberMap.run nameOf (sm.Subscribe nameOf c b).1 rest
  | .unsubscribe c b :: rest => SubscriberMap.run nameOf (sm.Unsubscribe nameOf c b).1 rest

/-- No present inner map is empty: every `subscribers[n]` has an entry and every
`subscribers[n][b]` has a member. -/
def SubscriberMap.NoEmpty (sm : SubscriberMap) : Prop :=
  ∀ n inner, GoMap.lookup sm.subscribers n = some inner →
    inner ≠ [] ∧ ∀ b set, GoMap.lookup inner b = some set → set ≠ []

/-! ## messages.go -/

/-- A value handed to `WriteJSON`: a `map[string]string` literal, a `disconnectMessage`, a
`pingMessage` or a `channelMessage`. -/
inductive Message where
  | strMap (fields : List (String × String))
  | disconnect (type reason : String) (reconnect : Bool)
  | ping (type : String) (message : Int)
  | channel (identifier message : String)
deriving DecidableEq, Repr

/-- The package variable `welcomeMessage`. -/
def welcomeMessage : Message := .strMap [("type", "welcome")]

/-- The `command` struct: an inbound frame after decoding. -/
structure command where
  Identifier : String
  Command : String
  Data : String
deriving DecidableEq, Repr

/-! ## channel.go: data -/

/-- Address of a `Connection` object. -/
abbrev ConnPtr := Nat

/-- One call a user callback makes on the `*Channel` it is given. -/
inductive ChanOp where
  | StreamFrom (broadcasting : String)
  | StopStreamFrom (broadcasting : String)
  | StopAllStreams
  | Broadcast (broadcasting message : String)
  | Transmit (message : String)
  | Reject
deriving DecidableEq, Repr

/-- The exported fields of a `Channel`, which is what a user callback can read. -/
structure ChannelView where
  Name : String
  Params : String
  ConnIdentifier : Option String
  Identifier : String
deriving DecidableEq, Repr

/-- A user callback `func(*Channel)`: the calls it makes on the Channel, in order. -/
abbrev ChannelSubscribedCallback := ChannelView → List ChanOp

/-- A user callback `func(*Channel)`: the calls it makes on the Channel, in order. -/
abbrev ChannelUnsubscribedCallback := ChannelView → List ChanOp

/-- A user callback `func(*Channel, string)`. -/
abbrev ChannelPerformActionCallback := ChannelView → String → List ChanOp

/-- The `ChannelDescription` struct; `none` is a nil callback. -/
structure ChannelDescription where
  Name : String
  Subscribed : Option ChannelSubscribedCallback := none
  Unsubscribed : Option ChannelUnsubscribedCallback := none
  PerformAction : Option ChannelPerformActionCallback := none

/-- The two closures the source passes to `newChannel` as `onBroadcast`: the one of
`addSubscription`, which transmits the payload, and the one of
`subscribeToInternalChannel`, which closes the connection on a disconnect payload. -/
inductive BroadcastHandler where
  | transmit
  | internal
deriving DecidableEq, Repr

/-- The `Channel` struct.  `conn` and `pubsub` are the one connection and the one broker of
the `World`; `ConnIdentifier` and `conn.identifier` hold the `%v` rendering of the value. -/
structure Channel where
  Name : String
  Params : String
  ConnIdentifier : Option String
  Identifier : String
  isSubscriptionRejected : Bool
  isConfirmationSent : Bool
  descrption : ChannelDescription
  streams : GoSet String
  onBroadcast : BroadcastHandler

/-- What a callback sees of a Channel. -/
def Channel.view (c : Channel) : ChannelView :=
  { Name := c.Name, Params := c.Params, ConnIdentifier := c.ConnIdentifier,
    Identifier := c.Identifier }

/-! ## connection.go, cable.go: data -/

/-- The socket behind `IConn`: the values written with `WriteJSON`, and whether `Close` was
called. -/
structure IConn where
  messageBox : List Message
  isClosed : Bool
deriving DecidableEq, Repr

/-- The `Connection` struct.  `send` lists the values sent on the send pipe, `done` is true
once `close(conn.done)` ran, `mu` is true while the mutex is held. -/
structure Connection where
  identifier : Option String
  wsConn : IConn
  closed : Bool
  isInitialized : Bool
  send : List Message
  done : Bool
  channels : GoMap String (GoMap String ChanPtr)
  internalChannel : Option ChanPtr
  mu : Bool
deriving DecidableEq, Repr

/-- The `Cable` struct, without `Config`. -/
structure Cable where
  PubSub : SubscriberMap
  connections : GoSet ConnPtr
  channelDescriptions : GoMap String ChannelDescription

/-- A goroutine that was started and has not run yet. -/
inductive Goroutine where
  | streamFrom (c : ChanPtr) (broadcasting : String)
  | unsubscribe (c : ChanPtr) (broadcasting : String)
  | send (s : Sender)
deriving DecidableEq, Repr

/-- A call of a user callback, recorded when it is made. -/
inductive Call where
  | Subscribed (c : ChanPtr)
  | Unsubscribed (c : ChanPtr)
  | PerformAction (c : ChanPtr) (data : String)
deriving DecidableEq, Repr

/-- The program state: the Cable, the connection at address `self`, the Channel objects,
the goroutines waiting to run, the broker's work queue and the record of callback calls. -/
structure World where
  cable : Cable
  conn : Connection
  self : ConnPtr
  heap : ChanPtr → Channel
  next : ChanPtr
  pending : List Goroutine
  sending : List envelope
  calls : List Call

/-- How a call ends: it returns a value, or it waits for ever on the connection mutex. -/
inductive Outcome (α : Type) where
  | returned (value : α) (w : World)
  | blocked (w : World)

/-- The state a call ends in. -/
def Outcome.world {α : Type} : Outcome α → World
  | .returned _ w => w
  | .blocked w => w

/-- Whether the call returned. -/
def Outcome.isReturned {α : Type} : Outcome α → Bool
  | .returned _ _ => true
  | .blocked _ => false

/-- Write one Channel object. -/
def World.updChan (w : World) (c : ChanPtr) (f : Channel → Channel) : World :=
  { w with heap := Function.update w.heap c (f (w.heap c)) }

/-- The statement `conn.send <- m` as it runs while the writer goroutine is receiving: the
writer takes the value.  The writer returns once `close(conn.done)` ran (connection.go:82,
207-209); from then on the pipe, which has no buffer, has no receiver and the statement waits
for ever, so this definition stands for the statement only on a connection whose writer is
receiving (`World.Writing`). -/
def World.enqueue (w : World) (m : Message) : World :=
  { w with conn := { w.conn with send := w.conn.send ++ [m] } }

/-- The statement `go f()`. -/
def World.spawn (w : World) (g : Goroutine) : World :=
  { w with pending := w.pending ++ [g] }

/-- Replace the broker. -/
def World.setPubSub (w : World) (sm : SubscriberMap) : World :=
  { w with cable := { w.cable with PubSub := sm } }

/-- Replace `conn.channels`. -/
def World.setChannels (w : World) (m : GoMap String (GoMap String ChanPtr)) : World :=
  { w with conn := { w.conn with channels := m } }

/-- The field `c.Name` of the Channel at an address. -/
def World.nameOf (w : World) (c : ChanPtr) : String := (w.heap c).Name

/-- The Channel `conn.channels[n][id]`, `none` for nil. -/
def World.channelAt (w : World) (n id : String) : Option ChanPtr :=
  match GoMap.lookup w.conn.channels n with
  | none => none
  | some inner => GoMap.lookup inner id

/-- The statement `conn.mu.Lock()`: `none` when the mutex is held, in which case the caller
waits. -/
def World.lock (w : World) : Option World :=
  if w.conn.mu then none else some { w with conn := { w.conn with mu := true } }

/-- The statement `conn.mu.Unlock()`. -/
def World.unlock (w : World) : World :=
  { w with conn := { w.conn with mu := false } }

/-- What the deletion of the entry `subscribers[n][b]` is to a started goroutine: a goroutine
of `Broadcast` that ranges over that set is left with the deleted, empty object. -/
def Goroutine.detach (n b : String) : Goroutine → Goroutine
  | .send s => if s.set = some (n, b) then .send { s with set := none } else .send s
  | g => g

/-- The call `pubsub.Unsubscribe(c, b)`, with the goroutines of `Broadcast` that hold the set
it deletes from the map. -/
def World.pubsubUnsubscribe (w : World) (c : ChanPtr) (b : String) : World :=
  if (w.cable.PubSub.Unsubscribe w.nameOf c b).1.entry (w.nameOf c) b = none then
    { w.setPubSub (w.cable.PubSub.Unsubscribe w.nameOf c b).1 with
      pending := w.pending.map (Goroutine.detach (w.nameOf c) b) }
  else w.setPubSub (w.cable.PubSub.Unsubscribe w.nameOf c b).1

/-- The call `pubsub.Broadcast(n, b, message)`, with the goroutine it starts. -/
def World.pubsubBroadcast (w : World) (n b message : String) : World :=
  match (w.cable.PubSub.Broadcast n b message).started with
  | none => w.setPubSub (w.cable.PubSub.Broadcast n b message).sm
  | some s => (w.setPubSub (w.cable.PubSub.Broadcast n b message).sm).spawn (.send s)

/-! ## channel.go: operations -/

/-- `Channel.StreamFrom`. -/
def Channel.StreamFrom (w : World) (c : ChanPtr) (broadcasting : String) : World :=
  if (w.heap c).isSubscriptionRejected then w else w.spawn (.streamFrom c broadcasting)

/-- `Channel.StopStreamFrom`. -/
def Channel.StopStreamFrom (w : World) (c : ChanPtr) (broadcasting : String) : World :=
  (w.updChan c (fun ch => { ch with streams := GoSet.remove ch.streams broadcasting })).spawn
    (.unsubscribe c broadcasting)

/-- `Channel.StopAllStreams`: each iteration deletes the key it is at, so the range visits
every stream present at the start. -/
def Channel.StopAllStreams (w : World) (c : ChanPtr) : World :=
  (w.heap c).streams.foldl (fun w1 b => Channel.StopStreamFrom w1 c b) w

/-- `Channel.Broadcast`, on the JSON encoding of the message. -/
def Channel.Broadcast (w : World) (c : ChanPtr) (broadcasting message : String) : World :=
  w.pubsubBroadcast (w.heap c).Name broadcasting message

/-- `Channel.Transmit`. -/
def Channel.Transmit (w : World) (c : ChanPtr) (message : String) : World :=
  w.enqueue (.channel (w.heap c).Identifier message)

/-- `Channel.Reject`. -/
def Channel.Reject (w : World) (c : ChanPtr) : World :=
  w.updChan c (fun ch => { ch with isSubscriptionRejected := true })

/-- One call made by a user callback. -/
def Channel.exec (w : World) (c : ChanPtr) : ChanOp → World
  | .StreamFrom b => Channel.StreamFrom w c b
  | .StopStreamFrom b => Channel.StopStreamFrom w c b
  | .StopAllStreams => Channel.StopAllStreams w c
  | .Broadcast b m => Channel.Broadcast w c b m
  | .Transmit m => Channel.Transmit w c m
  | .Reject => Channel.Reject w c

/-- The body of a user callback. -/
def Channel.run (w : World) (c : ChanPtr) (ops : List ChanOp) : World :=
  ops.foldl (fun w1 op => Channel.exec w1 c op) w

/-- The call `c.descrption.Subscribed(c)`. -/
def Channel.callSubscribed (w : World) (c : ChanPtr) : World :=
  Channel.run { w with calls := w.calls ++ [.Subscribed c] } c
    (((w.heap c).descrption.Subscribed.getD (fun _ => [])) (w.heap c).view)

/-- The call `c.descrption.Unsubscribed(c)`. -/
def Channel.callUnsubscribed (w : World) (c : ChanPtr) : World :=
  Channel.run { w with calls := w.calls ++ [.Unsubscribed c] } c
    (((w.heap c).descrption.Unsubscribed.getD (fun _ => [])) (w.heap c).view)

/-- The call `c.descrption.PerformAction(c, data)`. -/
def Channel.callPerformAction (w : World) (c : ChanPtr) (data : String) : World :=
  Channel.run { w with calls := w.calls ++ [.PerformAction c data] } c
    (((w.heap c).descrption.PerformAction.getD (fun _ _ => [])) (w.heap c).view data)

/-- `Channel.transmitSubscriptionConfirmation`. -/
def Channel.transmitSubscriptionConfirmation (w : World) (c : ChanPtr) : World :=
  if (w.heap c).isConfirmationSent then w
  else
    (w.updChan c (fun ch => { ch with isConfirmationSent := true })).enqueue
      (.strMap [("identifier", (w.heap c).Identifier), ("type", "confirm_subscription")])

/-- `Channel.transmitSubscriptionRejection`. -/
def Channel.transmitSubscriptionRejection (w : World) (c : ChanPtr) : World :=
  w.enqueue (.strMap [("identifier", (w.heap c).Identifier), ("type", "reject_subscription")])

/-- The locked block of `Channel.unsubscribe`: delete `channels[c.Name][c.Identifier]`, then
delete `channels[c.Name]` when it has no entry. -/
def Channel.detach (w : World) (c : ChanPtr) : World :=
  let chans := w.conn.channels
  let chans1 :=
    match GoMap.lookup chans (w.heap c).Name with
    | none => chans
    | some inner => GoMap.store chans (w.heap c).Name (GoMap.delete inner (w.heap c).Identifier)
  let chans2 :=
    if GoMap.len ((GoMap.lookup chans1 (w.heap c).Name).getD []) = 0 then
      GoMap.delete chans1 (w.heap c).Name
    else chans1
  w.setChannels chans2

/-- The loop of `Channel.unsubscribe` over `c.streams`. -/
def Channel.unsubscribeStreams (w : World) (c : ChanPtr) : World :=
  (w.heap c).streams.foldl
    (fun w1 b => w1.pubsubUnsubscribe c b) w

/-- `Channel.unsubscribe`. -/
def Channel.unsubscribe (w : World) (c : ChanPtr) : Outcome Unit :=
  if w.conn.internalChannel ≠ some c then
    match w.lock with
    | none => .blocked w
    | some w1 =>
      .returned () (Channel.callUnsubscribed (Channel.unsubscribeStreams (Channel.detach w1 c).unlock c) c)
  else
    .returned () (Channel.callUnsubscribed (Channel.unsubscribeStreams w c) c)

/-- `Channel.performAction`. -/
def Channel.performAction (w : World) (c : ChanPtr) (data : String) : World :=
  if (w.heap c).isSubscriptionRejected then w else Channel.callPerformAction w c data

/-- `Channel.rejectSubscription`. -/
def Channel.rejectSubscription (w : World) (c : ChanPtr) : Outcome Unit :=
  match Channel.unsubscribe w c with
  | .blocked w1 => .blocked w1
  | .returned _ w1 => .returned () (Channel.transmitSubscriptionRejection w1 c)

/-- `newChannel`: nil callbacks of the description become callbacks that do nothing, and the
Channel is allocated at the next free address. -/
def newChannel (w : World) (identifier params : String) (cd : ChannelDescription)
    (onBroadcast : BroadcastHandler) : World × ChanPtr :=
  let cd1 : ChannelDescription :=
    { Name := cd.Name,
      Subscribed := some (cd.Subscribed.getD (fun _ => [])),
      Unsubscribed := some (cd.Unsubscribed.getD (fun _ => [])),
      PerformAction := some (cd.PerformAction.getD (fun _ _ => [])) }
  let ch : Channel :=
    { Name := cd.Name, ConnIdentifier := w.conn.identifier, Identifier := identifier,
      Params := params, onBroadcast := onBroadcast, descrption := cd1, streams := [],
      isSubscriptionRejected := false, isConfirmationSent := false }
  ({ w with heap := Function.update w.heap w.next ch, next := w.next + 1 }, w.next)

/-! ## Goroutines -/

/-- The body of a started goroutine: the one of `StreamFrom` (subscribe at the broker, add the
stream, confirm), the one of `StopStreamFrom` (unsubscribe at the broker), and the one of
`SubscriberMap.Broadcast`, which ranges over the set it holds as the set is when the
goroutine runs and sends one envelope per Channel on the work queue; where no worker
receives from the queue its first send waits for ever and no envelope is passed on. -/
def Goroutine.run (w : World) : Goroutine → World
  | .streamFrom c b =>
    let w1 := w.setPubSub (w.cable.PubSub.Subscribe w.nameOf c b).1
    let w2 := w1.updChan c (fun ch => { ch with streams := GoSet.add ch.streams b })
    Channel.transmitSubscriptionConfirmation w2 c
  | .unsubscribe c b => w.pubsubUnsubscribe c b
  | .send s =>
    match s.set with
    | none => w
    | some (n, b) =>
      if w.cable.PubSub.serving then
        { w with sending := w.sending ++
            (w.cable.PubSub.members n b).map (fun c => { receiver := c, message := s.message }) }
      else w

/-- Run the pending goroutines a schedule picks: each number is the position, among those
still pending, of the one that runs next; a position past the end picks none. -/
def World.runSched (w : World) : List Nat → World
  | [] => w
  | i :: rest =>
    match w.pending.get? i with
    | none => World.runSched w rest
    | some g => World.runSched (Goroutine.run { w with pending := w.pending.eraseIdx i } g) rest

/-- Run every pending goroutine, oldest first. -/
def World.settle (w : World) : World :=
  World.runSched w (List.replicate w.pending.length 0)

/-! ## channel.go: subscribe -/

/-- The locked block of `Channel.subscribe`: create `channels[channelName]` when it is nil,
then store the Channel under its identifier. -/
def Channel.install (w : World) (c : ChanPtr) (channelName : String) : World :=
  let chans := w.conn.channels
  let chans1 :=
    if GoMap.lookup chans channelName = none then GoMap.store chans channelName [] else chans
  let inner := (GoMap.lookup chans1 channelName).getD []
  w.setChannels (GoMap.store chans1 channelName (GoMap.store inner (w.heap c).Identifier c))

/-- `Channel.subscribe`.  `sched` names the goroutines that run between the return of the
`Subscribed` callback and the handler's test of the rejection flag. -/
def Channel.subscribe (sched : List Nat) (w : World) (c : ChanPtr) : Outcome Unit :=
  let channelName := (w.heap c).descrption.Name
  let w1 := World.runSched (Channel.callSubscribed w c) sched
  if (w1.heap c).isSubscriptionRejected then Channel.rejectSubscription w1 c
  else
    let w2 := if !(w1.heap c).isConfirmationSent then
      Channel.transmitSubscriptionConfirmation w1 c else w1
    match w2.lock with
    | none => .blocked w2
    | some w3 => .returned () (Channel.install w3 c channelName).unlock

/-- The state `Channel.subscribe` installs the Channel in: the one after the callback and
the scheduled goroutines, with the confirmation sent if it was not. -/
def Channel.confirmed (sched : List Nat) (w : World) (c : ChanPtr) : World :=
  if ((World.runSched (Channel.callSubscribed w c) sched).heap c).isConfirmationSent then
    World.runSched (Channel.callSubscribed w c) sched
  else Channel.transmitSubscriptionConfirmation (World.runSched (Channel.callSubscribed w c) sched) c

/-! ## connection.go: operations -/

/-- `Connection.addSubscription`. -/
def Connection.addSubscription (sched : List Nat) (w : World)
    (channelName subId params : String) : Outcome Unit :=
  match GoMap.lookup w.cable.channelDescriptions channelName with
  | none => .returned () w
  | some cd =>
    Channel.subscribe sched (newChannel w subId params cd .transmit).1
      (newChannel w subId params cd .transmit).2

/-- `Connection.performAction`. -/
def Connection.performAction (w : World) (channelName subId data : String) : World :=
  match w.channelAt channelName subId with
  | none => w
  | some c => Channel.performAction w c data

/-- `Connection.removeSubscription`. -/
def Connection.removeSubscription (w : World) (channelName subId : String) : Outcome Unit :=
  match w.channelAt channelName subId with
  | none => .returned () w
  | some c => Channel.unsubscribe w c

/-- `Connection.executeCommand`.  `unmarshal` is `json.Unmarshal` into
`struct{ChannelName string}`: `none` when it returns an error, else the decoded name, empty
when the key is absent.  A panic of a callback and the rescuer are not part of the model. -/
def Connection.executeCommand (unmarshal : String → Option String) (sched : List Nat)
    (w : World) (cmd : command) : Outcome (Option GoError) :=
  match unmarshal cmd.Identifier with
  | none => .returned (some (.decode cmd.Identifier)) w
  | some channelName =>
    if channelName = "" then .returned (some (.didntFindChannel cmd.Identifier)) w
    else if cmd.Command = "subscribe" then
      match Connection.addSubscription sched w channelName cmd.Identifier cmd.Identifier with
      | .blocked w1 => .blocked w1
      | .returned _ w1 => .returned none w1
    else if cmd.Command = "unsubscribe" then
      match Connection.removeSubscription w channelName cmd.Identifier with
      | .blocked w1 => .blocked w1
      | .returned _ w1 => .returned none w1
    else if cmd.Command = "message" then
      .returned none (Connection.performAction w channelName cmd.Identifier cmd.Data)
    else .returned (some (.unrecognizedCommand cmd.Command)) w

/-- The inner loop of `Close` over `conn.channels[channelName]`: an entry deleted before the
range reaches it is not produced. -/
def Connection.unsubscribeEach (channelName : String) :
    List (String × ChanPtr) → World → Outcome Unit
  | [], w => .returned () w
  | (subId, _) :: rest, w =>
    match w.channelAt channelName subId with
    | none => Connection.unsubscribeEach channelName rest w
    | some ch =>
      match Channel.unsubscribe w ch with
      | .blocked w1 => .blocked w1
      | .returned _ w1 => Connection.unsubscribeEach channelName rest w1

/-- The outer loop of `Close` over `conn.channels`. -/
def Connection.unsubscribeAll : List String → World → Outcome Unit
  | [], w => .returned () w
  | channelName :: rest, w =>
    match GoMap.lookup w.conn.channels channelName with
    | none => Connection.unsubscribeAll rest w
    | some inner =>
      match Connection.unsubscribeEach channelName inner w with
      | .blocked w1 => .blocked w1
      | .returned _ w1 => Connection.unsubscribeAll rest w1

/-- `closeConnection`: write the disconnect message, then close the socket. -/
def closeConnection (wsConn : IConn) (reason : String) (reconnect : Bool) : IConn :=
  { messageBox := wsConn.messageBox ++ [.disconnect "disconnect" reason reconnect],
    isClosed := true }

/-- `Connection.Close`. -/
def Connection.Close (w : World) (reason : String) : Outcome Unit :=
  match w.lock with
  | none => .blocked w
  | some w1 =>
    if w1.conn.closed then .returned () w1
    else
      let w2 := ({ w1 with conn := { w1.conn with closed := true } } : World).unlock
      let w3 : World :=
        { w2 with cable := { w2.cable with connections := GoSet.remove w2.cable.connections w2.self } }
      match Connection.unsubscribeAll (w3.conn.channels.map Prod.fst) w3 with
      | .blocked w4 => .blocked w4
      | .returned _ w4 =>
        let r : Outcome Unit :=
          match w4.conn.internalChannel with
          | none => .returned () w4
          | some ic => Channel.unsubscribe w4 ic
        match r with
        | .blocked w5 => .blocked w5
        | .returned _ w5 =>
          .returned ()
            { w5 with conn := { w5.conn with done := true,
                                             wsConn := closeConnection w5.conn.wsConn reason false } }

/-! ## Frames and example states -/

/-- What the calls of a user callback and the bodies of the goroutines leave as it is: the
registry, the connection set, every field of the connection but its send log, which only
grows, and the fields of the Channel objects that are written once, by `newChannel`. -/
structure World.Frame (w w' : World) : Prop where
  self : w'.self = w.self
  next : w'.next = w.next
  calls : w'.calls = w.calls
  descriptions : w'.cable.channelDescriptions = w.cable.channelDescriptions
  connections : w'.cable.connections = w.cable.connections
  identifier : w'.conn.identifier = w.conn.identifier
  wsConn : w'.conn.wsConn = w.conn.wsConn
  closed : w'.conn.closed = w.conn.closed
  isInitialized : w'.conn.isInitialized = w.conn.isInitialized
  done : w'.conn.done = w.conn.done
  channels : w'.conn.channels = w.conn.channels
  internalChannel : w'.conn.internalChannel = w.conn.internalChannel
  mu : w'.conn.mu = w.conn.mu
  name : ∀ p, (w'.heap p).Name = (w.heap p).Name
  ident : ∀ p, (w'.heap p).Identifier = (w.heap p).Identifier
  descr : ∀ p, (w'.heap p).descrption = (w.heap p).descrption
  params : ∀ p, (w'.heap p).Params = (w.heap p).Params
  connIdent : ∀ p, (w'.heap p).ConnIdentifier = (w.heap p).ConnIdentifier
  handler : ∀ p, (w'.heap p).onBroadcast = (w.heap p).onBroadcast
  send : ∃ l, w'.conn.send = w.conn.send ++ l

/-- The zero value of the `Channel` struct. -/
def Channel.zero : Channel :=
  { Name := "", Params := "", ConnIdentifier := none, Identifier := "",
    isSubscriptionRejected := false, isConfirmationSent := false,
    descrption := { Name := "" }, streams := [], onBroadcast := .transmit }

/-- The state after `Handle` accepted one socket: the connection at address 0 is in the
Cable's set, nothing is subscribed, no Channel is allocated. -/
def World.start (descriptions : GoMap String ChannelDescription) : World :=
  { cable := { PubSub := {}, connections := [0], channelDescriptions := descriptions },
    conn := { identifier := none, wsConn := { messageBox := [], isClosed := false },
              closed := false, isInitialized := true, send := [], done := false,
              channels := [], internalChannel := none, mu := false },
    self := 0, heap := fun _ => Channel.zero, next := 0, pending := [], sending := [],
    calls := [] }

/-- The identifier `{"channel":"RoomChannel","id":1}` of the examples. -/
def roomId : String := "\x7b\"channel\":\"RoomChannel\",\"id\":1\x7d"

/-- The identifier `{"channel":"ChatChannel"}` of the examples. -/
def chatId : String := "\x7b\"channel\":\"ChatChannel\"\x7d"

/-- The empty JSON object, an identifier without a channel name. -/
def emptyObject : String := "\x7b\x7d"

/-- The data `{"action":"run"}` of the examples. -/
def runAction : String := "\x7b\"action\":\"run\"\x7d"

/-- A decoder for the examples: `roomId` and `chatId` decode to their channel name, the
empty object decodes to the empty name, anything else is an error. -/
def exampleUnmarshal (identifier : String) : Option String :=
  if identifier = roomId then some "RoomChannel"
  else if identifier = chatId then some "ChatChannel"
  else if identifier = emptyObject then some ""
  else none

/-- A description of `RoomChannel` with no callbacks. -/
def plainRoom : ChannelDescription := { Name := "RoomChannel" }

/-- A connection on which `Close` has run once: closed, out of the Cable's set, its mutex
free. -/
def World.closedExample : World :=
  (Connection.Close (World.start [("RoomChannel", plainRoom)]) "close by remote.").world

/-- A description of `RoomChannel` whose `Subscribed` callback streams from `room_1` and
then rejects the subscription. -/
def rejectingRoom : ChannelDescription :=
  { Name := "RoomChannel", Subscribed := some (fun _ => [.StreamFrom "room_1", .Reject]) }

/-- A description of `RoomChannel` as in the tests: `Subscribed` streams from `room_1`, and
`PerformAction` stops all streams on the action `run`. -/
def streamingRoom : ChannelDescription :=
  { Name := "RoomChannel",
    Subscribed := some (fun _ => [.StreamFrom "room_1"]),
    PerformAction := some (fun _ data =>
      if data = runAction then [.StopAllStreams] else []) }

/-- The state after a client subscribed to `streamingRoom` and the goroutine of its
`StreamFrom` completed. -/
def World.subscribedExample : World :=
  (Connection.executeCommand exampleUnmarshal [] (World.start [("RoomChannel", streamingRoom)])
    ⟨roomId, "subscribe", ""⟩).world.settle

/-- Every subscription the broker holds for the Channel `c` is under the name of `c` and
for a broadcasting in the stream set of `c`. -/
def World.StreamsCover (w : World) (c : ChanPtr) : Prop :=
  ∀ n b, c ∈ w.cable.PubSub.members n b → n = (w.heap c).Name ∧ b ∈ (w.heap c).streams

/-- What `Channel.unsubscribe` leaves as it is besides: the frame without the channel map
and the record of callback calls. -/
structure World.Loose (w w' : World) : Prop where
  self : w'.self = w.self
  next : w'.next = w.next
  descriptions : w'.cable.channelDescriptions = w.cable.channelDescriptions
  connections : w'.cable.connections = w.cable.connections
  identifier : w'.conn.identifier = w.conn.identifier
  wsConn : w'.conn.wsConn = w.conn.wsConn
  closed : w'.conn.closed = w.conn.closed
  isInitialized : w'.conn.isInitialized = w.conn.isInitialized
  done : w'.conn.done = w.conn.done
  internalChannel : w'.conn.internalChannel = w.conn.internalChannel
  mu : w'.conn.mu = w.conn.mu
  name : ∀ p, (w'.heap p).Name = (w.heap p).Name
  ident : ∀ p, (w'.heap p).Identifier = (w.heap p).Identifier
  descr : ∀ p, (w'.heap p).descrption = (w.heap p).descrption

/-- The state `Channel.unsubscribe` returns in when it finds the mutex free and the Channel
is not the internal one. -/
def Channel.unsubscribed (w : World) (c : ChanPtr) : World :=
  Channel.callUnsubscribed (Channel.unsubscribeStreams (Channel.detach w c) c) c

/-- The Channels a channel map holds, in the order of its entries. -/
def ownedOf : GoMap String (GoMap String ChanPtr) → List ChanPtr
  | [] => []
  | e :: m => e.2.map Prod.snd ++ ownedOf m

/-- The Channels the connection owns. -/
def World.owned (w : World) : List ChanPtr := ownedOf w.conn.channels

/-- A channel map as `Channel.subscribe` and `Channel.unsubscribe` leave it: keys are
distinct at both levels, no inner map is empty, and each Channel sits under its own name
and identifier and is not the internal channel. -/
def MapWF (heap : ChanPtr → Channel) (ic : Option ChanPtr)
    (m : GoMap String (GoMap String ChanPtr)) : Prop :=
  (m.map Prod.fst).Nodup ∧
  ∀ e ∈ m, e.2 ≠ [] ∧ (e.2.map Prod.fst).Nodup ∧
    ∀ f ∈ e.2, (heap f.2).Name = e.1 ∧ (heap f.2).Identifier = f.1 ∧ ic ≠ some f.2

/-- The channel map of the connection is well formed. -/
def World.ChannelsWF (w : World) : Prop := MapWF w.heap w.conn.internalChannel w.conn.channels

/-- A connection that owns two Channels: one of `streamingRoom`, streaming from `room_1`,
and one of a `ChatChannel` without callbacks. -/
def World.twoChannels : World :=
  (Connection.executeCommand exampleUnmarshal []
    (Connection.executeCommand exampleUnmarshal []
      (World.start [("RoomChannel", streamingRoom), ("ChatChannel", { Name := "ChatChannel" })])
      ⟨roomId, "subscribe", ""⟩).world.settle
    ⟨chatId, "subscribe", ""⟩).world

/-! ## cable.go: RegisterChannel -/

/-- How `Cable.RegisterChannel` ends: the Cable afterwards, and whether it panicked. -/
structure RegisterResult where
  cable : Cable
  panicked : Bool

/-- `Cable.RegisterChannel`: it panics on an empty name and on a name that is registered,
before it writes anything. -/
def Cable.RegisterChannel (cb : Cable) (cd : ChannelDescription) : RegisterResult :=
  if cd.Name = "" then { cable := cb, panicked := true }
  else
    match GoMap.lookup cb.channelDescriptions cd.Name with
    | some _ => { cable := cb, panicked := true }
    | none =>
      { cable := { cb with
          channelDescriptions := GoMap.store cb.channelDescriptions cd.Name cd },
        panicked := false }

/-- A sequence of `RegisterChannel` calls, each panic recovered by the caller. -/
def Cable.registerAll (cb : Cable) : List ChannelDescription → Cable
  | [] => cb
  | cd :: rest => Cable.registerAll (cb.RegisterChannel cd).cable rest

/-- The registry invariant: keys are non-empty and distinct, and each key is the name of the
description it maps to. -/
def RegistryOK (m : GoMap String ChannelDescription) : Prop :=
  (m.map Prod.fst).Nodup ∧ ∀ e ∈ m, e.1 ≠ "" ∧ e.2.Name = e.1

/-! ## subscriber_map.go: Run -/

/-- How `SubscriberMap.Run` ends: the map afterwards, the returned error and the number of
worker goroutines its loop started. -/
structure RunResult where
  sm : SubscriberMap
  err : Option GoError
  spawned : Nat
deriving DecidableEq, Repr

/-- `SubscriberMap.Run`.  `newDone` and `newSending` are the channels the two `make` calls
return when they are reached.  The loop `for i := 0; i < n; i++` starts `n` workers, none
when `n` is negative. -/
def SubscriberMap.Run (sm : SubscriberMap) (newDone newSending : Nat) : RunResult :=
  let n := if sm.broadcastConcurrentNum = 0 then 100 else sm.broadcastConcurrentNum
  let done := if sm.done = none then some newDone else sm.done
  let sending := if sm.sending = none then some newSending else sm.sending
  { sm := { sm with
      broadcastConcurrentNum := n
      done := done
      sending := sending },
    err := none,
    spawned := n.toNat }

/-! ## cable.go: checkOrigin -/

/-- The loop of `checkOrigin` over the allowed hosts, for the parsed host `uHost`.  `none`
is the panic of `host[0]` on an empty entry; `host[1:]` is the entry without its first
byte, and `strings.HasSuffix` is the suffix test. -/
def checkOriginLoop (uHost : String) : List String → Option Bool
  | [] => some false
  | host :: rest =>
    match host.data with
    | [] => none
    | first :: tail =>
      if first = '*' ∧ tail.isSuffixOf uHost.data = true then some true
      else if uHost = host then some true
      else checkOriginLoop uHost rest

/-- `checkOrigin(hosts)` applied to a request whose `Origin` header is `origin`.
`toLower` is `strings.ToLower`, and `urlParse` is `url.Parse` followed by the field `Host`,
`none` when it returns an error. -/
def checkOrigin (toLower : String → String) (urlParse : String → Option String)
    (hosts : List String) (origin : String) : Option Bool :=
  if hosts.length = 0 then some true
  else
    match urlParse (toLower origin) with
    | none => some false
    | some uHost => checkOriginLoop uHost hosts

/-- A lower-casing for the examples: letter by letter on ASCII. -/
def exampleToLower (s : String) : String := String.mk (s.data.map Char.toLower)

/-- A URL parser for the examples: the host is what follows `http://`. -/
def exampleUrlParse (s : String) : Option String :=
  match s.data with
  | 'h' :: 't' :: 't' :: 'p' :: ':' :: '/' :: '/' :: host => some (String.mk host)
  | _ => none

/-! ## Example states for the claims on closed connections and on rejection -/

/-- A description of `RoomChannel` whose `Subscribed` callback rejects. -/
def refusingRoom : ChannelDescription :=
  { Name := "RoomChannel", Subscribed := some (fun _ => [.Reject]) }

/-- The state `World.subscribedExample` once the application state the `Subscribed` callback
of `RoomChannel` reads has changed, so that the callback now rejects. -/
def World.resubscribeExample : World :=
  { World.subscribedExample with
    cable := { World.subscribedExample.cable with
      channelDescriptions := [("RoomChannel", refusingRoom)] } }

/-- A connection of a Cable with `streamingRoom` registered on which a `Close`, called by
another goroutine, has set `closed` and released the mutex (connection.go:67-68) and has not
yet reached `close(conn.done)` (connection.go:82): the writer is still receiving. -/
def World.closingStreaming : World :=
  { World.start [("RoomChannel", streamingRoom)] with
    conn := { (World.start [("RoomChannel", streamingRoom)]).conn with closed := true } }

/-! ## connection.go: Setup and the internal channel; cable.go: DisconnectRemoteConnection -/

/-- The name `fmt.Sprintf("action_cable/%v", identifier)`, on the `%v` rendering of the
identifier. -/
def internalName (identifier : String) : String := "action_cable/" ++ identifier

/-- The bytes `json.Marshal(map[string]string{"type": "disconnect"})`. -/
def disconnectPayload : String := "\x7b\"type\":\"disconnect\"\x7d"

/-- `Connection.subscribeToInternalChannel`: the Channel is subscribed at the broker with
`PubSub.Subscribe` directly, so its stream set stays empty. -/
def Connection.subscribeToInternalChannel (w : World) : World :=
  match w.conn.identifier with
  | none => w
  | some identifier =>
    if w.conn.internalChannel ≠ none then w
    else
      let name := internalName identifier
      let w1 := (newChannel w name "" { Name := name } .internal).1
      let ch := (newChannel w name "" { Name := name } .internal).2
      let r := w1.cable.PubSub.Subscribe w1.nameOf ch (w1.heap ch).Name
      match r.2 with
      | some _ => w1.setPubSub r.1
      | none =>
        let w2 := w1.setPubSub r.1
        { w2 with conn := { w2.conn with internalChannel := some ch } }

/-- `Connection.Setup`.  The reader, the writer and the heartbeat goroutines it starts are
loops on the socket and the timer and are not part of the state; the welcome message is
recorded on the send log. -/
def Connection.Setup (w : World) : Outcome Unit :=
  match w.lock with
  | none => .blocked w
  | some w1 =>
    if w1.conn.isInitialized then .returned () w1.unlock
    else
      let w2 := w1.enqueue welcomeMessage
      let w3 := Connection.subscribeToInternalChannel w2
      .returned () ({ w3 with conn := { w3.conn with isInitialized := true } } : World).unlock

/-- `Cable.DisconnectRemoteConnection`, on the `%v` rendering of the identifier. -/
def Cable.DisconnectRemoteConnection (w : World) (identifier : String) : World :=
  w.pubsubBroadcast (internalName identifier) (internalName identifier) disconnectPayload

/-- The two uses of `json.Unmarshal` in the delivery handlers.  `decodeAny` decodes into an
`any`: `none` when it returns an error, else the value, as `WriteJSON` encodes it again.
`decodeType` decodes into `struct{Type string}`: whether it returned an error, and the field
`Type` after the call. -/
structure JsonLib where
  decodeAny : String → Option String
  decodeType : String → Bool × String

/-- The call `e.receiver.onBroadcast(e.receiver, e.message)` a worker of the broker makes
for an envelope it received.  The handler of `addSubscription` returns on a decoding error
and transmits the message otherwise; the handler of `subscribeToInternalChannel` logs a
decoding error, does not return on it, and closes the connection when `Type` is
`disconnect`. -/
def Channel.deliver (json : JsonLib) (w : World) (e : envelope) : Outcome Unit :=
  match (w.heap e.receiver).onBroadcast with
  | .transmit =>
    match json.decodeAny e.message with
    | none => .returned () w
    | some message => .returned () (Channel.Transmit w e.receiver message)
  | .internal =>
    if (json.decodeType e.message).2 = "disconnect" then Connection.Close w "close by remote."
    else .returned () w

/-- The connection `Cable.Handle` builds for an accepted socket, before it calls `Setup`. -/
def World.accepted (identifier : Option String)
    (descriptions : GoMap String ChannelDescription) : World :=
  { cable := { PubSub := {}, connections := [], channelDescriptions := descriptions },
    conn := { identifier := identifier, wsConn := { messageBox := [], isClosed := false },
              closed := false, isInitialized := false, send := [], done := false,
              channels := [], internalChannel := none, mu := false },
    self := 0, heap := fun _ => Channel.zero, next := 0, pending := [], sending := [],
    calls := [] }

/-- The state `Cable.Handle` returns in: `Setup` has run and the connection is in the Cable's
set. -/
def World.handled (identifier : Option String)
    (descriptions : GoMap String ChannelDescription) : World :=
  let w := (Connection.Setup (World.accepted identifier descriptions)).world
  { w with cable := { w.cable with connections := GoSet.add w.cable.connections w.self } }

/-- The payload `{"type":"disconnect","type":5}`. -/
def duplicateTypePayload : String := "\x7b\"type\":\"disconnect\",\"type\":5\x7d"

/-- The payload `{"type":"ping"}`. -/
def pingPayload : String := "\x7b\"type\":\"ping\"\x7d"

/-- The JSON decoder on the payloads of the examples, as `encoding/json` decodes them.  The
disconnect payload decodes to the type `disconnect` and `pingPayload` to `ping`, without an
error.  On `duplicateTypePayload` the decoder sets `Type` to `disconnect` at the first key,
reports the number at the second key as an `UnmarshalTypeError` and keeps what it has set: an
error, with `Type` left as `disconnect`.  The text `not json` is a syntax error, found before
anything is set, which leaves `Type` empty; so is taken any other text. -/
def exampleJson : JsonLib :=
  { decodeAny := fun s => some s,
    decodeType := fun s =>
      if s = disconnectPayload then (false, "disconnect")
      else if s = pingPayload then (false, "ping")
      else if s = duplicateTypePayload then (true, "disconnect")
      else (true, "") }

/-- The identifier `{"channel":"RoomChannel","id":2}` of a second subscription. -/
def secondRoomId : String := "\x7b\"channel\":\"RoomChannel\",\"id\":2\x7d"

/-- A decoder for the examples with two subscriptions to `RoomChannel`. -/
def roomsUnmarshal (identifier : String) : Option String :=
  if identifier = roomId ∨ identifier = secondRoomId then some "RoomChannel" else none

/-- The same state on a Cable built by `NewActionCable`, which calls `PubSub.Run()`: the
broker has its work queue, its done signal and its workers; `Run` leaves the subscribers as
they are, and nothing else reads the three fields it sets. -/
def World.brokerRunning (w : World) : World :=
  w.setPubSub (w.cable.PubSub.Run 0 1).sm

/-- The state `World.subscribedExample` with the broker running: Channel 0 is the one
subscriber of `room_1`. -/
def World.oneSubscriber : World := World.subscribedExample.brokerRunning

/-- The state `World.oneSubscriber` right after a call
`PubSub.Broadcast("RoomChannel", "room_1", p)` returned: the goroutine it started has not
run yet. -/
def World.broadcastPending : World :=
  World.oneSubscriber.pubsubBroadcast "RoomChannel" "room_1" "\"hello\""

/-- A connection of a Cable with `streamingRoom` registered on which `Close` has completed:
`done` is closed and the writer has returned. -/
def World.closedStreaming : World :=
  (Connection.Close (World.start [("RoomChannel", streamingRoom)]) "close by client.").world

/-- The subscribe handler on `World.closedStreaming` up to the return of the `Subscribed`
callback (connection.go:140-150, channel.go:129): the Channel is built and the callback has
called `StreamFrom`. -/
def World.closedCallback : World :=
  Channel.callSubscribed (newChannel World.closedStreaming roomId roomId streamingRoom
    .transmit).1 0

/-- The connection with the identifier `u7` as `Handle` set it up, with the broker
running. -/
def World.remoteExample : World := (World.handled (some "u7") []).brokerRunning

/-- The state `World.broadcastPending` after a second client subscription to `RoomChannel`
was handled: the goroutine of its `StreamFrom` is pending behind the one of `Broadcast`. -/
def World.lateSubscriber : World :=
  (Connection.executeCommand roomsUnmarshal [] World.broadcastPending
    ⟨secondRoomId, "subscribe", ""⟩).world

/-- The state `World.broadcastPending` after the unsubscribe command of the one subscriber
was handled. -/
def World.earlyLeaver : World :=
  (Connection.executeCommand exampleUnmarshal [] World.broadcastPending
    ⟨roomId, "unsubscribe", ""⟩).world

/-- The Channel `c` has no subscribe in flight, and every subscription the broker holds for
it is under its name and for a broadcasting that is in its stream set or has an unsubscribe
on the way. -/
def World.Settled (w : World) (c : ChanPtr) : Prop :=
  (∀ b, Goroutine.streamFrom c b ∉ w.pending) ∧
  ∀ n b, c ∈ w.cable.PubSub.members n b →
    n = (w.heap c).Name ∧ (b ∈ (w.heap c).streams ∨ Goroutine.unsubscribe c b ∈ w.pending)

/-- The state `World.subscribedExample` after the Channel also called `StreamFrom` for
`room_2` and the goroutine of that call completed. -/
def World.twoStreams : World :=
  World.runSched (Channel.StreamFrom World.subscribedExample 0 "room_2") [0]

/-- Whether a goroutine is a subscribe started by `StreamFrom` on the Channel `c`. -/
def Goroutine.isStreamFrom (c : ChanPtr) : Goroutine → Bool
  | .streamFrom c' _ => decide (c' = c)
  | _ => false

/-- The writer goroutine is receiving from the send pipe: `Setup` has run, which started it
(connection.go:50), and `done` is not closed, on which it returns (connection.go:207-209). -/
def World.Writing (w : World) : Prop :=
  w.conn.isInitialized = true ∧ w.conn.done = false

/-! ## Lemmas on maps and sets -/

section MapLemmas

variable {K V : Type} [DecidableEq K]

theorem GoMap.lookup_store_same (m : GoMap K V) (k : K) (v : V) :
    GoMap.lookup (GoMap.store m k v) k = some v := by
  induction m with
  | nil => simp [GoMap.store, GoMap.lookup]
  | cons e m ih =>
    obtain ⟨k', v'⟩ := e
    by_cases h : k' = k <;> simp [GoMap.store, GoMap.lookup, h, ih]

theorem GoMap.lookup_store_ne (m : GoMap K V) (k k' : K) (v : V) (h : k ≠ k') :
    GoMap.lookup (GoMap.store m k v) k' = GoMap.lookup m k' := by
  induction m with
  | nil => simp [GoMap.store, GoMap.lookup, h]
  | cons e m ih =>
    obtain ⟨k0, v0⟩ := e
    by_cases h0 : k0 = k
    · subst h0
      simp [GoMap.store, GoMap.lookup, h]
    · by_cases h1 : k0 = k'
      · subst h1
        simp [GoMap.store, GoMap.lookup, h0]
      · simp [GoMap.store, GoMap.lookup, h0, h1, ih]

theorem GoMap.lookup_delete_same (m : GoMap K V) (k : K) :
    GoMap.lookup (GoMap.delete m k) k = none := by
  induction m with
  | nil => simp [GoMap.delete, GoMap.lookup]
  | cons e m ih =>
    obtain ⟨k0, v0⟩ := e
    by_cases h0 : k0 = k <;> simp [GoMap.delete, GoMap.lookup, h0, ih]

theorem GoMap.lookup_delete_ne (m : GoMap K V) (k k' : K) (h : k ≠ k') :
    GoMap.lookup (GoMap.delete m k) k' = GoMap.lookup m k' := by
  induction m with
  | nil => simp [GoMap.delete, GoMap.lookup]
  | cons e m ih =>
    obtain ⟨k0, v0⟩ := e
    by_cases h0 : k0 = k
    · subst h0
      simp [GoMap.delete, GoMap.lookup, h, ih]
    · by_cases h1 : k0 = k'
      · subst h1
        simp [GoMap.delete, GoMap.lookup, h0]
      · simp [GoMap.delete, GoMap.lookup, h0, h1, ih]

theorem GoMap.store_lookup_self (m : GoMap K V) (k : K) (v : V)
    (h : GoMap.lookup m k = some v) : GoMap.store m k v = m := by
  induction m with
  | nil => simp [GoMap.lookup] at h
  | cons e m ih =>
    obtain ⟨k0, v0⟩ := e
    by_cases h0 : k0 = k
    · subst h0
      simp [GoMap.lookup] at h
      simp [GoMap.store, h]
    · simp [GoMap.lookup, h0] at h
      simp [GoMap.store, h0, ih h]

theorem GoMap.store_store (m : GoMap K V) (k : K) (v v' : V) :
    GoMap.store (GoMap.store m k v) k v' = GoMap.store m k v' := by
  induction m with
  | nil => simp [GoMap.store]
  | cons e m ih =>
    obtain ⟨k0, v0⟩ := e
    by_cases h0 : k0 = k <;> simp [GoMap.store, h0, ih]

theorem GoMap.delete_of_lookup_none (m : GoMap K V) (k : K)
    (h : GoMap.lookup m k = none) : GoMap.delete m k = m := by
  induction m with
  | nil => simp [GoMap.delete]
  | cons e m ih =>
    obtain ⟨k0, v0⟩ := e
    by_cases h0 : k0 = k
    · simp [GoMap.lookup, h0] at h
    · simp only [GoMap.lookup, h0, if_false] at h
      simp [GoMap.delete, h0, ih h]

theorem GoMap.delete_store_of_lookup_none (m : GoMap K V) (k : K) (v : V)
    (h : GoMap.lookup m k = none) : GoMap.delete (GoMap.store m k v) k = m := by
  induction m with
  | nil => simp [GoMap.store, GoMap.delete]
  | cons e m ih =>
    obtain ⟨k0, v0⟩ := e
    by_cases h0 : k0 = k
    · simp [GoMap.lookup, h0] at h
    · simp only [GoMap.lookup, h0, if_false] at h
      simp [GoMap.store, GoMap.delete, h0, ih h]

theorem GoMap.lookup_nil (k : K) : GoMap.lookup ([] : GoMap K V) k = none := rfl

omit [DecidableEq K] in
theorem GoMap.eq_nil_of_len (m : GoMap K V) (h : GoMap.len m = 0) : m = [] := by
  simpa [GoMap.len] using h

theorem GoMap.store_ne_nil (m : GoMap K V) (k : K) (v : V) : GoMap.store m k v ≠ [] := by
  intro h
  have := GoMap.lookup_store_same m k v
  rw [h] at this
  simp [GoMap.lookup] at this

theorem GoSet.mem_add {s : GoSet K} {k x : K} : x ∈ GoSet.add s k ↔ x ∈ s ∨ x = k := by
  unfold GoSet.add
  split
  · constructor
    · intro h; exact Or.inl h
    · rintro (h | h)
      · exact h
      · subst h; assumption
  · simp

theorem GoSet.mem_remove {s : GoSet K} {k x : K} : x ∈ GoSet.remove s k ↔ x ∈ s ∧ x ≠ k := by
  simp [GoSet.remove]

theorem GoSet.add_ne_nil (s : GoSet K) (k : K) : GoSet.add s k ≠ [] := by
  intro h
  have : k ∈ GoSet.add s k := GoSet.mem_add.mpr (Or.inr rfl)
  rw [h] at this
  simp at this

theorem GoSet.add_of_mem {s : GoSet K} {k : K} (h : k ∈ s) : GoSet.add s k = s := by
  simp [GoSet.add, h]

theorem GoSet.remove_add_of_not_mem {s : GoSet K} {k : K} (h : k ∉ s) :
    GoSet.remove (GoSet.add s k) k = s := by
  have e : List.filter (fun x => !decide (x = k)) s = s := by
    rw [List.filter_eq_self]
    intro a ha
    have : a ≠ k := fun e => h (e ▸ ha)
    simp [this]
  simp [GoSet.add, h, GoSet.remove, List.filter_append, e]

theorem GoSet.remove_of_not_mem {s : GoSet K} {k : K} (h : k ∉ s) : GoSet.remove s k = s := by
  unfold GoSet.remove
  rw [List.filter_eq_self]
  intro a ha
  have : a ≠ k := fun e => h (e ▸ ha)
  simp [this]

end MapLemmas

/-! ## The broker as a set of subscriptions -/

theorem SubscriberMap.members_Subscribe (nameOf : ChanPtr → String) (sm : SubscriberMap)
    (c : ChanPtr) (b n' b' : String) :
    (sm.Subscribe nameOf c b).1.members n' b' =
      if n' = nameOf c ∧ b' = b then GoSet.add (sm.members n' b') c else sm.members n' b' := by
  unfold SubscriberMap.Subscribe SubscriberMap.members
  by_cases hn : n' = nameOf c
  · subst hn
    by_cases hb : b' = b
    · subst hb
      cases h1 : GoMap.lookup sm.subscribers (nameOf c) with
      | none => simp [GoMap.lookup_store_same, GoMap.store_store, GoMap.lookup_nil, h1]
      | some inner =>
        cases h2 : GoMap.lookup inner b' with
        | none => simp [GoMap.lookup_store_same, GoMap.store_store, h1, h2]
        | some set => simp [GoMap.lookup_store_same, h1, h2]
    · have hb2 : b ≠ b' := fun e => hb e.symm
      cases h1 : GoMap.lookup sm.subscribers (nameOf c) with
      | none =>
        simp [GoMap.lookup_store_same, GoMap.store_store, GoMap.lookup_nil, hb, h1,
          GoMap.lookup_store_ne _ _ _ _ hb2]
      | some inner =>
        cases h2 : GoMap.lookup inner b with
        | none =>
          simp [GoMap.lookup_store_same, GoMap.store_store, h1, h2, hb,
            GoMap.lookup_store_ne _ _ _ _ hb2]
        | some set =>
          simp [GoMap.lookup_store_same, h1, h2, hb, GoMap.lookup_store_ne _ _ _ _ hb2]
  · have hn2 : nameOf c ≠ n' := fun e => hn e.symm
    cases h1 : GoMap.lookup sm.subscribers (nameOf c) with
    | none => simp [hn, GoMap.lookup_store_ne _ _ _ _ hn2, GoMap.store_store, h1]
    | some inner => simp [hn, GoMap.lookup_store_ne _ _ _ _ hn2, h1]

theorem SubscriberMap.members_Unsubscribe (nameOf : ChanPtr → String) (sm : SubscriberMap)
    (c : ChanPtr) (b n' b' : String) :
    (sm.Unsubscribe nameOf c b).1.members n' b' =
      if n' = nameOf c ∧ b' = b then GoSet.remove (sm.members n' b') c
      else sm.members n' b' := by
  unfold SubscriberMap.Unsubscribe
  cases h1 : GoMap.lookup sm.subscribers (nameOf c) with
  | none =>
    by_cases hn : n' = nameOf c
    · subst hn
      simp [SubscriberMap.members, h1, GoSet.remove]
    · simp [hn]
  | some inner =>
    dsimp only
    cases h2 : GoMap.lookup inner b with
    | none =>
      dsimp only
      by_cases hn : n' = nameOf c
      · subst hn
        by_cases hb : b' = b
        · subst hb
          simp [SubscriberMap.members, h1, h2, GoSet.remove]
        · simp [hb]
      · simp [hn]
    | some set =>
      dsimp only
      by_cases hn : n' = nameOf c
      · subst hn
        by_cases hb : b' = b
        · subst hb
          by_cases he : (GoSet.remove set c).length = 0
          · have hnil : GoSet.remove set c = [] := List.length_eq_zero.mp he
            rw [hnil]
            by_cases hl : GoMap.len (GoMap.delete (GoMap.store inner b' []) b') = 0
            · simp [SubscriberMap.members, h1, h2, hl, GoMap.lookup_delete_same, hnil]
            · simp [SubscriberMap.members, h1, h2, hl, GoMap.lookup_delete_same,
                GoMap.lookup_store_same, hnil]
          · by_cases hl : GoMap.len (GoMap.store inner b' (GoSet.remove set c)) = 0
            · exact absurd (GoMap.eq_nil_of_len _ hl) (GoMap.store_ne_nil _ _ _)
            · simp [SubscriberMap.members, h1, h2, he, hl, GoMap.lookup_store_same]
        · have hb2 : b ≠ b' := fun e => hb e.symm
          by_cases he : (GoSet.remove set c).length = 0
          · have hnil : GoSet.remove set c = [] := List.length_eq_zero.mp he
            rw [hnil]
            by_cases hl : GoMap.len (GoMap.delete (GoMap.store inner b []) b) = 0
            · have hnil2 := GoMap.eq_nil_of_len _ hl
              have := GoMap.lookup_delete_ne (GoMap.store inner b ([] : GoSet ChanPtr)) b b' hb2
              rw [hnil2, GoMap.lookup_store_ne _ _ _ _ hb2] at this
              simp [SubscriberMap.members, h1, hl, GoMap.lookup_delete_same, hb, ← this,
                GoMap.lookup_nil]
            · simp [SubscriberMap.members, h1, hl, GoMap.lookup_store_same, hb,
                GoMap.lookup_delete_ne _ _ _ hb2, GoMap.lookup_store_ne _ _ _ _ hb2]
          · by_cases hl : GoMap.len (GoMap.store inner b (GoSet.remove set c)) = 0
            · exact absurd (GoMap.eq_nil_of_len _ hl) (GoMap.store_ne_nil _ _ _)
            · simp [SubscriberMap.members, h1, he, hl, GoMap.lookup_store_same, hb,
                GoMap.lookup_store_ne _ _ _ _ hb2]
      · have hn2 : nameOf c ≠ n' := fun e => hn e.symm
        simp only [hn, false_and, if_false]
        simp only [SubscriberMap.members]
        split_ifs <;>
          simp [GoMap.lookup_delete_ne _ _ _ hn2, GoMap.lookup_store_ne _ _ _ _ hn2]

theorem SubscriberMap.noEmpty_Subscribe (nameOf : ChanPtr → String) (sm : SubscriberMap)
    (c : ChanPtr) (b : String) (h : sm.NoEmpty) : (sm.Subscribe nameOf c b).1.NoEmpty := by
  intro n inner hn
  unfold SubscriberMap.Subscribe at hn
  dsimp only at hn
  by_cases e : nameOf c = n
  · subst e
    rw [GoMap.lookup_store_same] at hn
    injection hn with hn
    subst hn
    refine ⟨GoMap.store_ne_nil _ _ _, ?_⟩
    intro b' set hb'
    by_cases eb : b = b'
    · subst eb
      rw [GoMap.lookup_store_same] at hb'
      injection hb' with hb'
      subst hb'
      exact GoSet.add_ne_nil _ _
    · rw [GoMap.lookup_store_ne _ _ _ _ eb] at hb'
      cases h1 : GoMap.lookup sm.subscribers (nameOf c) with
      | none =>
        simp [h1, GoMap.lookup_store_same, GoMap.lookup_nil, GoMap.lookup_store_ne _ _ _ _ eb]
          at hb'
      | some inner0 =>
        have h0 := (h _ _ h1).2 b' set
        by_cases h2 : GoMap.lookup inner0 b = none
        · simp [h1, h2, GoMap.lookup_store_ne _ _ _ _ eb] at hb'
          exact h0 hb'
        · simp [h1, h2] at hb'
          exact h0 hb'
  · rw [GoMap.lookup_store_ne _ _ _ _ e] at hn
    by_cases h1 : GoMap.lookup sm.subscribers (nameOf c) = none
    · simp only [h1, if_true, GoMap.lookup_store_ne _ _ _ _ e] at hn
      exact h _ _ hn
    · simp only [h1, if_false] at hn
      exact h _ _ hn

theorem SubscriberMap.noEmpty_Unsubscribe (nameOf : ChanPtr → String) (sm : SubscriberMap)
    (c : ChanPtr) (b : String) (h : sm.NoEmpty) : (sm.Unsubscribe nameOf c b).1.NoEmpty := by
  unfold SubscriberMap.Unsubscribe
  cases h1 : GoMap.lookup sm.subscribers (nameOf c) with
  | none => exact h
  | some inner =>
    dsimp only
    cases h2 : GoMap.lookup inner b with
    | none => exact h
    | some set =>
      dsimp only
      intro n inner' hn
      dsimp only at hn
      by_cases he : (GoSet.remove set c).length = 0
      · rw [if_pos he] at hn
        by_cases hl : GoMap.len (GoMap.delete (GoMap.store inner b (GoSet.remove set c)) b) = 0
        · rw [if_pos hl] at hn
          by_cases e : nameOf c = n
          · subst e
            rw [GoMap.lookup_delete_same] at hn
            exact absurd hn (by simp)
          · rw [GoMap.lookup_delete_ne _ _ _ e, GoMap.lookup_store_ne _ _ _ _ e] at hn
            exact h _ _ hn
        · rw [if_neg hl] at hn
          by_cases e : nameOf c = n
          · subst e
            rw [GoMap.lookup_store_same] at hn
            injection hn with hn
            subst hn
            refine ⟨fun e0 => hl (by rw [e0]; rfl), ?_⟩
            intro b' set' hb'
            by_cases eb : b = b'
            · subst eb
              rw [GoMap.lookup_delete_same] at hb'
              exact absurd hb' (by simp)
            · rw [GoMap.lookup_delete_ne _ _ _ eb, GoMap.lookup_store_ne _ _ _ _ eb] at hb'
              exact (h _ _ h1).2 _ _ hb'
          · rw [GoMap.lookup_store_ne _ _ _ _ e] at hn
            exact h _ _ hn
      · rw [if_neg he] at hn
        have hl : ¬ GoMap.len (GoMap.store inner b (GoSet.remove set c)) = 0 :=
          fun e => GoMap.store_ne_nil _ _ _ (GoMap.eq_nil_of_len _ e)
        rw [if_neg hl] at hn
        by_cases e : nameOf c = n
        · subst e
          rw [GoMap.lookup_store_same] at hn
          injection hn with hn
          subst hn
          refine ⟨GoMap.store_ne_nil _ _ _, ?_⟩
          intro b' set' hb'
          by_cases eb : b = b'
          · subst eb
            rw [GoMap.lookup_store_same] at hb'
            injection hb' with hb'
            subst hb'
            exact fun e0 => he (by rw [e0]; rfl)
          · rw [GoMap.lookup_store_ne _ _ _ _ eb] at hb'
            exact (h _ _ h1).2 _ _ hb'
        · rw [GoMap.lookup_store_ne _ _ _ _ e] at hn
          exact h _ _ hn

theorem SubscriberMap.noEmpty_run (nameOf : ChanPtr → String) (calls : List SMCall) :
    ∀ sm : SubscriberMap, sm.NoEmpty → (sm.run nameOf calls).NoEmpty := by
  induction calls with
  | nil => intro sm h; exact h
  | cons call rest ih =>
    intro sm h
    cases call with
    | subscribe c b => exact ih _ (SubscriberMap.noEmpty_Subscribe nameOf sm c b h)
    | unsubscribe c b => exact ih _ (SubscriberMap.noEmpty_Unsubscribe nameOf sm c b h)

theorem SubscriberMap.Subscribe_eq (nameOf : ChanPtr → String) (sm : SubscriberMap)
    (c : ChanPtr) (b : String) :
    (sm.Subscribe nameOf c b).1 =
      { sm with
        subscribers := (GoMap.store sm.subscribers (nameOf c)
          (GoMap.store ((GoMap.lookup sm.subscribers (nameOf c)).getD []) b
            (GoSet.add (sm.members (nameOf c) b) c))) } := by
  unfold SubscriberMap.Subscribe SubscriberMap.members
  cases h1 : GoMap.lookup sm.subscribers (nameOf c) with
  | none => simp [GoMap.lookup_store_same, GoMap.store_store, GoMap.lookup_nil, h1]
  | some inner =>
    cases h2 : GoMap.lookup inner b with
    | none => simp [GoMap.lookup_store_same, GoMap.store_store, h1, h2]
    | some set => simp [h1, h2]

theorem SubscriberMap.unsubscribe_subscribe (nameOf : ChanPtr → String) (sm : SubscriberMap)
    (c : ChanPtr) (b : String) (h : sm.NoEmpty) (hc : c ∉ sm.members (nameOf c) b) :
    ((sm.Subscribe nameOf c b).1.Unsubscribe nameOf c b).1 = sm := by
  rw [SubscriberMap.Subscribe_eq]
  have hrem := GoSet.remove_add_of_not_mem hc
  obtain ⟨num, done, sending, subs⟩ := sm
  unfold SubscriberMap.NoEmpty at h
  unfold SubscriberMap.members at hc hrem ⊢
  dsimp only at h hc hrem ⊢
  unfold SubscriberMap.Unsubscribe
  dsimp only
  rw [GoMap.lookup_store_same]
  dsimp only
  rw [GoMap.lookup_store_same]
  dsimp only
  rw [hrem, GoMap.store_store, GoMap.store_store]
  cases h1 : GoMap.lookup subs (nameOf c) with
  | none =>
    have e1 : GoMap.delete (GoMap.store ([] : GoMap String (GoSet ChanPtr)) b []) b = [] := by
      simp [GoMap.store, GoMap.delete]
    simp only [Option.getD_none, GoMap.lookup_nil, List.length_nil, if_true, e1, GoMap.len]
    rw [GoMap.delete_store_of_lookup_none _ _ _ h1]
  | some inner =>
    have hne := (h _ _ h1).1
    have hlen : ¬ GoMap.len inner = 0 := fun e => hne (GoMap.eq_nil_of_len _ e)
    dsimp only [Option.getD_some]
    cases h2 : GoMap.lookup inner b with
    | none =>
      simp only [Option.getD_none, List.length_nil, if_true]
      rw [GoMap.delete_store_of_lookup_none _ _ _ h2, if_neg hlen,
        GoMap.store_lookup_self _ _ _ h1]
    | some set =>
      have hset := (h _ _ h1).2 _ _ h2
      have hsl : ¬ set.length = 0 := fun e => hset (List.length_eq_zero.mp e)
      simp only [Option.getD_some]
      rw [if_neg hsl, GoMap.store_lookup_self _ _ _ h2, if_neg hlen,
        GoMap.store_lookup_self _ _ _ h1]

theorem SubscriberMap.Broadcast_started (sm : SubscriberMap) (n b p : String) :
    (sm.Broadcast n b p).started =
      if sm.entry n b = none then none else some { set := some (n, b), message := p } := by
  unfold SubscriberMap.Broadcast SubscriberMap.entry
  cases GoMap.lookup sm.subscribers n with
  | none => rfl
  | some inner =>
    dsimp only
    cases GoMap.lookup inner b <;> rfl

theorem SubscriberMap.Broadcast_sm (sm : SubscriberMap) (n b p : String) :
    (sm.Broadcast n b p).sm = sm := by
  unfold SubscriberMap.Broadcast
  cases GoMap.lookup sm.subscribers n with
  | none => rfl
  | some inner =>
    dsimp only
    cases GoMap.lookup inner b <;> rfl

theorem SubscriberMap.Broadcast_err (sm : SubscriberMap) (n b p : String) :
    (sm.Broadcast n b p).err = none := by
  unfold SubscriberMap.Broadcast
  cases GoMap.lookup sm.subscribers n with
  | none => rfl
  | some inner =>
    dsimp only
    cases GoMap.lookup inner b <;> rfl

theorem SubscriberMap.members_of_entry_none (sm : SubscriberMap) (n b : String)
    (h : sm.entry n b = none) : sm.members n b = [] := by
  unfold SubscriberMap.entry at h
  unfold SubscriberMap.members
  cases h1 : GoMap.lookup sm.subscribers n with
  | none => rfl
  | some inner =>
    rw [h1] at h
    dsimp only at h ⊢
    rw [h]
    rfl

/-! ## Claims on the broker -/

theorem SubscriberMap.unsubscribe_absent (nameOf : ChanPtr → String) (sm : SubscriberMap)
    (c : ChanPtr) (b : String) (h : sm.NoEmpty) (hc : c ∉ sm.members (nameOf c) b) :
    (sm.Unsubscribe nameOf c b).1 = sm := by
  obtain ⟨num, done, sending, subs⟩ := sm
  unfold SubscriberMap.NoEmpty at h
  unfold SubscriberMap.members at hc
  dsimp only at h hc
  unfold SubscriberMap.Unsubscribe
  dsimp only
  cases h1 : GoMap.lookup subs (nameOf c) with
  | none => rfl
  | some inner =>
    rw [h1] at hc
    dsimp only at hc ⊢
    cases h2 : GoMap.lookup inner b with
    | none => rfl
    | some set =>
      rw [h2] at hc
      have hc2 : c ∉ set := by simpa using hc
      have hset := (h _ _ h1).2 _ _ h2
      have hsl : ¬ set.length = 0 := fun e => hset (List.length_eq_zero.mp e)
      have hne := (h _ _ h1).1
      have hlen : ¬ GoMap.len inner = 0 := fun e => hne (GoMap.eq_nil_of_len _ e)
      dsimp only
      rw [GoSet.remove_of_not_mem hc2, if_neg hsl, GoMap.store_lookup_self _ _ _ h2, if_neg hlen,
        GoMap.store_lookup_self _ _ _ h1]

theorem SubscriberMap.Subscribe_idem (nameOf : ChanPtr → String) (sm : SubscriberMap)
    (c : ChanPtr) (b : String) :
    ((sm.Subscribe nameOf c b).1.Subscribe nameOf c b).1 = (sm.Subscribe nameOf c b).1 := by
  have hm := SubscriberMap.members_Subscribe nameOf sm c b (nameOf c) b
  rw [if_pos ⟨rfl, rfl⟩] at hm
  rw [SubscriberMap.Subscribe_eq nameOf (sm.Subscribe nameOf c b).1, hm]
  rw [SubscriberMap.Subscribe_eq nameOf sm]
  dsimp only
  rw [GoMap.lookup_store_same]
  dsimp only [Option.getD_some]
  rw [GoSet.add_of_mem (GoSet.mem_add.mpr (Or.inr rfl)), GoMap.store_store, GoMap.store_store]

/-- C7: the broker behaves as a set of (Channel, broadcasting) pairs keyed by the Channel's
name.  After `Subscribe(c, b)` a Channel `c'` is in `subscribers[c'.Name][b']` iff it was
there or `(c', b') = (c, b)`; after `Unsubscribe(c, b)` iff it was there and
`(c', b') ≠ (c, b)`.  A second `Subscribe` of the same pair changes nothing and the Channel
is listed once; `Unsubscribe` of an absent pair changes no membership, and nothing at all
when the map has no empty inner map; both return a nil error. -/
theorem C7_subscribe_unsubscribe_set_semantics (nameOf : ChanPtr → String)
    (sm : SubscriberMap) (c c' : ChanPtr) (b b' : String) :
    (c' ∈ (sm.Subscribe nameOf c b).1.members (nameOf c') b' ↔
        c' ∈ sm.members (nameOf c') b' ∨ (c' = c ∧ b' = b)) ∧
    (c' ∈ (sm.Unsubscribe nameOf c b).1.members (nameOf c') b' ↔
        c' ∈ sm.members (nameOf c') b' ∧ ¬ (c' = c ∧ b' = b)) ∧
    ((sm.Subscribe nameOf c b).1.Subscribe nameOf c b).1 = (sm.Subscribe nameOf c b).1 ∧
    ((sm.members (nameOf c) b).count c ≤ 1 →
        ((sm.Subscribe nameOf c b).1.members (nameOf c) b).count c = 1) ∧
    (c ∉ sm.members (nameOf c) b →
        ∀ n2 b2, (sm.Unsubscribe nameOf c b).1.members n2 b2 = sm.members n2 b2) ∧
    (sm.NoEmpty → c ∉ sm.members (nameOf c) b → (sm.Unsubscribe nameOf c b).1 = sm) ∧
    (sm.Subscribe nameOf c b).2 = none ∧ (sm.Unsubscribe nameOf c b).2 = none := by
  refine ⟨?_, ?_, SubscriberMap.Subscribe_idem nameOf sm c b, ?_, ?_,
    SubscriberMap.unsubscribe_absent nameOf sm c b, rfl, ?_⟩
  · rw [SubscriberMap.members_Subscribe]
    by_cases hcond : nameOf c' = nameOf c ∧ b' = b
    · rw [if_pos hcond, GoSet.mem_add]
      constructor
      · rintro (h | h)
        · exact Or.inl h
        · exact Or.inr ⟨h, hcond.2⟩
      · rintro (h | h)
        · exact Or.inl h
        · exact Or.inr h.1
    · rw [if_neg hcond]
      constructor
      · intro h; exact Or.inl h
      · rintro (h | ⟨h1, h2⟩)
        · exact h
        · exact absurd ⟨by rw [h1], h2⟩ hcond
  · rw [SubscriberMap.members_Unsubscribe]
    by_cases hcond : nameOf c' = nameOf c ∧ b' = b
    · rw [if_pos hcond, GoSet.mem_remove]
      constructor
      · rintro ⟨h1, h2⟩
        exact ⟨h1, fun h => h2 h.1⟩
      · rintro ⟨h1, h2⟩
        exact ⟨h1, fun h => h2 ⟨h, hcond.2⟩⟩
    · rw [if_neg hcond]
      constructor
      · intro h
        exact ⟨h, fun h2 => hcond ⟨by rw [h2.1], h2.2⟩⟩
      · intro h; exact h.1
  · intro hcount
    rw [SubscriberMap.members_Subscribe, if_pos ⟨rfl, rfl⟩]
    unfold GoSet.add
    by_cases hmem : c ∈ sm.members (nameOf c) b
    · rw [if_pos hmem]
      have := List.count_pos_iff.mpr hmem
      omega
    · rw [if_neg hmem, List.count_append, List.count_eq_zero_of_not_mem hmem]
      simp
  · intro hc n2 b2
    rw [SubscriberMap.members_Unsubscribe]
    by_cases hcond : n2 = nameOf c ∧ b2 = b
    · rw [if_pos hcond, hcond.1, hcond.2, GoSet.remove_of_not_mem hc]
    · rw [if_neg hcond]
  · unfold SubscriberMap.Unsubscribe
    cases GoMap.lookup sm.subscribers (nameOf c) with
    | none => rfl
    | some inner =>
      dsimp only
      cases GoMap.lookup inner b <;> rfl

/-- Witness of C7: two Channels of `RoomChannel`, one subscribed to `room_1`. -/
theorem C7_subscribe_unsubscribe_set_semantics_witness :
    let sm : SubscriberMap := { subscribers := [("RoomChannel", [("room_1", [0])])] }
    let nameOf : ChanPtr → String := fun _ => "RoomChannel"
    (sm.members "RoomChannel" "room_1").count 1 ≤ 1 ∧
    ((sm.Subscribe nameOf 1 "room_1").1.members "RoomChannel" "room_1").count 1 = 1 ∧
    (sm.Subscribe nameOf 1 "room_1").1.subscribers = [("RoomChannel", [("room_1", [0, 1])])] ∧
    (sm.Unsubscribe nameOf 0 "room_1").1.subscribers = [] := by
  intro sm nameOf
  have h : (sm.members "RoomChannel" "room_1").count 1 ≤ 1 := by decide
  exact ⟨h,
    (C7_subscribe_unsubscribe_set_semantics nameOf sm 1 0 "room_1" "room_1").2.2.2.1 h,
    by decide, by decide⟩

/-- C8: in every state reached from the empty map by `Subscribe` and `Unsubscribe` calls no
present inner map is empty, and from such a state in which `c` is not subscribed to `b`,
`Subscribe(c, b)` followed by `Unsubscribe(c, b)` gives back exactly the map it started
from. -/
theorem C8_no_empty_inner_maps_and_roundtrip (nameOf : ChanPtr → String) (sm0 : SubscriberMap)
    (calls : List SMCall) (hnil : sm0.subscribers = []) :
    (sm0.run nameOf calls).NoEmpty ∧
    ∀ c b, c ∉ (sm0.run nameOf calls).members (nameOf c) b →
      (((sm0.run nameOf calls).Subscribe nameOf c b).1.Unsubscribe nameOf c b).1 =
        sm0.run nameOf calls := by
  have h0 : sm0.NoEmpty := by
    intro n inner hn
    rw [hnil] at hn
    exact absurd hn (by simp [GoMap.lookup])
  have h := SubscriberMap.noEmpty_run nameOf calls sm0 h0
  exact ⟨h, fun c b hc => SubscriberMap.unsubscribe_subscribe nameOf _ c b h hc⟩

/-- Witness of C8: three calls from the zero-value broker, then a round trip of Channel 2. -/
theorem C8_no_empty_inner_maps_and_roundtrip_witness :
    let nameOf : ChanPtr → String := fun _ => "RoomChannel"
    let calls : List SMCall :=
      [.subscribe 0 "room_1", .subscribe 1 "room_2", .unsubscribe 0 "room_1"]
    let sm : SubscriberMap := SubscriberMap.run nameOf {} calls
    sm.subscribers = [("RoomChannel", [("room_2", [1])])] ∧ sm.NoEmpty ∧
    ((sm.Subscribe nameOf 2 "room_1").1.Unsubscribe nameOf 2 "room_1").1 = sm := by
  intro nameOf calls sm
  have h := C8_no_empty_inner_maps_and_roundtrip nameOf {} calls rfl
  exact ⟨by decide, h.1, h.2 2 "room_1" (by decide)⟩

/-! ## Frame lemmas of the Channel operations -/

theorem World.Frame.refl (w : World) : World.Frame w w :=
  { self := rfl, next := rfl, calls := rfl, descriptions := rfl, connections := rfl,
    identifier := rfl, wsConn := rfl, closed := rfl, isInitialized := rfl, done := rfl,
    channels := rfl, internalChannel := rfl, mu := rfl, name := fun _ => rfl,
    ident := fun _ => rfl, descr := fun _ => rfl, params := fun _ => rfl,
    connIdent := fun _ => rfl, handler := fun _ => rfl, send := ⟨[], by simp⟩ }

theorem World.Frame.trans {a b c : World} (h1 : World.Frame a b) (h2 : World.Frame b c) :
    World.Frame a c :=
  { self := h2.self.trans h1.self, next := h2.next.trans h1.next,
    calls := h2.calls.trans h1.calls,
    descriptions := h2.descriptions.trans h1.descriptions,
    connections := h2.connections.trans h1.connections,
    identifier := h2.identifier.trans h1.identifier, wsConn := h2.wsConn.trans h1.wsConn,
    closed := h2.closed.trans h1.closed,
    isInitialized := h2.isInitialized.trans h1.isInitialized, done := h2.done.trans h1.done,
    channels := h2.channels.trans h1.channels,
    internalChannel := h2.internalChannel.trans h1.internalChannel, mu := h2.mu.trans h1.mu,
    name := fun p => (h2.name p).trans (h1.name p),
    ident := fun p => (h2.ident p).trans (h1.ident p),
    descr := fun p => (h2.descr p).trans (h1.descr p),
    params := fun p => (h2.params p).trans (h1.params p),
    connIdent := fun p => (h2.connIdent p).trans (h1.connIdent p),
    handler := fun p => (h2.handler p).trans (h1.handler p),
    send := by
      obtain ⟨l1, e1⟩ := h1.send
      obtain ⟨l2, e2⟩ := h2.send
      exact ⟨l1 ++ l2, by rw [e2, e1, List.append_assoc]⟩ }

theorem World.Frame.updChan (w : World) (c : ChanPtr) (f : Channel → Channel)
    (hn : (f (w.heap c)).Name = (w.heap c).Name)
    (hi : (f (w.heap c)).Identifier = (w.heap c).Identifier)
    (hd : (f (w.heap c)).descrption = (w.heap c).descrption)
    (hp : (f (w.heap c)).Params = (w.heap c).Params)
    (hc : (f (w.heap c)).ConnIdentifier = (w.heap c).ConnIdentifier)
    (hh : (f (w.heap c)).onBroadcast = (w.heap c).onBroadcast) :
    World.Frame w (w.updChan c f) := by
  have key : ∀ p, (w.updChan c f).heap p = if p = c then f (w.heap c) else w.heap p := by
    intro p
    by_cases e : p = c
    · subst e; simp [World.updChan]
    · simp [World.updChan, Function.update_noteq e, e]
  refine { (World.Frame.refl w) with name := ?_, ident := ?_, descr := ?_, params := ?_,
                                     connIdent := ?_, handler := ?_ } <;>
    intro p <;> rw [key] <;> by_cases e : p = c <;> simp [e, hn, hi, hd, hp, hc, hh]

theorem World.Frame.enqueue (w : World) (m : Message) : World.Frame w (w.enqueue m) :=
  { (World.Frame.refl w) with send := ⟨[m], rfl⟩ }

theorem World.Frame.spawn (w : World) (g : Goroutine) : World.Frame w (w.spawn g) :=
  { (World.Frame.refl w) with }

theorem World.Frame.setPubSub (w : World) (sm : SubscriberMap) :
    World.Frame w (w.setPubSub sm) :=
  { (World.Frame.refl w) with }

theorem World.pubsubBroadcast_frame (w : World) (n b m : String) :
    World.Frame w (w.pubsubBroadcast n b m) := by
  unfold World.pubsubBroadcast
  split
  · exact World.Frame.setPubSub w _
  · exact (World.Frame.setPubSub w _).trans (World.Frame.spawn _ _)

theorem World.pubsubBroadcast_pubsub (w : World) (n b m : String) :
    (w.pubsubBroadcast n b m).cable.PubSub = w.cable.PubSub := by
  unfold World.pubsubBroadcast
  split <;> exact SubscriberMap.Broadcast_sm _ _ _ _

theorem World.pubsubBroadcast_heap (w : World) (n b m : String) :
    (w.pubsubBroadcast n b m).heap = w.heap := by
  unfold World.pubsubBroadcast
  split <;> rfl

theorem World.pubsubBroadcast_pending (w : World) (n b m : String) :
    (w.pubsubBroadcast n b m).pending =
      if w.cable.PubSub.entry n b = none then w.pending
      else w.pending ++ [.send { set := some (n, b), message := m }] := by
  unfold World.pubsubBroadcast
  rw [SubscriberMap.Broadcast_started]
  by_cases h : w.cable.PubSub.entry n b = none
  · rw [if_pos h, if_pos h]
    rfl
  · rw [if_neg h, if_neg h]
    rfl

theorem World.pubsubUnsubscribe_frame (w : World) (c : ChanPtr) (b : String) :
    World.Frame w (w.pubsubUnsubscribe c b) := by
  unfold World.pubsubUnsubscribe
  split
  · exact { (World.Frame.refl w) with }
  · exact World.Frame.setPubSub w _

theorem World.pubsubUnsubscribe_pubsub (w : World) (c : ChanPtr) (b : String) :
    (w.pubsubUnsubscribe c b).cable.PubSub = (w.cable.PubSub.Unsubscribe w.nameOf c b).1 := by
  unfold World.pubsubUnsubscribe
  split <;> rfl

theorem World.pubsubUnsubscribe_heap (w : World) (c : ChanPtr) (b : String) :
    (w.pubsubUnsubscribe c b).heap = w.heap := by
  unfold World.pubsubUnsubscribe
  split <;> rfl

theorem World.pubsubUnsubscribe_nameOf (w : World) (c : ChanPtr) (b : String) :
    (w.pubsubUnsubscribe c b).nameOf = w.nameOf := by
  unfold World.pubsubUnsubscribe
  split <;> rfl

theorem Channel.StopStreamFrom_frame (w : World) (c : ChanPtr) (b : String) :
    World.Frame w (Channel.StopStreamFrom w c b) :=
  (World.Frame.updChan w c (fun ch => { ch with streams := GoSet.remove ch.streams b })
    rfl rfl rfl rfl rfl rfl).trans (World.Frame.spawn _ _)

theorem Channel.StopAllStreams_frame (w : World) (c : ChanPtr) :
    World.Frame w (Channel.StopAllStreams w c) := by
  unfold Channel.StopAllStreams
  generalize (w.heap c).streams = l
  induction l generalizing w with
  | nil => exact World.Frame.refl w
  | cons b l ih => exact (Channel.StopStreamFrom_frame w c b).trans (ih _)

theorem Channel.exec_frame (w : World) (c : ChanPtr) (op : ChanOp) :
    World.Frame w (Channel.exec w c op) := by
  cases op with
  | StreamFrom b =>
    show World.Frame w (Channel.StreamFrom w c b)
    unfold Channel.StreamFrom
    split
    · exact World.Frame.refl w
    · exact World.Frame.spawn _ _
  | StopStreamFrom b => exact Channel.StopStreamFrom_frame w c b
  | StopAllStreams => exact Channel.StopAllStreams_frame w c
  | Broadcast b m => exact World.pubsubBroadcast_frame w _ _ _
  | Transmit m => exact World.Frame.enqueue _ _
  | Reject =>
    exact World.Frame.updChan w c (fun ch => { ch with isSubscriptionRejected := true })
      rfl rfl rfl rfl rfl rfl

theorem Channel.run_frame (w : World) (c : ChanPtr) (ops : List ChanOp) :
    World.Frame w (Channel.run w c ops) := by
  unfold Channel.run
  induction ops generalizing w with
  | nil => exact World.Frame.refl w
  | cons op ops ih => exact (Channel.exec_frame w c op).trans (ih _)

theorem Channel.StopAllStreams_pubsub (w : World) (c : ChanPtr) :
    (Channel.StopAllStreams w c).cable.PubSub = w.cable.PubSub := by
  unfold Channel.StopAllStreams
  generalize (w.heap c).streams = l
  induction l generalizing w with
  | nil => rfl
  | cons b l ih =>
    rw [List.foldl_cons, ih]
    rfl

theorem Channel.exec_pubsub (w : World) (c : ChanPtr) (op : ChanOp) :
    (Channel.exec w c op).cable.PubSub = w.cable.PubSub := by
  cases op with
  | StreamFrom b =>
    show (Channel.StreamFrom w c b).cable.PubSub = w.cable.PubSub
    unfold Channel.StreamFrom
    split <;> rfl
  | StopStreamFrom b => rfl
  | StopAllStreams => exact Channel.StopAllStreams_pubsub w c
  | Broadcast b m => exact World.pubsubBroadcast_pubsub w _ _ _
  | Transmit m => rfl
  | Reject => rfl

theorem Channel.run_pubsub (w : World) (c : ChanPtr) (ops : List ChanOp) :
    (Channel.run w c ops).cable.PubSub = w.cable.PubSub := by
  unfold Channel.run
  induction ops generalizing w with
  | nil => rfl
  | cons op ops ih =>
    rw [List.foldl_cons, ih, Channel.exec_pubsub]

/-! ## Frame lemmas of the goroutines and of unsubscribe -/

theorem World.updChan_heap (w : World) (c : ChanPtr) (f : Channel → Channel) (p : ChanPtr) :
    (w.updChan c f).heap p = if p = c then f (w.heap c) else w.heap p := by
  by_cases e : p = c
  · subst e; simp [World.updChan]
  · simp [World.updChan, Function.update_noteq e, e]

theorem Channel.transmitSubscriptionConfirmation_frame (w : World) (c : ChanPtr) :
    World.Frame w (Channel.transmitSubscriptionConfirmation w c) := by
  unfold Channel.transmitSubscriptionConfirmation
  split
  · exact World.Frame.refl w
  · exact (World.Frame.updChan w c (fun ch => { ch with isConfirmationSent := true })
      rfl rfl rfl rfl rfl rfl).trans (World.Frame.enqueue _ _)

theorem World.Frame.setPending (w : World) (l : List Goroutine) :
    World.Frame w { w with pending := l } :=
  { (World.Frame.refl w) with }

theorem Goroutine.run_send (w : World) (s : Sender) :
    ∃ l, Goroutine.run w (.send s) = { w with sending := w.sending ++ l } := by
  obtain ⟨set, m⟩ := s
  cases set with
  | none => exact ⟨[], by simp [Goroutine.run]⟩
  | some nb =>
    obtain ⟨n, b⟩ := nb
    by_cases h : w.cable.PubSub.serving = true
    · exact ⟨(w.cable.PubSub.members n b).map (fun c => { receiver := c, message := m }),
        by simp [Goroutine.run, h]⟩
    · exact ⟨[], by simp [Goroutine.run, h]⟩

theorem Goroutine.body_frame (w : World) (g : Goroutine) : World.Frame w (Goroutine.run w g) := by
  cases g with
  | streamFrom c b =>
    exact ((World.Frame.setPubSub w _).trans
      (World.Frame.updChan _ c (fun ch => { ch with streams := GoSet.add ch.streams b })
        rfl rfl rfl rfl rfl rfl)).trans (Channel.transmitSubscriptionConfirmation_frame _ c)
  | unsubscribe c b => exact World.pubsubUnsubscribe_frame w c b
  | send s =>
    obtain ⟨l, e⟩ := Goroutine.run_send w s
    rw [e]
    exact { (World.Frame.refl w) with }

theorem World.runSched_frame (sched : List Nat) :
    ∀ w : World, World.Frame w (World.runSched w sched) := by
  induction sched with
  | nil => intro w; exact World.Frame.refl w
  | cons i rest ih =>
    intro w
    unfold World.runSched
    cases w.pending.get? i with
    | none => exact ih w
    | some g =>
      exact ((World.Frame.setPending w _).trans (Goroutine.body_frame _ g)).trans (ih _)

theorem Channel.unsubscribeStreams_frame (w : World) (c : ChanPtr) :
    World.Frame w (Channel.unsubscribeStreams w c) := by
  unfold Channel.unsubscribeStreams
  generalize (w.heap c).streams = l
  induction l generalizing w with
  | nil => exact World.Frame.refl w
  | cons b l ih => exact (World.pubsubUnsubscribe_frame w c b).trans (ih _)

/-! ## The rejection flag -/

theorem Channel.StopAllStreams_rejected (w : World) (c p : ChanPtr) :
    ((Channel.StopAllStreams w c).heap p).isSubscriptionRejected =
      (w.heap p).isSubscriptionRejected := by
  unfold Channel.StopAllStreams
  generalize (w.heap c).streams = l
  induction l generalizing w with
  | nil => rfl
  | cons b l ih =>
    rw [List.foldl_cons, ih]
    unfold Channel.StopStreamFrom World.spawn
    dsimp only
    rw [World.updChan_heap]
    split
    · next e => rw [e]
    · rfl

theorem Channel.exec_rejected (w : World) (c p : ChanPtr) (op : ChanOp) :
    ((Channel.exec w c op).heap p).isSubscriptionRejected =
      ((w.heap p).isSubscriptionRejected || (decide (p = c) && decide (op = .Reject))) := by
  cases op with
  | StreamFrom b =>
    show ((Channel.StreamFrom w c b).heap p).isSubscriptionRejected = _
    unfold Channel.StreamFrom
    split <;> simp [World.spawn]
  | StopStreamFrom b =>
    show ((Channel.StopStreamFrom w c b).heap p).isSubscriptionRejected = _
    unfold Channel.StopStreamFrom World.spawn
    dsimp only
    rw [World.updChan_heap]
    split
    · next e => simp [e]
    · simp
  | StopAllStreams =>
    show ((Channel.StopAllStreams w c).heap p).isSubscriptionRejected = _
    rw [Channel.StopAllStreams_rejected]
    simp
  | Broadcast b m =>
    show ((w.pubsubBroadcast (w.heap c).Name b m).heap p).isSubscriptionRejected = _
    rw [World.pubsubBroadcast_heap]
    simp
  | Transmit m => simp [Channel.exec, Channel.Transmit, World.enqueue]
  | Reject =>
    show ((Channel.Reject w c).heap p).isSubscriptionRejected = _
    unfold Channel.Reject
    rw [World.updChan_heap]
    split
    · next e => simp [e]
    · next e => simp [e]

theorem Channel.run_rejected (w : World) (c p : ChanPtr) (ops : List ChanOp) :
    ((Channel.run w c ops).heap p).isSubscriptionRejected =
      ((w.heap p).isSubscriptionRejected || (decide (p = c) && decide (ChanOp.Reject ∈ ops))) := by
  unfold Channel.run
  induction ops generalizing w with
  | nil => simp
  | cons op ops ih =>
    rw [List.foldl_cons, ih, Channel.exec_rejected]
    by_cases e1 : p = c <;> by_cases e2 : op = ChanOp.Reject <;>
      by_cases e3 : ChanOp.Reject ∈ ops <;> simp [e1, e2, e3, eq_comm]

theorem Channel.transmitSubscriptionConfirmation_rejected (w : World) (c p : ChanPtr) :
    ((Channel.transmitSubscriptionConfirmation w c).heap p).isSubscriptionRejected =
      (w.heap p).isSubscriptionRejected := by
  unfold Channel.transmitSubscriptionConfirmation
  split
  · rfl
  · unfold World.enqueue
    dsimp only
    rw [World.updChan_heap]
    split
    · next e => rw [e]
    · rfl

theorem Goroutine.body_rejected (w : World) (g : Goroutine) (p : ChanPtr) :
    ((Goroutine.run w g).heap p).isSubscriptionRejected = (w.heap p).isSubscriptionRejected := by
  cases g with
  | streamFrom c b =>
    unfold Goroutine.run
    rw [Channel.transmitSubscriptionConfirmation_rejected, World.updChan_heap]
    split
    · next e => rw [e]; rfl
    · rfl
  | unsubscribe c b =>
    show ((w.pubsubUnsubscribe c b).heap p).isSubscriptionRejected = _
    rw [World.pubsubUnsubscribe_heap]
  | send s =>
    obtain ⟨l, e⟩ := Goroutine.run_send w s
    rw [e]

theorem World.runSched_rejected (sched : List Nat) (p : ChanPtr) :
    ∀ w : World, ((World.runSched w sched).heap p).isSubscriptionRejected =
      (w.heap p).isSubscriptionRejected := by
  induction sched with
  | nil => intro w; rfl
  | cons i rest ih =>
    intro w
    unfold World.runSched
    cases w.pending.get? i with
    | none => exact ih w
    | some g =>
      dsimp only
      rw [ih, Goroutine.body_rejected]

/-! ## unsubscribe and subscribe, step by step -/

theorem Channel.detach_channelAt (w : World) (c : ChanPtr) :
    (Channel.detach w c).channelAt (w.heap c).Name (w.heap c).Identifier = none := by
  unfold Channel.detach World.channelAt World.setChannels
  dsimp only
  cases h1 : GoMap.lookup w.conn.channels (w.heap c).Name with
  | none =>
    dsimp only
    by_cases hl : GoMap.len ((GoMap.lookup w.conn.channels (w.heap c).Name).getD []) = 0
    · rw [if_pos hl, GoMap.lookup_delete_same]
    · rw [if_neg hl, h1]
  | some inner =>
    dsimp only
    by_cases hl : GoMap.len ((GoMap.lookup (GoMap.store w.conn.channels (w.heap c).Name
        (GoMap.delete inner (w.heap c).Identifier)) (w.heap c).Name).getD []) = 0
    · rw [if_pos hl, GoMap.lookup_delete_same]
    · rw [if_neg hl, GoMap.lookup_store_same]
      exact GoMap.lookup_delete_same _ _

theorem Channel.detach_unlock (w : World) (c : ChanPtr) (hmu : w.conn.mu = false) :
    (Channel.detach { w with conn := { w.conn with mu := true } } c).unlock =
      Channel.detach w c := by
  obtain ⟨cable, conn, self, heap, next, pending, sending, calls⟩ := w
  obtain ⟨identifier, wsConn, closed, isInitialized, send, done, channels, internalChannel, mu⟩ :=
    conn
  dsimp only at hmu
  subst hmu
  rfl

theorem Channel.unsubscribe_of_free (w : World) (c : ChanPtr) (hmu : w.conn.mu = false)
    (hint : w.conn.internalChannel ≠ some c) :
    Channel.unsubscribe w c =
      .returned () (Channel.callUnsubscribed
        (Channel.unsubscribeStreams (Channel.detach w c) c) c) := by
  unfold Channel.unsubscribe
  rw [if_pos hint]
  simp only [World.lock, hmu, Bool.false_eq_true, if_false]
  rw [Channel.detach_unlock w c hmu]

theorem Channel.callUnsubscribed_frame (w : World) (c : ChanPtr) :
    World.Frame { w with calls := w.calls ++ [.Unsubscribed c] } (Channel.callUnsubscribed w c) :=
  Channel.run_frame _ _ _

theorem Channel.callSubscribed_frame (w : World) (c : ChanPtr) :
    World.Frame { w with calls := w.calls ++ [.Subscribed c] } (Channel.callSubscribed w c) :=
  Channel.run_frame _ _ _

theorem Channel.detach_heap (w : World) (c : ChanPtr) : (Channel.detach w c).heap = w.heap := rfl

/-- The state in which `Channel.subscribe` tests the rejection flag. -/
theorem Channel.subscribe_rejecting (sched : List Nat) (w : World) (c : ChanPtr)
    (hmu : w.conn.mu = false) (hint : w.conn.internalChannel ≠ some c)
    (hrej : ((World.runSched (Channel.callSubscribed w c) sched).heap c).isSubscriptionRejected
      = true) :
    Channel.subscribe sched w c =
      .returned () (Channel.transmitSubscriptionRejection (Channel.callUnsubscribed
        (Channel.unsubscribeStreams
          (Channel.detach (World.runSched (Channel.callSubscribed w c) sched) c) c) c) c) := by
  have f1 := (Channel.callSubscribed_frame w c).trans (World.runSched_frame sched _)
  have hmu1 : (World.runSched (Channel.callSubscribed w c) sched).conn.mu = false :=
    f1.mu.trans hmu
  have hint1 : (World.runSched (Channel.callSubscribed w c) sched).conn.internalChannel ≠ some c := by
    rw [f1.internalChannel]; exact hint
  unfold Channel.subscribe
  dsimp only
  rw [if_pos hrej]
  unfold Channel.rejectSubscription
  rw [Channel.unsubscribe_of_free _ c hmu1 hint1]

theorem Channel.install_unlock (w : World) (c : ChanPtr) (n : String)
    (hmu : w.conn.mu = false) :
    (Channel.install { w with conn := { w.conn with mu := true } } c n).unlock =
      Channel.install w c n := by
  obtain ⟨cable, conn, self, heap, next, pending, sending, calls⟩ := w
  obtain ⟨identifier, wsConn, closed, isInitialized, send, done, channels, internalChannel, mu⟩ :=
    conn
  dsimp only at hmu
  subst hmu
  rfl

theorem Channel.install_channelAt (w : World) (c : ChanPtr) (n : String) :
    (Channel.install w c n).channelAt n (w.heap c).Identifier = some c := by
  simp only [Channel.install, World.channelAt, World.setChannels, GoMap.lookup_store_same]

theorem Channel.confirmed_frame (sched : List Nat) (w : World) (c : ChanPtr) :
    World.Frame (World.runSched (Channel.callSubscribed w c) sched)
      (Channel.confirmed sched w c) := by
  unfold Channel.confirmed
  split
  · exact World.Frame.refl _
  · exact Channel.transmitSubscriptionConfirmation_frame _ _

theorem Channel.subscribe_accepting (sched : List Nat) (w : World) (c : ChanPtr)
    (hmu : w.conn.mu = false)
    (hrej : ((World.runSched (Channel.callSubscribed w c) sched).heap c).isSubscriptionRejected
      = false) :
    Channel.subscribe sched w c =
      .returned () (Channel.install (Channel.confirmed sched w c) c (w.heap c).descrption.Name) := by
  have f1 := (Channel.callSubscribed_frame w c).trans (World.runSched_frame sched _)
  have f2 := Channel.confirmed_frame sched w c
  have hmu2 : (Channel.confirmed sched w c).conn.mu = false := f2.mu.trans (f1.mu.trans hmu)
  have e : (if !((World.runSched (Channel.callSubscribed w c) sched).heap c).isConfirmationSent
      then Channel.transmitSubscriptionConfirmation
        (World.runSched (Channel.callSubscribed w c) sched) c
      else World.runSched (Channel.callSubscribed w c) sched) = Channel.confirmed sched w c := by
    unfold Channel.confirmed
    by_cases hc : ((World.runSched (Channel.callSubscribed w c) sched).heap c).isConfirmationSent
        = true
    · simp [hc]
    · simp [hc]
  unfold Channel.subscribe
  dsimp only
  rw [if_neg (by rw [hrej]; simp), e]
  simp only [World.lock, hmu2, Bool.false_eq_true, if_false]
  rw [Channel.install_unlock _ c _ hmu2]

/-! ## Claims on command dispatch -/

/-- C9: a `message` command for identifier `X` of channel `n` with data `d` returns; when
`channels[n][X]` holds a Channel that is not rejected, `PerformAction` is called once, on that
Channel, with `d` as it was received; when there is no such Channel or it is rejected,
nothing is called and the state is as before; in every case the channel map and the broker
are as before. -/
theorem C9_message_dispatch (unmarshal : String → Option String) (sched : List Nat)
    (w : World) (n X d : String) (hdec : unmarshal X = some n) (hn : n ≠ "") :
    ∃ w', Connection.executeCommand unmarshal sched w ⟨X, "message", d⟩ = .returned none w' ∧
      (∀ c, w.channelAt n X = some c → (w.heap c).isSubscriptionRejected = false →
        w'.calls = w.calls ++ [.PerformAction c d] ∧
        w' = Channel.run { w with calls := w.calls ++ [.PerformAction c d] } c
          (((w.heap c).descrption.PerformAction.getD (fun _ _ => [])) (w.heap c).view d)) ∧
      (w.channelAt n X = none → w' = w) ∧
      (∀ c, w.channelAt n X = some c → (w.heap c).isSubscriptionRejected = true → w' = w) ∧
      w'.conn.channels = w.conn.channels ∧ w'.cable.PubSub = w.cable.PubSub := by
  refine ⟨Connection.performAction w n X d, ?_, ?_, ?_, ?_, ?_, ?_⟩
  · simp [Connection.executeCommand, hdec, hn]
  · intro c hc hrej
    have e : Connection.performAction w n X d =
        Channel.run { w with calls := w.calls ++ [.PerformAction c d] } c
          (((w.heap c).descrption.PerformAction.getD (fun _ _ => [])) (w.heap c).view d) := by
      simp [Connection.performAction, hc, Channel.performAction, hrej, Channel.callPerformAction]
    rw [e]
    exact ⟨(Channel.run_frame _ _ _).calls, rfl⟩
  · intro hc
    simp [Connection.performAction, hc]
  · intro c hc hrej
    simp [Connection.performAction, hc, Channel.performAction, hrej]
  · unfold Connection.performAction
    cases w.channelAt n X with
    | none => rfl
    | some c =>
      dsimp only
      unfold Channel.performAction
      split
      · rfl
      · exact (Channel.run_frame _ _ _).channels
  · unfold Connection.performAction
    cases w.channelAt n X with
    | none => rfl
    | some c =>
      dsimp only
      unfold Channel.performAction
      split
      · rfl
      · exact Channel.run_pubsub _ _ _

/-- Witness of C9: the `run` action on the subscribed Channel of the example. -/
theorem C9_message_dispatch_witness :
    exampleUnmarshal roomId = some "RoomChannel" ∧
    World.subscribedExample.channelAt "RoomChannel" roomId = some 0 ∧
    ∃ w', Connection.executeCommand exampleUnmarshal [] World.subscribedExample
        ⟨roomId, "message", runAction⟩ = .returned none w' ∧
      w'.calls = [.Subscribed 0, .PerformAction 0 runAction] ∧
      w'.conn.channels = World.subscribedExample.conn.channels ∧
      w'.cable.PubSub = World.subscribedExample.cable.PubSub := by
  obtain ⟨w', h, h1, _, _, h4, h5⟩ := C9_message_dispatch exampleUnmarshal []
    World.subscribedExample "RoomChannel" roomId runAction (by decide) (by decide)
  exact ⟨by decide, by decide, w', h, (h1 0 (by decide) (by decide)).1, h4, h5⟩

/-- C10: `executeCommand` returns an error when the identifier does not decode, when the
decoded channel name is empty, and when the command word is none of subscribe, unsubscribe
and message; a subscribe that names a channel that is not registered returns nil.  In each
of the four cases the state it returns in is the state it was called in: no Channel is
allocated, the channel map, the broker, the send log and the record of callback calls are
as before. -/
theorem C10_failed_commands_leave_the_state (unmarshal : String → Option String)
    (sched : List Nat) (w : World) (cmd : command) :
    (unmarshal cmd.Identifier = none →
      Connection.executeCommand unmarshal sched w cmd =
        .returned (some (.decode cmd.Identifier)) w) ∧
    (unmarshal cmd.Identifier = some "" →
      Connection.executeCommand unmarshal sched w cmd =
        .returned (some (.didntFindChannel cmd.Identifier)) w) ∧
    (cmd.Command ≠ "subscribe" → cmd.Command ≠ "unsubscribe" → cmd.Command ≠ "message" →
      ∃ err, Connection.executeCommand unmarshal sched w cmd = .returned (some err) w) ∧
    (∀ n, unmarshal cmd.Identifier = some n → n ≠ "" → cmd.Command = "subscribe" →
      GoMap.lookup w.cable.channelDescriptions n = none →
      Connection.executeCommand unmarshal sched w cmd = .returned none w) := by
  refine ⟨?_, ?_, ?_, ?_⟩
  · intro h
    simp [Connection.executeCommand, h]
  · intro h
    simp [Connection.executeCommand, h]
  · intro h1 h2 h3
    unfold Connection.executeCommand
    cases h : unmarshal cmd.Identifier with
    | none => exact ⟨_, rfl⟩
    | some n =>
      dsimp only
      by_cases hn : n = ""
      · rw [if_pos hn]
        exact ⟨_, rfl⟩
      · rw [if_neg hn, if_neg h1, if_neg h2, if_neg h3]
        exact ⟨_, rfl⟩
  · intro n h hn hc hd
    simp [Connection.executeCommand, h, hn, hc, Connection.addSubscription, hd]

/-- Witness of C10 on a connection with `RoomChannel` registered: an identifier that is not
JSON, one without a channel name, an unknown command word, and a subscribe to
`ChatChannel`, which is not registered. -/
theorem C10_failed_commands_leave_the_state_witness :
    let w := World.start [("RoomChannel", plainRoom)]
    Connection.executeCommand exampleUnmarshal [] w ⟨"not json", "subscribe", ""⟩ =
        .returned (some (.decode "not json")) w ∧
    Connection.executeCommand exampleUnmarshal [] w ⟨emptyObject, "subscribe", ""⟩ =
        .returned (some (.didntFindChannel emptyObject)) w ∧
    (∃ err, Connection.executeCommand exampleUnmarshal [] w ⟨roomId, "random command", ""⟩ =
        .returned (some err) w) ∧
    Connection.executeCommand exampleUnmarshal [] w ⟨chatId, "subscribe", ""⟩ =
        .returned none w := by
  intro w
  exact ⟨(C10_failed_commands_leave_the_state exampleUnmarshal [] w ⟨"not json", "subscribe", ""⟩).1
      (by decide),
    (C10_failed_commands_leave_the_state exampleUnmarshal [] w ⟨emptyObject, "subscribe", ""⟩).2.1
      (by decide),
    (C10_failed_commands_leave_the_state exampleUnmarshal [] w ⟨roomId, "random command", ""⟩).2.2.1
      (by decide) (by decide) (by decide),
    (C10_failed_commands_leave_the_state exampleUnmarshal [] w
      ⟨chatId, "subscribe", ""⟩).2.2.2 "ChatChannel"
      (by decide) (by decide) (by decide) rfl⟩

/-! ## Close on a closed connection -/

theorem Connection.Close_closed (w : World) (reason : String) (hc : w.conn.closed = true)
    (hmu : w.conn.mu = false) :
    Connection.Close w reason = .returned () { w with conn := { w.conn with mu := true } } := by
  simp [Connection.Close, World.lock, hmu, hc]

theorem Connection.Close_locked (w : World) (reason : String) (hmu : w.conn.mu = true) :
    Connection.Close w reason = .blocked w := by
  simp [Connection.Close, World.lock, hmu]

/-- C5, the code at the failing input: on a closed connection whose mutex is free, `Close`
returns with the mutex held and does nothing else: nothing is written, no callback is called,
`closed` stays true; after that a third `Close` waits for ever on the mutex. -/
theorem C5_close_on_closed_connection_keeps_the_mutex :
    World.closedExample.conn.closed = true ∧ World.closedExample.conn.mu = false ∧
    (Connection.Close World.closedExample "again").isReturned = true ∧
    (Connection.Close World.closedExample "again").world.conn.mu = true ∧
    (Connection.Close World.closedExample "again").world.conn.closed = true ∧
    (Connection.Close World.closedExample "again").world.conn.wsConn =
        World.closedExample.conn.wsConn ∧
    (Connection.Close World.closedExample "again").world.calls = [] ∧
    (Connection.Close (Connection.Close World.closedExample "again").world "third").isReturned
        = false := by
  decide

/-! ## Claims on subscribe -/

theorem World.channelAt_congr {w w' : World} (h : w'.conn.channels = w.conn.channels)
    (n i : String) : w'.channelAt n i = w.channelAt n i := by
  unfold World.channelAt
  rw [h]

theorem Channel.callUnsubscribed_channels (w : World) (c : ChanPtr) :
    (Channel.callUnsubscribed w c).conn.channels = w.conn.channels :=
  (Channel.callUnsubscribed_frame w c).channels

theorem Channel.transmitSubscriptionRejection_send (w : World) (c : ChanPtr) :
    (Channel.transmitSubscriptionRejection w c).conn.send =
      w.conn.send ++
        [.strMap [("identifier", (w.heap c).Identifier), ("type", "reject_subscription")]] :=
  rfl

theorem Channel.transmitSubscriptionRejection_channels (w : World) (c : ChanPtr) :
    (Channel.transmitSubscriptionRejection w c).conn.channels = w.conn.channels := rfl

theorem newChannel_heap (w : World) (identifier params : String) (cd : ChannelDescription)
    (h : BroadcastHandler) :
    (newChannel w identifier params cd h).1.heap w.next =
      { Name := cd.Name, ConnIdentifier := w.conn.identifier, Identifier := identifier,
        Params := params, onBroadcast := h,
        descrption :=
          { Name := cd.Name,
            Subscribed := some (cd.Subscribed.getD (fun _ => [])),
            Unsubscribed := some (cd.Unsubscribed.getD (fun _ => [])),
            PerformAction := some (cd.PerformAction.getD (fun _ _ => [])) },
        streams := [], isSubscriptionRejected := false, isConfirmationSent := false } := by
  simp [newChannel]

theorem Connection.executeCommand_subscribe (unmarshal : String → Option String)
    (sched : List Nat) (w : World) (cd : ChannelDescription) (X data : String)
    (hdec : unmarshal X = some cd.Name) (hname : cd.Name ≠ "")
    (hreg : GoMap.lookup w.cable.channelDescriptions cd.Name = some cd) (w' : World)
    (h : Channel.subscribe sched (newChannel w X X cd .transmit).1 w.next = .returned () w') :
    Connection.executeCommand unmarshal sched w ⟨X, "subscribe", data⟩ = .returned none w' := by
  unfold Connection.executeCommand
  dsimp only
  rw [hdec]
  dsimp only
  rw [if_neg hname, if_pos rfl]
  unfold Connection.addSubscription
  rw [hreg]
  dsimp only
  have e : (newChannel w X X cd .transmit).2 = w.next := rfl
  rw [e, h]

theorem Channel.subscribe_spec (sched : List Nat) (w0 : World) (c : ChanPtr)
    (ops : List ChanOp) (hmu0 : w0.conn.mu = false) (hint0 : w0.conn.internalChannel ≠ some c)
    (hops : ((w0.heap c).descrption.Subscribed.getD (fun _ => [])) (w0.heap c).view = ops)
    (hrej0 : (w0.heap c).isSubscriptionRejected = false)
    (hdn : (w0.heap c).descrption.Name = (w0.heap c).Name) :
    ∃ w', Channel.subscribe sched w0 c = .returned () w' ∧
      (ChanOp.Reject ∈ ops →
        w'.channelAt (w0.heap c).Name (w0.heap c).Identifier = none ∧
        w'.conn.send.getLast? = some (.strMap [("identifier", (w0.heap c).Identifier),
          ("type", "reject_subscription")])) ∧
      (ChanOp.Reject ∉ ops →
        w'.channelAt (w0.heap c).Name (w0.heap c).Identifier = some c ∧
        (w'.heap c).Identifier = (w0.heap c).Identifier ∧
        (w'.heap c).Name = (w0.heap c).Name ∧
        (((World.runSched (Channel.callSubscribed w0 c) sched).heap c).isConfirmationSent
            = false →
          w'.conn.send = (World.runSched (Channel.callSubscribed w0 c) sched).conn.send ++
            [.strMap [("identifier", (w0.heap c).Identifier),
              ("type", "confirm_subscription")]])) := by
  have hcall : Channel.callSubscribed w0 c =
      Channel.run { w0 with calls := w0.calls ++ [.Subscribed c] } c ops := by
    unfold Channel.callSubscribed
    rw [hops]
  have f1 := (Channel.callSubscribed_frame w0 c).trans
    (World.runSched_frame sched (Channel.callSubscribed w0 c))
  have hflag : ((World.runSched (Channel.callSubscribed w0 c) sched).heap
      c).isSubscriptionRejected = decide (ChanOp.Reject ∈ ops) := by
    rw [World.runSched_rejected, hcall, Channel.run_rejected]
    simp [hrej0]
  have hname1 : ((World.runSched (Channel.callSubscribed w0 c) sched).heap c).Name =
      (w0.heap c).Name := f1.name c
  have hid1 : ((World.runSched (Channel.callSubscribed w0 c) sched).heap c).Identifier =
      (w0.heap c).Identifier := f1.ident c
  by_cases hr : ChanOp.Reject ∈ ops
  · have h := Channel.subscribe_rejecting sched w0 c hmu0 hint0 (by rw [hflag]; simp [hr])
    have f2 := Channel.unsubscribeStreams_frame
      (Channel.detach (World.runSched (Channel.callSubscribed w0 c) sched) c) c
    have f3 := Channel.callUnsubscribed_frame (Channel.unsubscribeStreams
      (Channel.detach (World.runSched (Channel.callSubscribed w0 c) sched) c) c) c
    refine ⟨_, h, ?_, ?_⟩
    · intro _
      constructor
      · have hd := Channel.detach_channelAt
          (World.runSched (Channel.callSubscribed w0 c) sched) c
        rw [hname1, hid1] at hd
        have e : (Channel.transmitSubscriptionRejection (Channel.callUnsubscribed
            (Channel.unsubscribeStreams
              (Channel.detach (World.runSched (Channel.callSubscribed w0 c) sched) c)
              c) c) c).conn.channels =
            (Channel.detach (World.runSched (Channel.callSubscribed w0 c) sched)
              c).conn.channels := by
          rw [Channel.transmitSubscriptionRejection_channels, Channel.callUnsubscribed_channels,
            f2.channels]
        rw [World.channelAt_congr e]
        exact hd
      · have e3 := f3.ident c
        have e2 := f2.ident c
        dsimp only at e3
        rw [Channel.transmitSubscriptionRejection_send, List.getLast?_append, e3, e2,
          Channel.detach_heap, hid1]
        rfl
    · intro hn
      exact absurd hr hn
  · have h1 := Channel.subscribe_accepting sched w0 c hmu0 (by rw [hflag]; simp [hr])
    have f2 := Channel.confirmed_frame sched w0 c
    refine ⟨_, h1, ?_, ?_⟩
    · intro hn
      exact absurd hn hr
    · intro _
      have hid2 : ((Channel.confirmed sched w0 c).heap c).Identifier = (w0.heap c).Identifier :=
        (f2.ident c).trans hid1
      refine ⟨?_, hid2, (f2.name c).trans hname1, ?_⟩
      · have := Channel.install_channelAt (Channel.confirmed sched w0 c) c
          (w0.heap c).descrption.Name
        rw [hid2] at this
        rw [hdn] at this ⊢
        exact this
      · intro hconf
        show (Channel.confirmed sched w0 c).conn.send = _
        unfold Channel.confirmed
        rw [if_neg (by rw [hconf]; simp)]
        simp only [Channel.transmitSubscriptionConfirmation, hconf, Bool.false_eq_true, if_false,
          World.enqueue, World.updChan, hid1]

/-! ## The writer across a subscribe -/

theorem World.lock_writer (w w1 : World) (h : w.lock = some w1) :
    w1.conn.done = w.conn.done ∧ w1.conn.isInitialized = w.conn.isInitialized := by
  unfold World.lock at h
  split at h
  · cases h
  · injection h with h
    rw [← h]
    exact ⟨rfl, rfl⟩

theorem Channel.unsubscribe_writer (w : World) (c : ChanPtr) :
    (Channel.unsubscribe w c).world.conn.done = w.conn.done ∧
    (Channel.unsubscribe w c).world.conn.isInitialized = w.conn.isInitialized := by
  unfold Channel.unsubscribe
  split
  · cases hl : w.lock with
    | none => exact ⟨rfl, rfl⟩
    | some w1 =>
      have f1 := Channel.callUnsubscribed_frame
        (Channel.unsubscribeStreams (Channel.detach w1 c).unlock c) c
      have f2 := Channel.unsubscribeStreams_frame (Channel.detach w1 c).unlock c
      obtain ⟨l1, l2⟩ := World.lock_writer w w1 hl
      exact ⟨(f1.done.trans f2.done).trans l1, (f1.isInitialized.trans f2.isInitialized).trans l2⟩
  · have f1 := Channel.callUnsubscribed_frame (Channel.unsubscribeStreams w c) c
    have f2 := Channel.unsubscribeStreams_frame w c
    exact ⟨f1.done.trans f2.done, f1.isInitialized.trans f2.isInitialized⟩

theorem Channel.rejectSubscription_writer (w : World) (c : ChanPtr) :
    (Channel.rejectSubscription w c).world.conn.done = w.conn.done ∧
    (Channel.rejectSubscription w c).world.conn.isInitialized = w.conn.isInitialized := by
  have h := Channel.unsubscribe_writer w c
  unfold Channel.rejectSubscription
  cases hu : Channel.unsubscribe w c with
  | blocked w1 =>
    rw [hu] at h
    exact h
  | returned v w1 =>
    rw [hu] at h
    exact h

theorem Channel.subscribe_writer (sched : List Nat) (w : World) (c : ChanPtr) :
    (Channel.subscribe sched w c).world.conn.done = w.conn.done ∧
    (Channel.subscribe sched w c).world.conn.isInitialized = w.conn.isInitialized := by
  have f1 := (Channel.callSubscribed_frame w c).trans (World.runSched_frame sched _)
  have d1 : (World.runSched (Channel.callSubscribed w c) sched).conn.done = w.conn.done ∧
      (World.runSched (Channel.callSubscribed w c) sched).conn.isInitialized
        = w.conn.isInitialized :=
    ⟨f1.done, f1.isInitialized⟩
  unfold Channel.subscribe
  dsimp only
  split
  · obtain ⟨r1, r2⟩ := Channel.rejectSubscription_writer
      (World.runSched (Channel.callSubscribed w c) sched) c
    exact ⟨r1.trans d1.1, r2.trans d1.2⟩
  · have d2 : (if (!((World.runSched (Channel.callSubscribed w c) sched).heap
          c).isConfirmationSent) = true then
        Channel.transmitSubscriptionConfirmation
          (World.runSched (Channel.callSubscribed w c) sched) c
        else World.runSched (Channel.callSubscribed w c) sched).conn.done = w.conn.done ∧
        (if (!((World.runSched (Channel.callSubscribed w c) sched).heap
          c).isConfirmationSent) = true then
        Channel.transmitSubscriptionConfirmation
          (World.runSched (Channel.callSubscribed w c) sched) c
        else World.runSched (Channel.callSubscribed w c) sched).conn.isInitialized
          = w.conn.isInitialized := by
      split
      · have f := Channel.transmitSubscriptionConfirmation_frame
          (World.runSched (Channel.callSubscribed w c) sched) c
        exact ⟨f.done.trans d1.1, f.isInitialized.trans d1.2⟩
      · exact d1
    generalize (if (!((World.runSched (Channel.callSubscribed w c) sched).heap
          c).isConfirmationSent) = true then
        Channel.transmitSubscriptionConfirmation
          (World.runSched (Channel.callSubscribed w c) sched) c
        else World.runSched (Channel.callSubscribed w c) sched) = w2 at d2 ⊢
    cases hl : w2.lock with
    | none => exact d2
    | some w3 =>
      obtain ⟨l1, l2⟩ := World.lock_writer w2 w3 hl
      exact ⟨l1.trans d2.1, l2.trans d2.2⟩

/-- C1: on a connection whose writer is receiving (`Setup` has run and `done` is not closed)
and whose mutex is free, a subscribe command with identifier `X` for a registered channel
returns, with the writer still receiving.  If the `Subscribed` callback calls `Reject`, the channel map then has no
entry for `X` under the channel name and the last value sent on the send pipe is
`{"identifier": X, "type": "reject_subscription"}`.  If it does not, `channels[name][X]` is
the Channel just built, and when no confirmation was sent before the handler's test, the
handler sends `{"identifier": X, "type": "confirm_subscription"}`.  The identifier is `X` as
received. -/
theorem C1_subscribe_confirms_or_rejects (unmarshal : String → Option String)
    (sched : List Nat) (w : World) (cd : ChannelDescription) (X data : String)
    (hdec : unmarshal X = some cd.Name) (hname : cd.Name ≠ "")
    (hreg : GoMap.lookup w.cable.channelDescriptions cd.Name = some cd)
    (hmu : w.conn.mu = false) (hint : w.conn.internalChannel ≠ some w.next)
    (hwriter : w.Writing) :
    ∃ w', Connection.executeCommand unmarshal sched w ⟨X, "subscribe", data⟩ = .returned none w' ∧
      w'.Writing ∧
      (ChanOp.Reject ∈ (cd.Subscribed.getD (fun _ => [])) ⟨cd.Name, X, w.conn.identifier, X⟩ →
        w'.channelAt cd.Name X = none ∧
        w'.conn.send.getLast? =
          some (.strMap [("identifier", X), ("type", "reject_subscription")])) ∧
      (ChanOp.Reject ∉ (cd.Subscribed.getD (fun _ => [])) ⟨cd.Name, X, w.conn.identifier, X⟩ →
        w'.channelAt cd.Name X = some w.next ∧
        (w'.heap w.next).Identifier = X ∧ (w'.heap w.next).Name = cd.Name ∧
        (((World.runSched (Channel.callSubscribed (newChannel w X X cd .transmit).1 w.next)
              sched).heap w.next).isConfirmationSent = false →
          w'.conn.send =
            (World.runSched (Channel.callSubscribed (newChannel w X X cd .transmit).1 w.next)
              sched).conn.send ++
            [.strMap [("identifier", X), ("type", "confirm_subscription")]])) := by
  have hheap := newChannel_heap w X X cd .transmit
  obtain ⟨w', h, hA, hB⟩ := Channel.subscribe_spec sched (newChannel w X X cd .transmit).1 w.next
    ((cd.Subscribed.getD (fun _ => [])) ⟨cd.Name, X, w.conn.identifier, X⟩) hmu hint
    (by rw [hheap]; rfl) (by rw [hheap]) (by rw [hheap])
  rw [hheap] at hA hB
  have hd : w'.Writing := by
    have := Channel.subscribe_writer sched (newChannel w X X cd .transmit).1 w.next
    rw [h] at this
    exact ⟨this.2.trans hwriter.1, this.1.trans hwriter.2⟩
  exact ⟨w', Connection.executeCommand_subscribe unmarshal sched w cd X data hdec hname hreg w' h,
    hd, hA, hB⟩

/-- Witness of C1: a subscribe to `rejectingRoom`, whose callback calls `Reject`, and a
subscribe to `streamingRoom`, whose callback does not. -/
theorem C1_subscribe_confirms_or_rejects_witness :
    (∃ w', Connection.executeCommand exampleUnmarshal []
        (World.start [("RoomChannel", rejectingRoom)]) ⟨roomId, "subscribe", ""⟩
          = .returned none w' ∧
      w'.channelAt "RoomChannel" roomId = none ∧
      w'.conn.send.getLast? =
        some (.strMap [("identifier", roomId), ("type", "reject_subscription")])) ∧
    (∃ w', Connection.executeCommand exampleUnmarshal []
        (World.start [("RoomChannel", streamingRoom)]) ⟨roomId, "subscribe", ""⟩
          = .returned none w' ∧
      w'.channelAt "RoomChannel" roomId = some 0 ∧
      w'.conn.send = [.strMap [("identifier", roomId), ("type", "confirm_subscription")]]) := by
  constructor
  · obtain ⟨w', h, _, hA, _⟩ := C1_subscribe_confirms_or_rejects exampleUnmarshal []
      (World.start [("RoomChannel", rejectingRoom)]) rejectingRoom roomId ""
      (by decide) (by decide) rfl rfl (by decide) ⟨rfl, rfl⟩
    exact ⟨w', h, hA (by decide)⟩
  · obtain ⟨w', h, _, _, hB⟩ := C1_subscribe_confirms_or_rejects exampleUnmarshal []
      (World.start [("RoomChannel", streamingRoom)]) streamingRoom roomId ""
      (by decide) (by decide) rfl rfl (by decide) ⟨rfl, rfl⟩
    obtain ⟨b1, _, _, b4⟩ := hB (by decide)
    exact ⟨w', h, b1, (b4 (by decide)).trans (by decide)⟩

/-- C2, the code at the failing input: with a `Subscribed` callback that calls
`StreamFrom("room_1")` and then `Reject`, the subscribe command sends both a
`reject_subscription` and a `confirm_subscription` for the same identifier, whether the
goroutine of `StreamFrom` runs after the handler returned or before its rejection test; in
the first case the rejected Channel also stays subscribed at the broker. -/
theorem C2_confirm_and_reject_both_sent :
    (Connection.executeCommand exampleUnmarshal [] (World.start [("RoomChannel", rejectingRoom)])
        ⟨roomId, "subscribe", ""⟩).world.settle.conn.send =
      [.strMap [("identifier", roomId), ("type", "reject_subscription")],
       .strMap [("identifier", roomId), ("type", "confirm_subscription")]] ∧
    (Connection.executeCommand exampleUnmarshal [] (World.start [("RoomChannel", rejectingRoom)])
        ⟨roomId, "subscribe", ""⟩).world.settle.pending = [] ∧
    (Connection.executeCommand exampleUnmarshal [] (World.start [("RoomChannel", rejectingRoom)])
        ⟨roomId, "subscribe", ""⟩).world.settle.cable.PubSub.members "RoomChannel" "room_1"
      = [0] ∧
    (Connection.executeCommand exampleUnmarshal [0] (World.start [("RoomChannel", rejectingRoom)])
        ⟨roomId, "subscribe", ""⟩).world.conn.send =
      [.strMap [("identifier", roomId), ("type", "confirm_subscription")],
       .strMap [("identifier", roomId), ("type", "reject_subscription")]] ∧
    (Connection.executeCommand exampleUnmarshal [0] (World.start [("RoomChannel", rejectingRoom)])
        ⟨roomId, "subscribe", ""⟩).world.pending = [] := by
  decide

/-! ## The broker never holds a stream the Channel does not list -/

theorem Channel.transmitSubscriptionConfirmation_cable (w : World) (c : ChanPtr) :
    (Channel.transmitSubscriptionConfirmation w c).cable = w.cable := by
  unfold Channel.transmitSubscriptionConfirmation
  split <;> rfl

theorem Channel.transmitSubscriptionConfirmation_streams (w : World) (c p : ChanPtr) :
    ((Channel.transmitSubscriptionConfirmation w c).heap p).streams = (w.heap p).streams := by
  unfold Channel.transmitSubscriptionConfirmation
  split
  · rfl
  · unfold World.enqueue
    dsimp only
    rw [World.updChan_heap]
    split
    · next e => rw [e]
    · rfl

theorem Goroutine.body_cover (w : World) (g : Goroutine) (c : ChanPtr)
    (h : w.StreamsCover c) : (Goroutine.run w g).StreamsCover c := by
  have fr := Goroutine.body_frame w g
  intro n b hm
  rw [fr.name c]
  cases g with
  | streamFrom c' b' =>
    unfold Goroutine.run at hm ⊢
    rw [Channel.transmitSubscriptionConfirmation_cable] at hm
    rw [Channel.transmitSubscriptionConfirmation_streams, World.updChan_heap]
    have hm2 : c ∈ (w.cable.PubSub.Subscribe w.nameOf c' b').1.members n b := hm
    rw [SubscriberMap.members_Subscribe] at hm2
    by_cases hcond : n = w.nameOf c' ∧ b = b'
    · rw [if_pos hcond, GoSet.mem_add] at hm2
      rcases hm2 with hm2 | hm2
      · have := h n b hm2
        refine ⟨this.1, ?_⟩
        split
        · next e =>
          subst e
          exact GoSet.mem_add.mpr (Or.inl this.2)
        · exact this.2
      · subst hm2
        refine ⟨hcond.1, ?_⟩
        rw [if_pos rfl]
        exact GoSet.mem_add.mpr (Or.inr hcond.2)
    · rw [if_neg hcond] at hm2
      have := h n b hm2
      refine ⟨this.1, ?_⟩
      split
      · next e =>
        subst e
        exact GoSet.mem_add.mpr (Or.inl this.2)
      · exact this.2
  | unsubscribe c' b' =>
    have hm2 : c ∈ (w.pubsubUnsubscribe c' b').cable.PubSub.members n b := hm
    rw [World.pubsubUnsubscribe_pubsub, SubscriberMap.members_Unsubscribe] at hm2
    have hh : ((Goroutine.run w (.unsubscribe c' b')).heap c).streams = (w.heap c).streams := by
      show ((w.pubsubUnsubscribe c' b').heap c).streams = _
      rw [World.pubsubUnsubscribe_heap]
    rw [hh]
    by_cases hcond : n = w.nameOf c' ∧ b = b'
    · rw [if_pos hcond, GoSet.mem_remove] at hm2
      exact h n b hm2.1
    · rw [if_neg hcond] at hm2
      exact h n b hm2
  | send s =>
    obtain ⟨l, e⟩ := Goroutine.run_send w s
    rw [e] at hm ⊢
    exact h n b hm

theorem World.runSched_cover (sched : List Nat) (c : ChanPtr) :
    ∀ w : World, w.StreamsCover c → (World.runSched w sched).StreamsCover c := by
  induction sched with
  | nil => intro w h; exact h
  | cons i rest ih =>
    intro w h
    unfold World.runSched
    cases w.pending.get? i with
    | none => exact ih w h
    | some g => exact ih _ (Goroutine.body_cover _ g c h)

theorem Channel.unsubscribeStreams_aux (c : ChanPtr) (l : List String) :
    ∀ w : World,
      (l.foldl (fun w1 b => w1.pubsubUnsubscribe c b) w).heap
        = w.heap ∧
      ∀ n b x,
        x ∈ (l.foldl (fun w1 b => w1.pubsubUnsubscribe c b)
          w).cable.PubSub.members n b ↔
        x ∈ w.cable.PubSub.members n b ∧ ¬ (x = c ∧ n = (w.heap c).Name ∧ b ∈ l) := by
  induction l with
  | nil => intro w; simp
  | cons b0 l ih =>
    intro w
    rw [List.foldl_cons]
    obtain ⟨ih1, ih2⟩ := ih (w.pubsubUnsubscribe c b0)
    have e := World.pubsubUnsubscribe_pubsub w c b0
    have e2 := World.pubsubUnsubscribe_heap w c b0
    refine ⟨ih1.trans e2, ?_⟩
    intro n b x
    rw [ih2]
    rw [e, e2, SubscriberMap.members_Unsubscribe]
    by_cases hcond : n = w.nameOf c ∧ b = b0
    · rw [if_pos hcond, GoSet.mem_remove]
      obtain ⟨hn, hb⟩ := hcond
      have hn2 : n = (w.heap c).Name := hn
      constructor
      · rintro ⟨⟨h1, h2⟩, h3⟩
        refine ⟨h1, ?_⟩
        rintro ⟨hx, _, _⟩
        exact h2 hx
      · rintro ⟨h1, h2⟩
        refine ⟨⟨h1, ?_⟩, ?_⟩
        · intro hx
          exact h2 ⟨hx, hn2, by rw [hb]; exact List.mem_cons_self _ _⟩
        · rintro ⟨hx, hn3, hb3⟩
          exact h2 ⟨hx, hn3, List.mem_cons_of_mem _ hb3⟩
    · rw [if_neg hcond]
      constructor
      · rintro ⟨h1, h2⟩
        refine ⟨h1, ?_⟩
        rintro ⟨hx, hn3, hb3⟩
        rcases List.mem_cons.mp hb3 with hb3 | hb3
        · exact hcond ⟨hn3, hb3⟩
        · exact h2 ⟨hx, hn3, hb3⟩
      · rintro ⟨h1, h2⟩
        refine ⟨h1, ?_⟩
        rintro ⟨hx, hn3, hb3⟩
        exact h2 ⟨hx, hn3, List.mem_cons_of_mem _ hb3⟩

theorem Channel.unsubscribeStreams_heap (w : World) (c : ChanPtr) :
    (Channel.unsubscribeStreams w c).heap = w.heap :=
  (Channel.unsubscribeStreams_aux c (w.heap c).streams w).1

theorem Channel.unsubscribeStreams_members (w : World) (c : ChanPtr) (n b : String)
    (x : ChanPtr) :
    x ∈ (Channel.unsubscribeStreams w c).cable.PubSub.members n b ↔
      x ∈ w.cable.PubSub.members n b ∧
        ¬ (x = c ∧ n = (w.heap c).Name ∧ b ∈ (w.heap c).streams) :=
  (Channel.unsubscribeStreams_aux c (w.heap c).streams w).2 n b x

theorem Channel.callUnsubscribed_pubsub (w : World) (c : ChanPtr) :
    (Channel.callUnsubscribed w c).cable.PubSub = w.cable.PubSub :=
  Channel.run_pubsub _ _ _

theorem Channel.callSubscribed_pubsub (w : World) (c : ChanPtr) :
    (Channel.callSubscribed w c).cable.PubSub = w.cable.PubSub :=
  Channel.run_pubsub _ _ _

theorem Channel.detach_no_empty (w : World) (c : ChanPtr) :
    GoMap.lookup (Channel.detach w c).conn.channels (w.heap c).Name ≠ some [] := by
  unfold Channel.detach World.setChannels
  dsimp only
  split
  · next hl =>
    rw [GoMap.lookup_delete_same]
    simp
  · next hl =>
    intro h
    rw [h] at hl
    exact hl rfl

theorem Channel.confirmed_cover (sched : List Nat) (w : World) (c : ChanPtr)
    (h : (World.runSched (Channel.callSubscribed w c) sched).StreamsCover c) :
    (Channel.confirmed sched w c).StreamsCover c := by
  unfold Channel.confirmed
  split
  · exact h
  · intro n b hm
    rw [Channel.transmitSubscriptionConfirmation_cable] at hm
    rw [Channel.transmitSubscriptionConfirmation_streams,
      (Channel.transmitSubscriptionConfirmation_frame _ _).name]
    exact h n b hm

theorem Connection.executeCommand_unsubscribe (unmarshal : String → Option String)
    (sched : List Nat) (w : World) (n X data : String) (c : ChanPtr)
    (hdec : unmarshal X = some n) (hname : n ≠ "") (hat : w.channelAt n X = some c)
    (hmu : w.conn.mu = false) (hint : w.conn.internalChannel ≠ some c) :
    Connection.executeCommand unmarshal sched w ⟨X, "unsubscribe", data⟩ =
      .returned none (Channel.callUnsubscribed
        (Channel.unsubscribeStreams (Channel.detach w c) c) c) := by
  unfold Connection.executeCommand
  dsimp only
  rw [hdec]
  dsimp only
  rw [if_neg hname, if_neg (by decide), if_pos rfl]
  unfold Connection.removeSubscription
  rw [hat]
  dsimp only
  rw [Channel.unsubscribe_of_free w c hmu hint]

/-- C3: on a connection whose mutex is free, a subscribe command for identifier `X` of a
registered channel whose `Subscribed` callback does not reject, then any run of the pending
goroutines, then an unsubscribe command for `X`: both commands return, the channel map has
no entry for `X` and no empty inner map under the channel name, and the broker holds no
subscription of the Channel under any name and broadcasting. -/
theorem C3_subscribe_then_unsubscribe (unmarshal : String → Option String)
    (sched sched2 sched3 : List Nat) (w : World) (cd : ChannelDescription)
    (X data data2 : String)
    (hdec : unmarshal X = some cd.Name) (hname : cd.Name ≠ "")
    (hreg : GoMap.lookup w.cable.channelDescriptions cd.Name = some cd)
    (hmu : w.conn.mu = false) (hint : w.conn.internalChannel ≠ some w.next)
    (hfresh : ∀ n b, w.next ∉ w.cable.PubSub.members n b)
    (hacc : ChanOp.Reject ∉
      (cd.Subscribed.getD (fun _ => [])) ⟨cd.Name, X, w.conn.identifier, X⟩) :
    ∃ w1, Connection.executeCommand unmarshal sched w ⟨X, "subscribe", data⟩ = .returned none w1 ∧
      w1.channelAt cd.Name X = some w.next ∧
      ∃ w3, Connection.executeCommand unmarshal sched3 (World.runSched w1 sched2)
          ⟨X, "unsubscribe", data2⟩ = .returned none w3 ∧
        w3.channelAt cd.Name X = none ∧
        GoMap.lookup w3.conn.channels cd.Name ≠ some [] ∧
        ∀ n b, w.next ∉ w3.cable.PubSub.members n b := by
  have hheap := newChannel_heap w X X cd .transmit
  generalize hw0 : (newChannel w X X cd .transmit).1 = w0 at hheap
  have hmu0 : w0.conn.mu = false := by rw [← hw0]; exact hmu
  have hint0 : w0.conn.internalChannel ≠ some w.next := by rw [← hw0]; exact hint
  have hps0 : w0.cable.PubSub = w.cable.PubSub := by rw [← hw0]; rfl
  have f1 := (Channel.callSubscribed_frame w0 w.next).trans
    (World.runSched_frame sched (Channel.callSubscribed w0 w.next))
  have hflag : ((World.runSched (Channel.callSubscribed w0 w.next) sched).heap
      w.next).isSubscriptionRejected = false := by
    rw [World.runSched_rejected]
    unfold Channel.callSubscribed
    rw [Channel.run_rejected, hheap]
    simpa [Channel.view] using hacc
  have hsub := Channel.subscribe_accepting sched w0 w.next hmu0 hflag
  have hdn : (w0.heap w.next).descrption.Name = cd.Name := by rw [hheap]
  rw [hdn] at hsub
  have f2 := Channel.confirmed_frame sched w0 w.next
  have hname2 : ((Channel.confirmed sched w0 w.next).heap w.next).Name = cd.Name := by
    rw [f2.name, f1.name]; dsimp only; rw [hheap]
  have hid2 : ((Channel.confirmed sched w0 w.next).heap w.next).Identifier = X := by
    rw [f2.ident, f1.ident]; dsimp only; rw [hheap]
  have hcov0 : (Channel.callSubscribed w0 w.next).StreamsCover w.next := by
    intro n b hm
    rw [Channel.callSubscribed_pubsub, hps0] at hm
    exact absurd hm (hfresh n b)
  have hcov2 : (Channel.confirmed sched w0 w.next).StreamsCover w.next :=
    Channel.confirmed_cover sched w0 w.next (World.runSched_cover sched w.next _ hcov0)
  have hcov3 : (Channel.install (Channel.confirmed sched w0 w.next) w.next
      cd.Name).StreamsCover w.next := hcov2
  have hat := Channel.install_channelAt (Channel.confirmed sched w0 w.next) w.next cd.Name
  rw [hid2] at hat
  have f3 := World.runSched_frame sched2
    (Channel.install (Channel.confirmed sched w0 w.next) w.next cd.Name)
  have hcov4 := World.runSched_cover sched2 w.next _ hcov3
  generalize hw2 : World.runSched
    (Channel.install (Channel.confirmed sched w0 w.next) w.next cd.Name) sched2 = w2
    at f3 hcov4
  have hmu2 : w2.conn.mu = false := by
    rw [f3.mu]
    exact f2.mu.trans (f1.mu.trans hmu0)
  have hint2 : w2.conn.internalChannel ≠ some w.next := by
    rw [f3.internalChannel]
    show (Channel.confirmed sched w0 w.next).conn.internalChannel ≠ _
    rw [f2.internalChannel, f1.internalChannel]
    exact hint0
  have hat2 : w2.channelAt cd.Name X = some w.next := by
    rw [World.channelAt_congr f3.channels]
    exact hat
  have hname3 : (w2.heap w.next).Name = cd.Name := by
    rw [f3.name]
    exact hname2
  have hid3 : (w2.heap w.next).Identifier = X := by
    rw [f3.ident]
    exact hid2
  have hun := Connection.executeCommand_unsubscribe unmarshal sched3 w2 cd.Name X data2 w.next
    hdec hname hat2 hmu2 hint2
  have f4 := Channel.unsubscribeStreams_frame (Channel.detach w2 w.next) w.next
  have hch : (Channel.callUnsubscribed (Channel.unsubscribeStreams (Channel.detach w2 w.next)
      w.next) w.next).conn.channels = (Channel.detach w2 w.next).conn.channels := by
    rw [Channel.callUnsubscribed_channels, f4.channels]
  refine ⟨_, Connection.executeCommand_subscribe unmarshal sched w cd X data hdec hname hreg _
    (hw0 ▸ hsub), ?_, ?_⟩
  · rw [hw0]
    exact hat
  · rw [hw0, hw2]
    refine ⟨_, hun, ?_, ?_, ?_⟩
    · rw [World.channelAt_congr hch]
      have := Channel.detach_channelAt w2 w.next
      rw [hname3, hid3] at this
      exact this
    · rw [hch]
      have := Channel.detach_no_empty w2 w.next
      rw [hname3] at this
      exact this
    · intro n b hm
      rw [Channel.callUnsubscribed_pubsub, Channel.unsubscribeStreams_members] at hm
      obtain ⟨hm1, hm2⟩ := hm
      have hc := hcov4 n b hm1
      exact hm2 ⟨rfl, hc.1, hc.2⟩

/-- Witness of C3: subscribe to `streamingRoom`, let the goroutine of `StreamFrom` run,
unsubscribe. -/
theorem C3_subscribe_then_unsubscribe_witness :
    ∃ w1, Connection.executeCommand exampleUnmarshal []
        (World.start [("RoomChannel", streamingRoom)]) ⟨roomId, "subscribe", ""⟩
        = .returned none w1 ∧
      (World.runSched w1 [0]).cable.PubSub.members "RoomChannel" "room_1" = [0] ∧
      ∃ w3, Connection.executeCommand exampleUnmarshal [] (World.runSched w1 [0])
          ⟨roomId, "unsubscribe", ""⟩ = .returned none w3 ∧
        w3.channelAt "RoomChannel" roomId = none ∧
        ∀ n b, 0 ∉ w3.cable.PubSub.members n b := by
  obtain ⟨w1, h1, _, w3, h3, h4, _, h6⟩ := C3_subscribe_then_unsubscribe exampleUnmarshal
    [] [0] [] (World.start [("RoomChannel", streamingRoom)]) streamingRoom roomId "" ""
    (by decide) (by decide) rfl rfl (by decide) (by intro n b; simp [World.start,
      SubscriberMap.members, GoMap.lookup]) (by decide)
  refine ⟨w1, h1, ?_, w3, h3, h4, h6⟩
  have e : w1 = (Connection.executeCommand exampleUnmarshal []
      (World.start [("RoomChannel", streamingRoom)]) ⟨roomId, "subscribe", ""⟩).world := by
    rw [h1]; rfl
  rw [e]
  decide

/-! ## Close: what one unsubscribe does -/

theorem World.Frame.loose {w w' : World} (h : World.Frame w w') : World.Loose w w' :=
  { self := h.self, next := h.next, descriptions := h.descriptions,
    connections := h.connections, identifier := h.identifier, wsConn := h.wsConn,
    closed := h.closed, isInitialized := h.isInitialized, done := h.done,
    internalChannel := h.internalChannel, mu := h.mu, name := h.name, ident := h.ident,
    descr := h.descr }

theorem World.Loose.same (w : World) : World.Loose w w := (World.Frame.refl w).loose

theorem World.Loose.comp {a b c : World} (h1 : World.Loose a b) (h2 : World.Loose b c) :
    World.Loose a c :=
  { self := h2.self.trans h1.self, next := h2.next.trans h1.next,
    descriptions := h2.descriptions.trans h1.descriptions,
    connections := h2.connections.trans h1.connections,
    identifier := h2.identifier.trans h1.identifier, wsConn := h2.wsConn.trans h1.wsConn,
    closed := h2.closed.trans h1.closed,
    isInitialized := h2.isInitialized.trans h1.isInitialized, done := h2.done.trans h1.done,
    internalChannel := h2.internalChannel.trans h1.internalChannel, mu := h2.mu.trans h1.mu,
    name := fun p => (h2.name p).trans (h1.name p),
    ident := fun p => (h2.ident p).trans (h1.ident p),
    descr := fun p => (h2.descr p).trans (h1.descr p) }

theorem Channel.detach_loose (w : World) (c : ChanPtr) : World.Loose w (Channel.detach w c) :=
  { (World.Loose.same w) with }

theorem Channel.callUnsubscribed_loose (w : World) (c : ChanPtr) :
    World.Loose w (Channel.callUnsubscribed w c) :=
  World.Loose.comp (a := w) (b := { w with calls := w.calls ++ [.Unsubscribed c] })
    { (World.Loose.same w) with } (Channel.callUnsubscribed_frame w c).loose

theorem Channel.unsubscribed_loose (w : World) (c : ChanPtr) :
    World.Loose w (Channel.unsubscribed w c) :=
  ((Channel.detach_loose w c).comp (Channel.unsubscribeStreams_frame _ c).loose).comp
    (Channel.callUnsubscribed_loose _ c)

theorem Channel.unsubscribed_calls (w : World) (c : ChanPtr) :
    (Channel.unsubscribed w c).calls = w.calls ++ [.Unsubscribed c] := by
  unfold Channel.unsubscribed
  rw [(Channel.callUnsubscribed_frame _ c).calls]
  show (Channel.unsubscribeStreams (Channel.detach w c) c).calls ++ _ = _
  rw [(Channel.unsubscribeStreams_frame _ c).calls]
  rfl

theorem Channel.unsubscribed_channels (w : World) (c : ChanPtr) :
    (Channel.unsubscribed w c).conn.channels = (Channel.detach w c).conn.channels := by
  unfold Channel.unsubscribed
  rw [Channel.callUnsubscribed_channels, (Channel.unsubscribeStreams_frame _ c).channels]

theorem Channel.unsubscribed_members (w : World) (c : ChanPtr) (n b : String) (x : ChanPtr) :
    x ∈ (Channel.unsubscribed w c).cable.PubSub.members n b ↔
      x ∈ w.cable.PubSub.members n b ∧
        ¬ (x = c ∧ n = (w.heap c).Name ∧ b ∈ (w.heap c).streams) := by
  unfold Channel.unsubscribed
  rw [Channel.callUnsubscribed_pubsub, Channel.unsubscribeStreams_members]
  rfl

theorem Channel.StopAllStreams_heap_other (w : World) (c q : ChanPtr) (h : q ≠ c) :
    (Channel.StopAllStreams w c).heap q = w.heap q := by
  unfold Channel.StopAllStreams
  generalize (w.heap c).streams = l
  induction l generalizing w with
  | nil => rfl
  | cons b l ih =>
    rw [List.foldl_cons, ih]
    unfold Channel.StopStreamFrom World.spawn
    dsimp only
    rw [World.updChan_heap, if_neg h]

theorem Channel.exec_heap_other (w : World) (c q : ChanPtr) (op : ChanOp) (h : q ≠ c) :
    (Channel.exec w c op).heap q = w.heap q := by
  cases op with
  | StreamFrom b =>
    show (Channel.StreamFrom w c b).heap q = _
    unfold Channel.StreamFrom
    split <;> rfl
  | StopStreamFrom b =>
    show (Channel.StopStreamFrom w c b).heap q = _
    unfold Channel.StopStreamFrom World.spawn
    dsimp only
    rw [World.updChan_heap, if_neg h]
  | StopAllStreams => exact Channel.StopAllStreams_heap_other w c q h
  | Broadcast b m =>
    show (w.pubsubBroadcast (w.heap c).Name b m).heap q = _
    rw [World.pubsubBroadcast_heap]
  | Transmit m => rfl
  | Reject =>
    show (Channel.Reject w c).heap q = _
    unfold Channel.Reject
    rw [World.updChan_heap, if_neg h]

theorem Channel.run_heap_other (w : World) (c q : ChanPtr) (ops : List ChanOp) (h : q ≠ c) :
    (Channel.run w c ops).heap q = w.heap q := by
  unfold Channel.run
  induction ops generalizing w with
  | nil => rfl
  | cons op ops ih => rw [List.foldl_cons, ih, Channel.exec_heap_other w c q op h]

theorem Channel.unsubscribed_heap_other (w : World) (c q : ChanPtr) (h : q ≠ c) :
    (Channel.unsubscribed w c).heap q = w.heap q := by
  unfold Channel.unsubscribed Channel.callUnsubscribed
  rw [Channel.run_heap_other _ c q _ h]
  show (Channel.unsubscribeStreams (Channel.detach w c) c).heap q = _
  rw [Channel.unsubscribeStreams_heap]
  rfl

/-- What unsubscribing a list of distinct Channels one after the other adds up to. -/
theorem Channel.unsubscribed_foldl (l : List ChanPtr) (hnd : l.Nodup) :
    ∀ w : World,
      World.Loose w (l.foldl Channel.unsubscribed w) ∧
      (l.foldl Channel.unsubscribed w).calls = w.calls ++ l.map Call.Unsubscribed ∧
      (∀ x n b, x ∈ (l.foldl Channel.unsubscribed w).cable.PubSub.members n b →
        x ∈ w.cable.PubSub.members n b) ∧
      (∀ p ∈ l, ∀ b ∈ (w.heap p).streams,
        p ∉ (l.foldl Channel.unsubscribed w).cable.PubSub.members (w.heap p).Name b) ∧
      (∀ q, q ∉ l → (l.foldl Channel.unsubscribed w).heap q = w.heap q) := by
  induction l with
  | nil =>
    intro w
    exact ⟨World.Loose.same w, by simp, fun _ _ _ h => h, fun p hp => absurd hp (by simp),
      fun _ _ => rfl⟩
  | cons c l ih =>
    intro w
    rw [List.foldl_cons]
    obtain ⟨hc, hl⟩ := List.nodup_cons.mp hnd
    obtain ⟨i1, i2, i3, i4, i5⟩ := ih hl (Channel.unsubscribed w c)
    refine ⟨(Channel.unsubscribed_loose w c).comp i1, ?_, ?_, ?_, ?_⟩
    · rw [i2, Channel.unsubscribed_calls, List.map_cons, List.append_assoc]
      rfl
    · intro x n b hx
      exact ((Channel.unsubscribed_members w c n b x).mp (i3 x n b hx)).1
    · intro p hp b hb hm
      rcases List.mem_cons.mp hp with hp | hp
      · subst hp
        have := (Channel.unsubscribed_members w p (w.heap p).Name b p).mp (i3 _ _ _ hm)
        exact this.2 ⟨rfl, rfl, hb⟩
      · have hpc : p ≠ c := fun e => hc (e ▸ hp)
        have hh := Channel.unsubscribed_heap_other w c p hpc
        have := i4 p hp b (by rw [hh]; exact hb)
        rw [hh] at this
        exact this hm
    · intro q hq
      have hq1 : q ≠ c := fun e => hq (e ▸ List.mem_cons_self _ _)
      have hq2 : q ∉ l := fun e => hq (List.mem_cons_of_mem _ e)
      rw [i5 q hq2, Channel.unsubscribed_heap_other w c q hq1]

/-! ## Close: the two loops -/

theorem GoMap.lookup_eq_none_of_not_mem {K V : Type} [DecidableEq K] (m : GoMap K V) (k : K)
    (h : k ∉ m.map Prod.fst) : GoMap.lookup m k = none := by
  induction m with
  | nil => rfl
  | cons e m ih =>
    obtain ⟨k0, v0⟩ := e
    simp only [List.map_cons, List.mem_cons, not_or] at h
    have h0 : ¬ k0 = k := fun e => h.1 e.symm
    simp [GoMap.lookup, h0, ih h.2]

theorem Channel.unsubscribed_foldl_loose (l : List ChanPtr) :
    ∀ w : World, World.Loose w (l.foldl Channel.unsubscribed w) := by
  induction l with
  | nil => intro w; exact World.Loose.same w
  | cons c l ih => intro w; exact (Channel.unsubscribed_loose w c).comp (ih _)

theorem Channel.detach_head (w : World) (c : ChanPtr) (n i : String)
    (rest : GoMap String ChanPtr) (m : GoMap String (GoMap String ChanPtr))
    (hch : w.conn.channels = (n, (i, c) :: rest) :: m)
    (hN : (w.heap c).Name = n) (hI : (w.heap c).Identifier = i)
    (hi : i ∉ rest.map Prod.fst) (hn : n ∉ m.map Prod.fst) :
    (Channel.detach w c).conn.channels = if rest = [] then m else (n, rest) :: m := by
  have e1 : GoMap.delete rest i = rest :=
    GoMap.delete_of_lookup_none _ _ (GoMap.lookup_eq_none_of_not_mem _ _ hi)
  have e2 : GoMap.delete m n = m :=
    GoMap.delete_of_lookup_none _ _ (GoMap.lookup_eq_none_of_not_mem _ _ hn)
  unfold Channel.detach World.setChannels
  dsimp only
  rw [hch, hN, hI]
  simp only [GoMap.lookup, GoMap.store, GoMap.delete, if_true, e1, Option.getD_some, GoMap.len]
  by_cases hr : rest = []
  · subst hr
    simp [e2]
  · have : ¬ rest.length = 0 := fun e => hr (List.length_eq_zero.mp e)
    simp [hr, this]

theorem Connection.unsubscribeEach_spec (n : String) (m : GoMap String (GoMap String ChanPtr))
    (hn : n ∉ m.map Prod.fst) :
    ∀ (rest : List (String × ChanPtr)) (w : World),
      rest ≠ [] → (rest.map Prod.fst).Nodup →
      (∀ f ∈ rest, (w.heap f.2).Name = n ∧ (w.heap f.2).Identifier = f.1 ∧
        w.conn.internalChannel ≠ some f.2) →
      w.conn.channels = (n, rest) :: m → w.conn.mu = false →
      Connection.unsubscribeEach n rest w =
          .returned () ((rest.map Prod.snd).foldl Channel.unsubscribed w) ∧
        ((rest.map Prod.snd).foldl Channel.unsubscribed w).conn.channels = m := by
  intro rest
  induction rest with
  | nil => intro w h; exact absurd rfl h
  | cons f rest ih =>
    intro w _ hnd hwf hch hmu
    obtain ⟨i, p⟩ := f
    obtain ⟨hi, hnd'⟩ := List.nodup_cons.mp hnd
    obtain ⟨hN, hI, hint⟩ := hwf (i, p) (List.mem_cons_self _ _)
    have hat : w.channelAt n i = some p := by
      unfold World.channelAt
      rw [hch]
      simp [GoMap.lookup]
    have hun : Channel.unsubscribe w p = .returned () (Channel.unsubscribed w p) :=
      Channel.unsubscribe_of_free w p hmu hint
    have hl := Channel.unsubscribed_loose w p
    have hch1 : (Channel.unsubscribed w p).conn.channels =
        if rest = [] then m else (n, rest) :: m := by
      rw [Channel.unsubscribed_channels]
      exact Channel.detach_head w p n i rest m hch hN hI hi hn
    unfold Connection.unsubscribeEach
    rw [hat]
    dsimp only
    rw [hun]
    dsimp only
    rw [List.map_cons, List.foldl_cons]
    by_cases hr : rest = []
    · subst hr
      rw [if_pos rfl] at hch1
      exact ⟨rfl, hch1⟩
    · rw [if_neg hr] at hch1
      refine ih (Channel.unsubscribed w p) hr hnd' ?_ hch1 (hl.mu.trans hmu)
      intro f hf
      obtain ⟨h1, h2, h3⟩ := hwf f (List.mem_cons_of_mem _ hf)
      refine ⟨(hl.name _).trans h1, (hl.ident _).trans h2, ?_⟩
      rw [hl.internalChannel]
      exact h3

theorem Connection.unsubscribeAll_spec :
    ∀ (m : GoMap String (GoMap String ChanPtr)) (w : World),
      MapWF w.heap w.conn.internalChannel m → w.conn.channels = m → w.conn.mu = false →
      Connection.unsubscribeAll (m.map Prod.fst) w =
          .returned () ((ownedOf m).foldl Channel.unsubscribed w) ∧
        ((ownedOf m).foldl Channel.unsubscribed w).conn.channels = [] := by
  intro m
  induction m with
  | nil =>
    intro w _ hch _
    exact ⟨rfl, hch⟩
  | cons e m ih =>
    intro w hwf hch hmu
    obtain ⟨n, inner⟩ := e
    obtain ⟨hnd, hall⟩ := hwf
    rw [List.map_cons] at hnd
    obtain ⟨hn, hnd'⟩ := List.nodup_cons.mp hnd
    obtain ⟨hne, hind, hin⟩ := hall (n, inner) (List.mem_cons_self _ _)
    obtain ⟨h1, h2⟩ := Connection.unsubscribeEach_spec n m hn inner w hne hind hin hch hmu
    have hl := Channel.unsubscribed_foldl_loose (inner.map Prod.snd) w
    have hwf' : MapWF ((inner.map Prod.snd).foldl Channel.unsubscribed w).heap
        ((inner.map Prod.snd).foldl Channel.unsubscribed w).conn.internalChannel m := by
      refine ⟨hnd', ?_⟩
      intro e he
      obtain ⟨a1, a2, a3⟩ := hall e (List.mem_cons_of_mem _ he)
      refine ⟨a1, a2, ?_⟩
      intro f hf
      obtain ⟨b1, b2, b3⟩ := a3 f hf
      refine ⟨(hl.name _).trans b1, (hl.ident _).trans b2, ?_⟩
      rw [hl.internalChannel]
      exact b3
    obtain ⟨h3, h4⟩ := ih _ hwf' h2 (hl.mu.trans hmu)
    have hlook : GoMap.lookup w.conn.channels n = some inner := by
      rw [hch]
      simp [GoMap.lookup]
    have hown : ownedOf ((n, inner) :: m) = inner.map Prod.snd ++ ownedOf m := rfl
    rw [hown, List.foldl_append]
    refine ⟨?_, h4⟩
    rw [List.map_cons]
    unfold Connection.unsubscribeAll
    rw [hlook]
    dsimp only
    rw [h1]
    dsimp only
    exact h3

theorem mem_ownedOf (m : GoMap String (GoMap String ChanPtr)) (p : ChanPtr) :
    p ∈ ownedOf m ↔ ∃ e ∈ m, ∃ f ∈ e.2, f.2 = p := by
  induction m with
  | nil => simp [ownedOf]
  | cons e m ih =>
    simp only [ownedOf, List.mem_append, List.mem_map, ih, List.mem_cons]
    constructor
    · rintro (⟨f, hf, rfl⟩ | ⟨e', he', f, hf, rfl⟩)
      · exact ⟨e, Or.inl rfl, f, hf, rfl⟩
      · exact ⟨e', Or.inr he', f, hf, rfl⟩
    · rintro ⟨e', he' | he', f, hf, rfl⟩
      · subst he'
        exact Or.inl ⟨f, hf, rfl⟩
      · exact Or.inr ⟨e', he', f, hf, rfl⟩

theorem MapWF.nodup_owned (heap : ChanPtr → Channel) (ic : Option ChanPtr) :
    ∀ m : GoMap String (GoMap String ChanPtr), MapWF heap ic m → (ownedOf m).Nodup := by
  intro m
  induction m with
  | nil => intro _; exact List.nodup_nil
  | cons e m ih =>
    intro hwf
    obtain ⟨hnd, hall⟩ := hwf
    rw [List.map_cons] at hnd
    obtain ⟨hn, hnd'⟩ := List.nodup_cons.mp hnd
    obtain ⟨_, hind, hin⟩ := hall e (List.mem_cons_self _ _)
    have htail : MapWF heap ic m := ⟨hnd', fun e' he' => hall e' (List.mem_cons_of_mem _ he')⟩
    show (e.2.map Prod.snd ++ ownedOf m).Nodup
    rw [List.nodup_append]
    refine ⟨?_, ih htail, ?_⟩
    · refine List.Nodup.map_on ?_ (List.Nodup.of_map _ hind)
      intro x hx y hy hxy
      have hx1 := (hin x hx).2.1
      have hy1 := (hin y hy).2.1
      rw [hxy] at hx1
      exact Prod.ext (hx1.symm.trans hy1) hxy
    · intro p hp1 hp2
      obtain ⟨f, hf, rfl⟩ := List.mem_map.mp hp1
      obtain ⟨e', he', f', hf', hff⟩ := (mem_ownedOf m f.2).mp hp2
      have hname1 := (hin f hf).1
      have hname2 := ((hall e' (List.mem_cons_of_mem _ he')).2.2 f' hf').1
      rw [hff, hname1] at hname2
      apply hn
      rw [hname2]
      exact List.mem_map_of_mem _ he'

theorem MapWF.not_internal (heap : ChanPtr → Channel) (ic : Option ChanPtr)
    (m : GoMap String (GoMap String ChanPtr)) (h : MapWF heap ic m) (p : ChanPtr)
    (hp : p ∈ ownedOf m) : ic ≠ some p := by
  obtain ⟨e, he, f, hf, rfl⟩ := (mem_ownedOf m p).mp hp
  exact ((h.2 e he).2.2 f hf).2.2

/-! ## Claim on Close -/

/-- The state after the internal channel, if there is one, was unsubscribed by `Close`. -/
theorem Channel.unsubscribe_internal (w : World) (ic : ChanPtr)
    (h : w.conn.internalChannel = some ic) :
    Channel.unsubscribe w ic =
      .returned () (Channel.callUnsubscribed (Channel.unsubscribeStreams w ic) ic) := by
  unfold Channel.unsubscribe
  rw [if_neg (by rw [h]; simp)]

/-- C4: `Close(reason)` on a connection that is not closed returns, and then: `closed` is
true, the connection is out of the Cable's set, the channel map is empty, no stream of a
Channel the connection owned is left at the broker (and no subscription of it at all when
the broker held none outside its stream set), `Unsubscribed` was called once for each of
those Channels, `done` is closed, the last value written to the socket is the disconnect
message with the reason and `reconnect` false, and the socket is closed. -/
theorem C4_close_tears_down (w : World) (reason : String)
    (hclosed : w.conn.closed = false) (hmu : w.conn.mu = false) (hwf : w.ChannelsWF) :
    ∃ w', Connection.Close w reason = .returned () w' ∧
      w'.conn.closed = true ∧
      w.self ∉ w'.cable.connections ∧
      w'.conn.channels = [] ∧
      (∀ p ∈ w.owned, ∀ b ∈ (w.heap p).streams,
        p ∉ w'.cable.PubSub.members (w.heap p).Name b) ∧
      (∀ p ∈ w.owned, w.StreamsCover p → ∀ n b, p ∉ w'.cable.PubSub.members n b) ∧
      w'.calls = w.calls ++ (w.owned.map Call.Unsubscribed ++
        (w.conn.internalChannel.map Call.Unsubscribed).toList) ∧
      (∀ p ∈ w.owned, (w.owned.map Call.Unsubscribed ++
        (w.conn.internalChannel.map Call.Unsubscribed).toList).count (.Unsubscribed p) = 1) ∧
      w'.conn.done = true ∧
      w'.conn.wsConn.messageBox.getLast? = some (.disconnect "disconnect" reason false) ∧
      w'.conn.wsConn.isClosed = true := by
  -- the state the loops start in
  generalize hw3 : ({ w with
      conn := { w.conn with closed := true, mu := false },
      cable := { w.cable with connections := GoSet.remove w.cable.connections w.self } } : World)
    = w3
  have hch3 : w3.conn.channels = w.conn.channels := by rw [← hw3]
  have hmu3 : w3.conn.mu = false := by rw [← hw3]
  have hheap3 : w3.heap = w.heap := by rw [← hw3]
  have hic3 : w3.conn.internalChannel = w.conn.internalChannel := by rw [← hw3]
  have hcl3 : w3.conn.closed = true := by rw [← hw3]
  have hcalls3 : w3.calls = w.calls := by rw [← hw3]
  have hps3 : w3.cable.PubSub = w.cable.PubSub := by rw [← hw3]
  have hcon3 : w3.cable.connections = GoSet.remove w.cable.connections w.self := by rw [← hw3]
  have hwf3 : MapWF w3.heap w3.conn.internalChannel w.conn.channels := by
    rw [hheap3, hic3]; exact hwf
  obtain ⟨hloop, hempty⟩ := Connection.unsubscribeAll_spec w.conn.channels w3 hwf3 hch3 hmu3
  have hnd : (ownedOf w.conn.channels).Nodup := MapWF.nodup_owned _ _ _ hwf
  obtain ⟨l4, c4, m4, s4, _⟩ := Channel.unsubscribed_foldl (ownedOf w.conn.channels) hnd w3
  generalize hw4 : (ownedOf w.conn.channels).foldl Channel.unsubscribed w3 = w4
    at hloop hempty l4 c4 m4 s4
  have hic4 : w4.conn.internalChannel = w.conn.internalChannel := l4.internalChannel.trans hic3
  -- the internal channel
  have hint : ∃ w5, (match w4.conn.internalChannel with
        | none => Outcome.returned () w4
        | some ic => Channel.unsubscribe w4 ic) = .returned () w5 ∧
      World.Loose w4 w5 ∧ w5.conn.channels = w4.conn.channels ∧
      (∀ x n b, x ∈ w5.cable.PubSub.members n b → x ∈ w4.cable.PubSub.members n b) ∧
      w5.calls = w4.calls ++ (w.conn.internalChannel.map Call.Unsubscribed).toList := by
    cases hic : w.conn.internalChannel with
    | none =>
      rw [hic] at hic4
      rw [hic4]
      exact ⟨w4, rfl, World.Loose.same w4, rfl, fun _ _ _ h => h, by simp⟩
    | some ic =>
      rw [hic] at hic4
      rw [hic4]
      refine ⟨_, Channel.unsubscribe_internal w4 ic hic4, ?_, ?_, ?_, ?_⟩
      · exact (Channel.unsubscribeStreams_frame w4 ic).loose.comp
          (Channel.callUnsubscribed_loose _ ic)
      · rw [Channel.callUnsubscribed_channels, (Channel.unsubscribeStreams_frame w4 ic).channels]
      · intro x n b hx
        rw [Channel.callUnsubscribed_pubsub, Channel.unsubscribeStreams_members] at hx
        exact hx.1
      · rw [(Channel.callUnsubscribed_frame _ ic).calls]
        show (Channel.unsubscribeStreams w4 ic).calls ++ _ = _
        rw [(Channel.unsubscribeStreams_frame w4 ic).calls]
        rfl
  obtain ⟨w5, h5, l5, ch5, m5, c5⟩ := hint
  refine ⟨{ w5 with
      conn := { w5.conn with
        done := true
        wsConn := closeConnection w5.conn.wsConn reason false } },
    ?_, ?_, ?_, ?_, ?_, ?_, ?_, ?_, rfl, ?_, rfl⟩
  · unfold Connection.Close
    simp only [World.lock, hmu, Bool.false_eq_true, if_false, hclosed, World.unlock]
    rw [hw3, hloop]
    dsimp only
    rw [h5]
  · exact (l5.closed.trans l4.closed).trans hcl3
  · show w.self ∉ w5.cable.connections
    rw [l5.connections, l4.connections, hcon3, GoSet.mem_remove]
    exact fun h => h.2 rfl
  · show w5.conn.channels = []
    rw [ch5]
    exact hempty
  · intro p hp b hb hm
    have hp' : p ∈ ownedOf w.conn.channels := hp
    have := s4 p hp' b (by rw [hheap3]; exact hb)
    rw [hheap3] at this
    exact this (m5 _ _ _ hm)
  · intro p hp hcov n b hm
    have hp' : p ∈ ownedOf w.conn.channels := hp
    have h1 := m4 _ _ _ (m5 _ _ _ hm)
    rw [hps3] at h1
    obtain ⟨hn, hb⟩ := hcov n b h1
    have := s4 p hp' b (by rw [hheap3]; exact hb)
    rw [hheap3, ← hn] at this
    exact this (m5 _ _ _ hm)
  · show w5.calls = _
    rw [c5, c4, hcalls3, List.append_assoc]
    rfl
  · intro p hp
    have hp' : p ∈ ownedOf w.conn.channels := hp
    have hne := MapWF.not_internal _ _ _ hwf p hp'
    have hinj : Function.Injective Call.Unsubscribed := by
      intro a b hab
      injection hab
    rw [List.count_append]
    show List.count (Call.Unsubscribed p) (List.map Call.Unsubscribed (ownedOf w.conn.channels)) + _ = 1
    rw [List.count_map_of_injective _ _ hinj, List.count_eq_one_of_mem hnd hp']
    cases hic : w.conn.internalChannel with
    | none => simp
    | some ic =>
      have : ic ≠ p := fun e => hne (by rw [hic, e])
      have h0 : Call.Unsubscribed p ∉ [Call.Unsubscribed ic] := by
        intro hm
        rw [List.mem_singleton] at hm
        injection hm with hm
        exact this hm.symm
      simp [List.count_eq_zero_of_not_mem h0]
  · simp [closeConnection]

/-- Witness of C4: `Close` on the connection that owns a streaming `RoomChannel` and a
`ChatChannel`. -/
theorem C4_close_tears_down_witness :
    World.twoChannels.conn.closed = false ∧ World.twoChannels.owned = [0, 1] ∧
    World.twoChannels.cable.PubSub.members "RoomChannel" "room_1" = [0] ∧
    ∃ w', Connection.Close World.twoChannels "close by client." = .returned () w' ∧
      w'.conn.closed = true ∧ w'.conn.channels = [] ∧
      0 ∉ w'.cable.PubSub.members "RoomChannel" "room_1" ∧
      w'.calls = [.Subscribed 0, .Subscribed 1, .Unsubscribed 0, .Unsubscribed 1] ∧
      w'.conn.wsConn.messageBox.getLast? =
        some (.disconnect "disconnect" "close by client." false) := by
  have hwf : World.twoChannels.ChannelsWF := by
    unfold World.ChannelsWF MapWF
    decide
  obtain ⟨w', h1, h2, _, h4, h5, _, h6, _, _, h9, _⟩ :=
    C4_close_tears_down World.twoChannels "close by client." (by decide) (by decide) hwf
  have hs := h5 0 (by decide) "room_1" (by decide)
  have hn : (World.twoChannels.heap 0).Name = "RoomChannel" := by decide
  rw [hn] at hs
  exact ⟨by decide, by decide, by decide, w', h1, h2, h4, hs, h6.trans (by decide), h9⟩

/-! ## Claim on RegisterChannel -/

theorem GoMap.not_mem_of_lookup_none {K V : Type} [DecidableEq K] (m : GoMap K V) (k : K)
    (h : GoMap.lookup m k = none) : k ∉ m.map Prod.fst := by
  induction m with
  | nil => simp
  | cons e m ih =>
    obtain ⟨k0, v0⟩ := e
    by_cases h0 : k0 = k
    · simp [GoMap.lookup, h0] at h
    · simp only [GoMap.lookup, h0, if_false] at h
      simp only [List.map_cons, List.mem_cons, not_or]
      exact ⟨fun e => h0 e.symm, ih h⟩

theorem GoMap.store_of_lookup_none {K V : Type} [DecidableEq K] (m : GoMap K V) (k : K) (v : V)
    (h : GoMap.lookup m k = none) : GoMap.store m k v = m ++ [(k, v)] := by
  induction m with
  | nil => rfl
  | cons e m ih =>
    obtain ⟨k0, v0⟩ := e
    by_cases h0 : k0 = k
    · simp [GoMap.lookup, h0] at h
    · simp only [GoMap.lookup, h0, if_false] at h
      simp [GoMap.store, h0, ih h]

theorem Cable.RegisterChannel_ok (cb : Cable) (cd : ChannelDescription)
    (h : RegistryOK cb.channelDescriptions) :
    RegistryOK (cb.RegisterChannel cd).cable.channelDescriptions := by
  unfold Cable.RegisterChannel
  by_cases hn : cd.Name = ""
  · rw [if_pos hn]; exact h
  · rw [if_neg hn]
    cases hl : GoMap.lookup cb.channelDescriptions cd.Name with
    | some d => exact h
    | none =>
      dsimp only
      rw [GoMap.store_of_lookup_none _ _ _ hl]
      obtain ⟨h1, h2⟩ := h
      constructor
      · rw [List.map_append, List.nodup_append]
        refine ⟨h1, by simp, ?_⟩
        intro x hx hx2
        simp only [List.map_cons, List.map_nil, List.mem_singleton] at hx2
        subst hx2
        exact GoMap.not_mem_of_lookup_none _ _ hl hx
      · intro e he
        rcases List.mem_append.mp he with he | he
        · exact h2 e he
        · simp only [List.mem_singleton] at he
          subst he
          exact ⟨hn, rfl⟩

theorem Cable.registerAll_ok (cds : List ChannelDescription) :
    ∀ cb : Cable, RegistryOK cb.channelDescriptions →
      RegistryOK (cb.registerAll cds).channelDescriptions := by
  induction cds with
  | nil => intro cb h; exact h
  | cons cd rest ih => intro cb h; exact ih _ (Cable.RegisterChannel_ok cb cd h)

/-- C15: `RegisterChannel(d)` panics exactly when `d.Name` is empty or a description is
registered under `d.Name`; when it panics the Cable is as before, and when it returns the
registry maps `d.Name` to `d`, every other name to what it mapped to before, and nothing
else of the Cable changed.  Hence after any sequence of calls from the empty registry the
keys are non-empty and distinct, each the name of its description. -/
theorem C15_register_channel (cb : Cable) (cd : ChannelDescription) :
    ((cb.RegisterChannel cd).panicked = true ↔
      (cd.Name = "" ∨ (GoMap.lookup cb.channelDescriptions cd.Name).isSome = true)) ∧
    ((cb.RegisterChannel cd).panicked = true → (cb.RegisterChannel cd).cable = cb) ∧
    ((cb.RegisterChannel cd).panicked = false →
      GoMap.lookup (cb.RegisterChannel cd).cable.channelDescriptions cd.Name = some cd ∧
      (∀ n, n ≠ cd.Name →
        GoMap.lookup (cb.RegisterChannel cd).cable.channelDescriptions n =
          GoMap.lookup cb.channelDescriptions n) ∧
      (cb.RegisterChannel cd).cable.PubSub = cb.PubSub ∧
      (cb.RegisterChannel cd).cable.connections = cb.connections) ∧
    (∀ cds : List ChannelDescription, cb.channelDescriptions = [] →
      RegistryOK (cb.registerAll cds).channelDescriptions) := by
  refine ⟨?_, ?_, ?_, ?_⟩
  · unfold Cable.RegisterChannel
    by_cases hn : cd.Name = ""
    · simp [hn]
    · rw [if_neg hn]
      cases hl : GoMap.lookup cb.channelDescriptions cd.Name with
      | some d => simp
      | none => simp [hn]
  · unfold Cable.RegisterChannel
    by_cases hn : cd.Name = ""
    · simp [hn]
    · rw [if_neg hn]
      cases hl : GoMap.lookup cb.channelDescriptions cd.Name with
      | some d => simp
      | none => simp
  · unfold Cable.RegisterChannel
    by_cases hn : cd.Name = ""
    · simp [hn]
    · rw [if_neg hn]
      cases hl : GoMap.lookup cb.channelDescriptions cd.Name with
      | some d => simp
      | none =>
        intro _
        refine ⟨GoMap.lookup_store_same _ _ _, ?_, rfl, rfl⟩
        intro n hne
        exact GoMap.lookup_store_ne _ _ _ _ (fun e => hne e.symm)
  · intro cds hnil
    refine Cable.registerAll_ok cds cb ?_
    rw [hnil]
    exact ⟨List.nodup_nil, fun e he => absurd he (by simp)⟩

/-- Witness of C15: registering `plainRoom`, `plainRoom` again and a description without a
name on a Cable with an empty registry leaves one key. -/
theorem C15_register_channel_witness :
    ((World.start []).cable.RegisterChannel plainRoom).panicked = false ∧
    (((World.start []).cable.RegisterChannel plainRoom).cable.RegisterChannel plainRoom).panicked
      = true ∧
    ((World.start []).cable.RegisterChannel { Name := "" }).panicked = true ∧
    (((World.start []).cable.registerAll
      [plainRoom, plainRoom, { Name := "" }]).channelDescriptions.map Prod.fst) = ["RoomChannel"] ∧
    RegistryOK ((World.start []).cable.registerAll
      [plainRoom, plainRoom, { Name := "" }]).channelDescriptions :=
  ⟨by decide, by decide, by decide, by decide,
    (C15_register_channel (World.start []).cable plainRoom).2.2.2
      [plainRoom, plainRoom, { Name := "" }] rfl⟩

/-! ## Claims on Run -/

/-- C17: `Run` returns a nil error; afterwards the work queue and the done signal are not
nil, and are the channels the map already had when it had them; the worker count is 100 when
it was 0 and as before otherwise; the subscribers are as before; and the loop started as
many workers as the count says (none for a negative count). -/
theorem C17_run_initialises (sm : SubscriberMap) (newDone newSending : Nat) :
    (sm.Run newDone newSending).err = none ∧
    (sm.Run newDone newSending).sm.done ≠ none ∧
    (sm.Run newDone newSending).sm.sending ≠ none ∧
    (sm.done ≠ none → (sm.Run newDone newSending).sm.done = sm.done) ∧
    (sm.sending ≠ none → (sm.Run newDone newSending).sm.sending = sm.sending) ∧
    (sm.done = none → (sm.Run newDone newSending).sm.done = some newDone) ∧
    (sm.sending = none → (sm.Run newDone newSending).sm.sending = some newSending) ∧
    (sm.broadcastConcurrentNum = 0 → (sm.Run newDone newSending).sm.broadcastConcurrentNum = 100) ∧
    (sm.broadcastConcurrentNum ≠ 0 →
      (sm.Run newDone newSending).sm.broadcastConcurrentNum = sm.broadcastConcurrentNum) ∧
    (sm.Run newDone newSending).sm.subscribers = sm.subscribers ∧
    (sm.Run newDone newSending).spawned =
      (sm.Run newDone newSending).sm.broadcastConcurrentNum.toNat ∧
    (0 ≤ sm.broadcastConcurrentNum →
      ((sm.Run newDone newSending).spawned : Int) =
        (sm.Run newDone newSending).sm.broadcastConcurrentNum) := by
  unfold SubscriberMap.Run
  refine ⟨rfl, ?_, ?_, ?_, ?_, ?_, ?_, ?_, ?_, rfl, rfl, ?_⟩
  · dsimp only
    split
    · simp
    · assumption
  · dsimp only
    split
    · simp
    · assumption
  · intro h
    simp [h]
  · intro h
    simp [h]
  · intro h
    simp [h]
  · intro h
    simp [h]
  · intro h
    simp [h]
  · intro h
    simp [h]
  · intro h
    dsimp only
    split
    · rfl
    · exact Int.toNat_of_nonneg h

/-- Witness of C17: the zero value, as in `TestRunAndClose`, and a map with 5 workers set. -/
theorem C17_run_initialises_witness :
    (({} : SubscriberMap).Run 1 2).sm.done = some 1 ∧
    (({} : SubscriberMap).Run 1 2).sm.sending = some 2 ∧
    (({} : SubscriberMap).Run 1 2).sm.broadcastConcurrentNum = 100 ∧
    (({} : SubscriberMap).Run 1 2).spawned = 100 ∧
    (((({ broadcastConcurrentNum := 5, done := some 7 } : SubscriberMap).Run 1 2).spawned : Int)
      = 5) ∧
    (({ broadcastConcurrentNum := 5, done := some 7 } : SubscriberMap).Run 1 2).sm.done
      = some 7 :=
  ⟨by decide, by decide, by decide, by decide,
    (C17_run_initialises { broadcastConcurrentNum := 5, done := some 7 } 1 2).2.2.2.2.2.2.2.2.2.2.2
      (by decide),
    (C17_run_initialises { broadcastConcurrentNum := 5, done := some 7 } 1 2).2.2.2.1 (by decide)⟩

/-- Counterexample to C18: on the zero-value map a second `Run` starts another 100 workers,
so 200 run after two calls and 100 after one. -/
theorem C18_second_run_spawns_again :
    ((({} : SubscriberMap).Run 1 2).sm.Run 3 4).spawned = 100 ∧
    (({} : SubscriberMap).Run 1 2).spawned + ((({} : SubscriberMap).Run 1 2).sm.Run 3 4).spawned
      ≠ (({} : SubscriberMap).Run 1 2).spawned := by
  decide

/-- C18 as amended: a second `Run` leaves every field of the map as the first call left it
(same work queue, same done signal, same worker count, same subscribers) and returns nil,
and it starts as many workers again as the first call did. -/
theorem C18_run_twice (sm : SubscriberMap) (d1 s1 d2 s2 : Nat) :
    ((sm.Run d1 s1).sm.Run d2 s2).sm = (sm.Run d1 s1).sm ∧
    ((sm.Run d1 s1).sm.Run d2 s2).err = none ∧
    ((sm.Run d1 s1).sm.Run d2 s2).spawned = (sm.Run d1 s1).spawned := by
  have hn : (if sm.broadcastConcurrentNum = 0 then (100 : Int) else sm.broadcastConcurrentNum)
      ≠ 0 := by
    split
    · decide
    · assumption
  have hd : (if sm.done = none then some d1 else sm.done) ≠ none := by
    split
    · simp
    · assumption
  have hs : (if sm.sending = none then some s1 else sm.sending) ≠ none := by
    split
    · simp
    · assumption
  unfold SubscriberMap.Run
  simp only [hn, hd, hs, if_false, and_self]

/-! ## Claim on checkOrigin -/

theorem checkOriginLoop_spec (uHost : String) :
    ∀ hosts : List String, (∀ e ∈ hosts, e ≠ "") →
      ∃ b, checkOriginLoop uHost hosts = some b ∧
        (b = true ↔ ∃ e ∈ hosts,
          (e.data.head? = some '*' ∧ (e.data.drop 1).isSuffixOf uHost.data = true) ∨
            uHost = e) := by
  intro hosts
  induction hosts with
  | nil =>
    intro _
    exact ⟨false, rfl, by simp⟩
  | cons host rest ih =>
    intro hne
    obtain ⟨b, hb, hiff⟩ := ih (fun e he => hne e (List.mem_cons_of_mem _ he))
    have hh : host ≠ "" := hne host (List.mem_cons_self _ _)
    unfold checkOriginLoop
    cases hd : host.data with
    | nil =>
      exfalso
      apply hh
      cases host
      simp_all
    | cons first tail =>
      dsimp only
      by_cases h1 : first = '*' ∧ tail.isSuffixOf uHost.data = true
      · rw [if_pos h1]
        refine ⟨true, rfl, ?_⟩
        simp only [true_iff]
        exact ⟨host, List.mem_cons_self _ _, Or.inl (by rw [hd]; simp [h1.1, h1.2])⟩
      · rw [if_neg h1]
        by_cases h2 : uHost = host
        · rw [if_pos h2]
          exact ⟨true, rfl, by simp only [true_iff]; exact ⟨host, List.mem_cons_self _ _, Or.inr h2⟩⟩
        · rw [if_neg h2]
          refine ⟨b, hb, ?_⟩
          rw [hiff]
          constructor
          · rintro ⟨e, he, h⟩
            exact ⟨e, List.mem_cons_of_mem _ he, h⟩
          · rintro ⟨e, he, h⟩
            rcases List.mem_cons.mp he with he | he
            · subst he
              rcases h with h | h
              · exfalso
                apply h1
                rw [hd] at h
                simpa using h
              · exact absurd h h2
            · exact ⟨e, he, h⟩

theorem checkOrigin_spec (toLower : String → String) (urlParse : String → Option String)
    (hosts : List String) (origin : String) (hne : ∀ e ∈ hosts, e ≠ "") :
    (hosts = [] → checkOrigin toLower urlParse hosts origin = some true) ∧
    (hosts ≠ [] → ∃ b, checkOrigin toLower urlParse hosts origin = some b ∧
      (b = true ↔ ∃ h, urlParse (toLower origin) = some h ∧ ∃ e ∈ hosts,
        (e.data.head? = some '*' ∧ (e.data.drop 1).isSuffixOf h.data = true) ∨ h = e)) := by
  constructor
  · intro h
    simp [checkOrigin, h]
  · intro h
    have hl : ¬ hosts.length = 0 := fun e => h (List.length_eq_zero.mp e)
    unfold checkOrigin
    rw [if_neg hl]
    cases hp : urlParse (toLower origin) with
    | none => exact ⟨false, rfl, by simp⟩
    | some uHost =>
      obtain ⟨b, hb, hiff⟩ := checkOriginLoop_spec uHost hosts hne
      refine ⟨b, hb, ?_⟩
      rw [hiff]
      constructor
      · intro hx
        exact ⟨uHost, rfl, hx⟩
      · rintro ⟨h', he, hx⟩
        injection he with he
        subst he
        exact hx

/-- C16, the code at the failing input: with the allowed-origin list `[""]`, and with the list
`["example.org", ""]`, the check of the origin `http://example.com` indexes byte 0 of the
empty entry and panics, so it returns no boolean; without the empty entry the same check
returns false, and with only `*example.com` it returns true. -/
theorem C16_check_origin_panics_on_empty_entry :
    checkOrigin exampleToLower exampleUrlParse [""] "http://Example.com" = none ∧
    checkOrigin exampleToLower exampleUrlParse ["example.org", ""] "http://Example.com" = none ∧
    checkOrigin exampleToLower exampleUrlParse ["example.org"] "http://Example.com"
      = some false ∧
    checkOrigin exampleToLower exampleUrlParse ["*example.com"] "http://Example.com"
      = some true ∧
    checkOrigin exampleToLower exampleUrlParse [] "http://Example.com" = some true := by
  decide

/-! ## Goroutines started by a callback -/

theorem Channel.StopAllStreams_pending_mono (w : World) (c : ChanPtr) (g : Goroutine)
    (h : g ∈ w.pending) : g ∈ (Channel.StopAllStreams w c).pending := by
  unfold Channel.StopAllStreams
  generalize (w.heap c).streams = l
  induction l generalizing w with
  | nil => exact h
  | cons b l ih =>
    rw [List.foldl_cons]
    apply ih
    show g ∈ w.pending ++ [Goroutine.unsubscribe c b]
    exact List.mem_append_left _ h

theorem Channel.exec_pending_mono (w : World) (c : ChanPtr) (op : ChanOp) (g : Goroutine)
    (h : g ∈ w.pending) : g ∈ (Channel.exec w c op).pending := by
  cases op with
  | StreamFrom b =>
    show g ∈ (Channel.StreamFrom w c b).pending
    unfold Channel.StreamFrom
    split
    · exact h
    · exact List.mem_append_left _ h
  | StopStreamFrom b =>
    show g ∈ w.pending ++ [Goroutine.unsubscribe c b]
    exact List.mem_append_left _ h
  | StopAllStreams => exact Channel.StopAllStreams_pending_mono w c g h
  | Broadcast b m =>
    show g ∈ (w.pubsubBroadcast (w.heap c).Name b m).pending
    rw [World.pubsubBroadcast_pending]
    split
    · exact h
    · exact List.mem_append_left _ h
  | Transmit m => exact h
  | Reject => exact h

theorem Channel.run_pending_mono (w : World) (c : ChanPtr) (ops : List ChanOp) (g : Goroutine)
    (h : g ∈ w.pending) : g ∈ (Channel.run w c ops).pending := by
  unfold Channel.run
  induction ops generalizing w with
  | nil => exact h
  | cons op ops ih =>
    rw [List.foldl_cons]
    exact ih _ (Channel.exec_pending_mono w c op g h)

theorem Channel.run_pending_streamFrom (c : ChanPtr) (b : String) (ops : List ChanOp) :
    ∀ w : World, (w.heap c).isSubscriptionRejected = false → ChanOp.Reject ∉ ops →
      ChanOp.StreamFrom b ∈ ops → Goroutine.streamFrom c b ∈ (Channel.run w c ops).pending := by
  induction ops with
  | nil => intro w _ _ h; exact absurd h (by simp)
  | cons op ops ih =>
    intro w hrej hnr hmem
    have hop : op ≠ ChanOp.Reject := fun e => hnr (e ▸ List.mem_cons_self _ _)
    have hnr' : ChanOp.Reject ∉ ops := fun e => hnr (List.mem_cons_of_mem _ e)
    have hrej' : ((Channel.exec w c op).heap c).isSubscriptionRejected = false := by
      rw [Channel.exec_rejected, hrej]
      simp [hop]
    show Goroutine.streamFrom c b ∈ (Channel.run (Channel.exec w c op) c ops).pending
    rcases List.mem_cons.mp hmem with h | h
    · subst h
      apply Channel.run_pending_mono
      show Goroutine.streamFrom c b ∈ (Channel.StreamFrom w c b).pending
      unfold Channel.StreamFrom
      rw [if_neg (by rw [hrej]; simp)]
      exact List.mem_append_right _ (List.mem_singleton.mpr rfl)
    · exact ih _ hrej' hnr' h

theorem Channel.transmitSubscriptionConfirmation_pending (w : World) (c : ChanPtr) :
    (Channel.transmitSubscriptionConfirmation w c).pending = w.pending := by
  unfold Channel.transmitSubscriptionConfirmation
  split <;> rfl

theorem Goroutine.streamFrom_subscribes (w : World) (c : ChanPtr) (b : String) :
    c ∈ (Goroutine.run w (.streamFrom c b)).cable.PubSub.members (w.heap c).Name b ∧
    b ∈ ((Goroutine.run w (.streamFrom c b)).heap c).streams := by
  unfold Goroutine.run
  constructor
  · rw [Channel.transmitSubscriptionConfirmation_cable]
    show c ∈ (w.cable.PubSub.Subscribe w.nameOf c b).1.members (w.nameOf c) b
    rw [SubscriberMap.members_Subscribe, if_pos ⟨rfl, rfl⟩]
    exact GoSet.mem_add.mpr (Or.inr rfl)
  · rw [Channel.transmitSubscriptionConfirmation_streams, World.updChan_heap, if_pos rfl]
    exact GoSet.mem_add.mpr (Or.inr rfl)

/-! ## Claims on closed connections and on rejection -/

/-- Counterexample to C14: on a connection with `closed` true, `done` not closed, and an
empty channel map, a subscribe command for the registered `RoomChannel` returns with the new
Channel installed in the channel map, and the goroutine of its `StreamFrom` subscribes it at
the broker.  On a connection on which `Close` has completed, the `Subscribed` callback of the
same command still calls `StreamFrom`, which starts its goroutine, and the goroutine
subscribes the new Channel at the broker. -/
theorem C14_closed_connection_accepts_subscribe :
    World.closingStreaming.conn.closed = true ∧ World.closingStreaming.conn.done = false ∧
    World.closingStreaming.conn.isInitialized = true ∧
    World.closingStreaming.conn.channels = [] ∧
    World.closingStreaming.cable.PubSub.subscribers = [] ∧
    (Connection.executeCommand exampleUnmarshal [] World.closingStreaming
      ⟨roomId, "subscribe", ""⟩).isReturned = true ∧
    (Connection.executeCommand exampleUnmarshal [] World.closingStreaming
      ⟨roomId, "subscribe", ""⟩).world.conn.channels = [("RoomChannel", [(roomId, 0)])] ∧
    (Connection.executeCommand exampleUnmarshal [] World.closingStreaming
      ⟨roomId, "subscribe", ""⟩).world.conn.closed = true ∧
    (Connection.executeCommand exampleUnmarshal [] World.closingStreaming
      ⟨roomId, "subscribe", ""⟩).world.settle.cable.PubSub.subscribers
        = [("RoomChannel", [("room_1", [0])])] ∧
    World.closedStreaming.conn.closed = true ∧ World.closedStreaming.conn.done = true ∧
    World.closedStreaming.cable.PubSub.subscribers = [] ∧
    World.closedCallback.pending = [.streamFrom 0 "room_1"] ∧
    (World.runSched World.closedCallback [0]).cable.PubSub.subscribers
      = [("RoomChannel", [("room_1", [0])])] := by
  refine ⟨by decide, by decide, by decide, by decide, by decide, by decide, by decide,
    by decide, by decide, by decide, by decide, by decide, by decide, by decide⟩

/-- C14 as amended: the subscribe handler does not read `closed`.  On a connection with
`closed` true whose writer is still receiving (`Setup` has run and `done` is not closed) and
whose mutex is free, a subscribe command for a registered channel whose `Subscribed` callback
does not reject returns with the new Channel installed at `channels[name][X]`, `closed`
still true and the writer still receiving; each `StreamFrom` of the callback has started a goroutine, and that
goroutine, when it runs, subscribes the Channel at the broker. -/
theorem C14_subscribe_on_closed_connection (unmarshal : String → Option String) (w : World)
    (cd : ChannelDescription) (X data : String)
    (hclosed : w.conn.closed = true) (hwriter : w.Writing)
    (hdec : unmarshal X = some cd.Name) (hname : cd.Name ≠ "")
    (hreg : GoMap.lookup w.cable.channelDescriptions cd.Name = some cd)
    (hmu : w.conn.mu = false)
    (hacc : ChanOp.Reject ∉
      (cd.Subscribed.getD (fun _ => [])) ⟨cd.Name, X, w.conn.identifier, X⟩) :
    ∃ w', Connection.executeCommand unmarshal [] w ⟨X, "subscribe", data⟩ = .returned none w' ∧
      w'.channelAt cd.Name X = some w.next ∧
      w'.conn.closed = true ∧ w'.Writing ∧
      (∀ b, ChanOp.StreamFrom b ∈
          (cd.Subscribed.getD (fun _ => [])) ⟨cd.Name, X, w.conn.identifier, X⟩ →
        Goroutine.streamFrom w.next b ∈ w'.pending) ∧
      (∀ (w2 : World) (b : String),
        w.next ∈ (Goroutine.run w2 (.streamFrom w.next b)).cable.PubSub.members
          (w2.heap w.next).Name b) := by
  have hheap := newChannel_heap w X X cd .transmit
  generalize hw0 : (newChannel w X X cd .transmit).1 = w0 at hheap
  have hmu0 : w0.conn.mu = false := by rw [← hw0]; exact hmu
  have hcl0 : w0.conn.closed = true := by rw [← hw0]; exact hclosed
  have hdo0 : w0.Writing := by rw [← hw0]; exact hwriter
  have f1 := (Channel.callSubscribed_frame w0 w.next).trans
    (World.runSched_frame [] (Channel.callSubscribed w0 w.next))
  have hflag : ((World.runSched (Channel.callSubscribed w0 w.next) []).heap
      w.next).isSubscriptionRejected = false := by
    rw [World.runSched_rejected]
    unfold Channel.callSubscribed
    rw [Channel.run_rejected, hheap]
    simpa [Channel.view] using hacc
  have hsub := Channel.subscribe_accepting [] w0 w.next hmu0 hflag
  have hdn : (w0.heap w.next).descrption.Name = cd.Name := by rw [hheap]
  rw [hdn] at hsub
  have f2 := Channel.confirmed_frame [] w0 w.next
  have hid2 : ((Channel.confirmed [] w0 w.next).heap w.next).Identifier = X := by
    rw [f2.ident, f1.ident]; dsimp only; rw [hheap]
  have hat := Channel.install_channelAt (Channel.confirmed [] w0 w.next) w.next cd.Name
  rw [hid2] at hat
  have hpend : ∀ b, ChanOp.StreamFrom b ∈
      (cd.Subscribed.getD (fun _ => [])) ⟨cd.Name, X, w.conn.identifier, X⟩ →
      Goroutine.streamFrom w.next b ∈ (Channel.confirmed [] w0 w.next).pending := by
    intro b hb
    have h1 : Goroutine.streamFrom w.next b ∈ (Channel.callSubscribed w0 w.next).pending := by
      unfold Channel.callSubscribed
      refine Channel.run_pending_streamFrom w.next b _ _ ?_ ?_ ?_
      · show (w0.heap w.next).isSubscriptionRejected = false
        rw [hheap]
      · rw [hheap]; simpa [Channel.view] using hacc
      · rw [hheap]; simpa [Channel.view] using hb
    unfold Channel.confirmed
    split
    · exact h1
    · rw [Channel.transmitSubscriptionConfirmation_pending]
      exact h1
  refine ⟨_, Connection.executeCommand_subscribe unmarshal [] w cd X data hdec hname hreg _
    (hw0 ▸ hsub), ?_, ?_, ?_, ?_, ?_⟩
  · rw [hw0]; exact hat
  · rw [hw0]
    show (Channel.confirmed [] w0 w.next).conn.closed = true
    rw [f2.closed, f1.closed]
    exact hcl0
  · rw [hw0]
    show (Channel.confirmed [] w0 w.next).conn.isInitialized = true ∧
      (Channel.confirmed [] w0 w.next).conn.done = false
    rw [f2.done, f1.done, f2.isInitialized, f1.isInitialized]
    exact hdo0
  · rw [hw0]
    exact hpend
  · intro w2 b
    exact (Goroutine.streamFrom_subscribes w2 w.next b).1

/-- Witness of C14 as amended: the subscribe of the counterexample. -/
theorem C14_subscribe_on_closed_connection_witness :
    World.closingStreaming.conn.closed = true ∧ World.closingStreaming.Writing ∧
    ∃ w', Connection.executeCommand exampleUnmarshal [] World.closingStreaming
        ⟨roomId, "subscribe", ""⟩ = .returned none w' ∧
      w'.channelAt "RoomChannel" roomId = some 0 ∧ w'.conn.closed = true ∧
      Goroutine.streamFrom 0 "room_1" ∈ w'.pending := by
  obtain ⟨w', h1, h2, h3, _, h4, _⟩ := C14_subscribe_on_closed_connection exampleUnmarshal
    World.closingStreaming streamingRoom roomId "" (by decide) ⟨rfl, rfl⟩ (by decide)
    (by decide) rfl (by decide) (by decide)
  exact ⟨by decide, ⟨rfl, rfl⟩, w', h1, h2, h3, h4 "room_1" (by decide)⟩

/-- C19, the code at the failing input: a Channel is installed at
`channels["RoomChannel"][X]` and subscribed to `room_1`; a second subscribe command for the
same `X` whose `Subscribed` callback calls `Reject` returns with that entry deleted, so the
channel map is not the one before the command, while the first Channel is still subscribed
at the broker. -/
theorem C19_rejected_subscribe_deletes_installed_channel :
    World.resubscribeExample.channelAt "RoomChannel" roomId = some 0 ∧
    World.resubscribeExample.conn.channels = [("RoomChannel", [(roomId, 0)])] ∧
    (Connection.executeCommand exampleUnmarshal [] World.resubscribeExample
      ⟨roomId, "subscribe", ""⟩).isReturned = true ∧
    (Connection.executeCommand exampleUnmarshal [] World.resubscribeExample
      ⟨roomId, "subscribe", ""⟩).world.conn.channels = [] ∧
    (Connection.executeCommand exampleUnmarshal [] World.resubscribeExample
      ⟨roomId, "subscribe", ""⟩).world.cable.PubSub.members "RoomChannel" "room_1" = [0] ∧
    (Connection.executeCommand exampleUnmarshal [] World.resubscribeExample
      ⟨roomId, "subscribe", ""⟩).world.conn.send.getLast? =
        some (.strMap [("identifier", roomId), ("type", "reject_subscription")]) ∧
    (Connection.executeCommand exampleUnmarshal [] World.resubscribeExample
      ⟨roomId, "subscribe", ""⟩).world.calls =
        [.Subscribed 0, .Subscribed 1, .Unsubscribed 1] := by
  decide

/-! ## The internal channel -/

/-- C13, the code at the failing input: a connection with the identifier `u7` is set up, so
its internal channel is subscribed at the broker under `action_cable/u7` while its stream set
is empty; `Close` then returns with the connection closed and the `Unsubscribed` callback of
the internal channel called, and the broker still holds the internal channel under
`action_cable/u7`. -/
theorem C13_close_leaves_internal_channel_subscribed :
    (World.handled (some "u7") []).conn.internalChannel = some 0 ∧
    (World.handled (some "u7") []).conn.isInitialized = true ∧
    (World.handled (some "u7") []).cable.PubSub.subscribers =
      [("action_cable/u7", [("action_cable/u7", [0])])] ∧
    ((World.handled (some "u7") []).heap 0).streams = [] ∧
    (Connection.Close (World.handled (some "u7") []) "close by client.").isReturned = true ∧
    (Connection.Close (World.handled (some "u7") []) "close by client.").world.conn.closed
      = true ∧
    (Connection.Close (World.handled (some "u7") []) "close by client.").world.conn.wsConn
      = { messageBox := [.disconnect "disconnect" "close by client." false], isClosed := true } ∧
    (Connection.Close (World.handled (some "u7") []) "close by client.").world.calls
      = [.Unsubscribed 0] ∧
    (Connection.Close (World.handled (some "u7") [])
      "close by client.").world.cable.PubSub.subscribers =
      [("action_cable/u7", [("action_cable/u7", [0])])] ∧
    0 ∈ (Connection.Close (World.handled (some "u7") [])
      "close by client.").world.cable.PubSub.members "action_cable/u7" "action_cable/u7" := by
  decide

/-! ## Setup -/

theorem Connection.subscribeToInternalChannel_none (w : World)
    (hid : w.conn.identifier = none) : Connection.subscribeToInternalChannel w = w := by
  unfold Connection.subscribeToInternalChannel
  rw [hid]

theorem Connection.subscribeToInternalChannel_some (w : World) (id : String)
    (hid : w.conn.identifier = some id) (hic : w.conn.internalChannel = none) :
    (Connection.subscribeToInternalChannel w).conn =
        { w.conn with internalChannel := some w.next } ∧
      (Connection.subscribeToInternalChannel w).heap w.next =
        (newChannel w (internalName id) "" { Name := internalName id } .internal).1.heap w.next ∧
      (Connection.subscribeToInternalChannel w).pending = w.pending ∧
      (Connection.subscribeToInternalChannel w).self = w.self ∧
      (Connection.subscribeToInternalChannel w).calls = w.calls ∧
      (Connection.subscribeToInternalChannel w).cable.connections = w.cable.connections ∧
      ∀ n b, (Connection.subscribeToInternalChannel w).cable.PubSub.members n b =
        if n = internalName id ∧ b = internalName id then
          GoSet.add (w.cable.PubSub.members n b) w.next
        else w.cable.PubSub.members n b := by
  unfold Connection.subscribeToInternalChannel
  rw [hid]
  dsimp only
  rw [if_neg (by rw [hic]; simp)]
  refine ⟨rfl, rfl, rfl, rfl, rfl, rfl, ?_⟩
  intro n b
  have hname : (newChannel w (internalName id) "" { Name := internalName id } .internal).1.nameOf
      w.next = internalName id := by
    simp [World.nameOf, newChannel]
  have hname2 : ((newChannel w (internalName id) "" { Name := internalName id } .internal).1.heap
      w.next).Name = internalName id := hname
  show (SubscriberMap.Subscribe _ w.cable.PubSub w.next _).1.members n b = _
  rw [SubscriberMap.members_Subscribe, hname]
  show (if n = internalName id ∧ b = ((newChannel w (internalName id) ""
      { Name := internalName id } .internal).1.heap w.next).Name then _ else _) = _
  rw [hname2]

theorem Connection.Setup_fresh (w : World) (hmu : w.conn.mu = false)
    (hinit : w.conn.isInitialized = false) :
    Connection.Setup w = .returned ()
      ({ Connection.subscribeToInternalChannel
            (({ w with conn := { w.conn with mu := true } } : World).enqueue welcomeMessage) with
          conn := { (Connection.subscribeToInternalChannel
            (({ w with conn := { w.conn with mu := true } } : World).enqueue
              welcomeMessage)).conn with isInitialized := true } } : World).unlock := by
  simp [Connection.Setup, World.lock, hmu, hinit, World.enqueue]

theorem Connection.Close_open (w : World) (reason : String)
    (hclosed : w.conn.closed = false) (hmu : w.conn.mu = false) (hwf : w.ChannelsWF) :
    ∃ w', Connection.Close w reason = .returned () w' ∧ w'.conn.closed = true ∧
      w'.conn.wsConn = closeConnection w.conn.wsConn reason false ∧
      w'.conn.done = true := by
  generalize hw3 : ({ w with
      conn := { w.conn with closed := true, mu := false },
      cable := { w.cable with connections := GoSet.remove w.cable.connections w.self } } : World)
    = w3
  have hch3 : w3.conn.channels = w.conn.channels := by rw [← hw3]
  have hmu3 : w3.conn.mu = false := by rw [← hw3]
  have hheap3 : w3.heap = w.heap := by rw [← hw3]
  have hic3 : w3.conn.internalChannel = w.conn.internalChannel := by rw [← hw3]
  have hcl3 : w3.conn.closed = true := by rw [← hw3]
  have hws3 : w3.conn.wsConn = w.conn.wsConn := by rw [← hw3]
  have hwf3 : MapWF w3.heap w3.conn.internalChannel w.conn.channels := by
    rw [hheap3, hic3]; exact hwf
  obtain ⟨hloop, _⟩ := Connection.unsubscribeAll_spec w.conn.channels w3 hwf3 hch3 hmu3
  have l4 := Channel.unsubscribed_foldl_loose (ownedOf w.conn.channels) w3
  generalize hw4 : (ownedOf w.conn.channels).foldl Channel.unsubscribed w3 = w4 at hloop l4
  have hint : ∃ w5, (match w4.conn.internalChannel with
        | none => Outcome.returned () w4
        | some ic => Channel.unsubscribe w4 ic) = .returned () w5 ∧ World.Loose w4 w5 := by
    cases hic : w4.conn.internalChannel with
    | none => exact ⟨w4, rfl, World.Loose.same w4⟩
    | some ic =>
      exact ⟨_, Channel.unsubscribe_internal w4 ic hic,
        (Channel.unsubscribeStreams_frame w4 ic).loose.comp (Channel.callUnsubscribed_loose _ ic)⟩
  obtain ⟨w5, h5, l5⟩ := hint
  refine ⟨{ w5 with
      conn := { w5.conn with
        done := true
        wsConn := closeConnection w5.conn.wsConn reason false } },
    ?_, ?_, ?_, rfl⟩
  · unfold Connection.Close
    simp only [World.lock, hmu, Bool.false_eq_true, if_false, hclosed, World.unlock]
    rw [hw3, hloop]
    dsimp only
    rw [h5]
  · exact (l5.closed.trans l4.closed).trans hcl3
  · show closeConnection w5.conn.wsConn reason false = _
    rw [l5.wsConn, l4.wsConn, hws3]


theorem Connection.remote_disconnect_spec (json : JsonLib) (w : World)
    (hmu : w.conn.mu = false) (hinit : w.conn.isInitialized = false)
    (hic : w.conn.internalChannel = none) (hcl : w.conn.closed = false)
    (hch : w.conn.channels = [])
    (hfresh : ∀ n b, w.next ∉ w.cable.PubSub.members n b)
    (hdec : (json.decodeType disconnectPayload).2 = "disconnect") :
    ∃ w1, Connection.Setup w = .returned () w1 ∧
      match w.conn.identifier with
      | none =>
        w1.conn.internalChannel = none ∧ w1.cable.PubSub = w.cable.PubSub ∧ w1.next = w.next
      | some id =>
        w1.conn.internalChannel = some w.next ∧
        (w1.heap w.next).Name = internalName id ∧
        (w1.heap w.next).onBroadcast = .internal ∧
        (∀ n b, w.next ∈ w1.cable.PubSub.members n b ↔
          n = internalName id ∧ b = internalName id) ∧
        (Cable.DisconnectRemoteConnection w1 id).pending = w1.pending ++
          [.send { set := some (internalName id, internalName id),
                   message := disconnectPayload }] ∧
        (∃ w3, Channel.deliver json w1 ⟨w.next, disconnectPayload⟩ = .returned () w3 ∧
          w3.conn.closed = true ∧
          w3.conn.wsConn = { messageBox := w1.conn.wsConn.messageBox ++
                               [.disconnect "disconnect" "close by remote." false],
                             isClosed := true }) ∧
        (∀ p, (json.decodeType p).2 ≠ "disconnect" →
          Channel.deliver json w1 ⟨w.next, p⟩ = .returned () w1) ∧
        (∀ (w2 : World) (p : String), (w2.heap w.next).onBroadcast = .internal →
          Channel.deliver json w2 ⟨w.next, p⟩ =
            if (json.decodeType p).2 = "disconnect" then Connection.Close w2 "close by remote."
            else .returned () w2) := by
  have hS := Connection.Setup_fresh w hmu hinit
  generalize hw0 : (({ w with conn := { w.conn with mu := true } } : World).enqueue
    welcomeMessage) = w0 at hS
  have e1 : w0.conn.identifier = w.conn.identifier := by rw [← hw0]; rfl
  have e2 : w0.conn.internalChannel = w.conn.internalChannel := by rw [← hw0]; rfl
  have e3 : w0.next = w.next := by rw [← hw0]; rfl
  have e4 : w0.cable = w.cable := by rw [← hw0]; rfl
  have e5 : w0.conn.closed = w.conn.closed := by rw [← hw0]; rfl
  have e6 : w0.conn.channels = w.conn.channels := by rw [← hw0]; rfl
  refine ⟨_, hS, ?_⟩
  cases hid : w.conn.identifier with
  | none =>
    dsimp only
    rw [Connection.subscribeToInternalChannel_none w0 (e1.trans hid)]
    exact ⟨e2.trans hic, congrArg Cable.PubSub e4, e3⟩
  | some id =>
    dsimp only
    obtain ⟨hc, hh, hp, _, _, _, hm⟩ :=
      Connection.subscribeToInternalChannel_some w0 id (e1.trans hid) (e2.trans hic)
    rw [e3] at hc hh hm
    rw [e4] at hm
    generalize Connection.subscribeToInternalChannel w0 = S at hc hh hp hm ⊢
    generalize hw1 : (({ S with conn := { S.conn with isInitialized := true } } : World).unlock)
      = w1
    have g1 : w1.heap = S.heap := by rw [← hw1]; rfl
    have g2 : w1.cable = S.cable := by rw [← hw1]; rfl
    have g3 : w1.pending = S.pending := by rw [← hw1]; rfl
    have g4 : w1.conn.internalChannel = S.conn.internalChannel := by rw [← hw1]; rfl
    have g5 : w1.conn.closed = S.conn.closed := by rw [← hw1]; rfl
    have g6 : w1.conn.channels = S.conn.channels := by rw [← hw1]; rfl
    have g7 : w1.conn.mu = false := by rw [← hw1]; rfl
    have hname : (w1.heap w.next).Name = internalName id := by
      rw [g1, hh, ← e3, newChannel_heap]
    have hhandler : (w1.heap w.next).onBroadcast = .internal := by
      rw [g1, hh, ← e3, newChannel_heap]
    have hmem : ∀ n b, w.next ∈ w1.cable.PubSub.members n b ↔
        n = internalName id ∧ b = internalName id := by
      intro n b
      rw [g2, hm]
      by_cases h : n = internalName id ∧ b = internalName id
      · rw [if_pos h]
        exact ⟨fun _ => h, fun _ => GoSet.mem_add.mpr (Or.inr rfl)⟩
      · rw [if_neg h]
        exact ⟨fun hx => absurd hx (hfresh n b), fun hx => absurd hx h⟩
    have hentry : w1.cable.PubSub.entry (internalName id) (internalName id) ≠ none := by
      intro h0
      have h1 := (hmem (internalName id) (internalName id)).mpr ⟨rfl, rfl⟩
      rw [SubscriberMap.members_of_entry_none _ _ _ h0] at h1
      exact absurd h1 (List.not_mem_nil _)
    have hdeliver : ∀ (w2 : World) (p : String), (w2.heap w.next).onBroadcast = .internal →
        Channel.deliver json w2 ⟨w.next, p⟩ =
          if (json.decodeType p).2 = "disconnect" then Connection.Close w2 "close by remote."
          else .returned () w2 := by
      intro w2 p h
      simp only [Channel.deliver, h]
    refine ⟨?_, hname, hhandler, hmem, ?_, ?_, ?_, hdeliver⟩
    · rw [g4, hc]
    · show (w1.pubsubBroadcast _ _ _).pending = _
      rw [World.pubsubBroadcast_pending, if_neg hentry]
    · have c1 : w1.conn.closed = false := by
        rw [g5, hc]
        exact e5.trans hcl
      have c3 : w1.ChannelsWF := by
        have : w1.conn.channels = [] := by
          rw [g6, hc]
          exact e6.trans hch
        unfold World.ChannelsWF MapWF
        rw [this]
        exact ⟨List.nodup_nil, fun e he => absurd he (List.not_mem_nil e)⟩
      obtain ⟨w3, h3, hcl3, hws3, _⟩ := Connection.Close_open w1 "close by remote." c1 g7 c3
      refine ⟨w3, ?_, hcl3, ?_⟩
      · rw [hdeliver w1 _ hhandler, if_pos hdec]
        exact h3
      · rw [hws3]
        rfl
    · intro p hp'
      rw [hdeliver _ p hhandler, if_neg hp']

/-! ## Streams: subscribe, then stop -/

theorem GoMap.mem_of_lookup {K V : Type} [DecidableEq K] (m : GoMap K V) (k : K) (v : V)
    (h : GoMap.lookup m k = some v) : (k, v) ∈ m := by
  induction m with
  | nil => simp [GoMap.lookup] at h
  | cons e m ih =>
    obtain ⟨k0, v0⟩ := e
    by_cases h0 : k0 = k
    · simp only [GoMap.lookup, h0, if_true] at h
      injection h with h
      subst h0 h
      exact List.mem_cons_self _ _
    · simp only [GoMap.lookup, h0, if_false] at h
      exact List.mem_cons_of_mem _ (ih h)

theorem SubscriberMap.noEmpty_of_entries (sm : SubscriberMap)
    (h : ∀ e ∈ sm.subscribers, e.2 ≠ [] ∧ ∀ f ∈ e.2, f.2 ≠ []) : sm.NoEmpty := by
  intro n inner hn
  have h1 := h _ (GoMap.mem_of_lookup _ _ _ hn)
  exact ⟨h1.1, fun b set hb => h1.2 _ (GoMap.mem_of_lookup _ _ _ hb)⟩

theorem SubscriberMap.entry_of_mem_members (sm : SubscriberMap) (n b : String) (c : ChanPtr)
    (h : c ∈ sm.members n b) : ∃ inner set, (n, inner) ∈ sm.subscribers ∧ (b, set) ∈ inner ∧
      c ∈ set := by
  unfold SubscriberMap.members at h
  cases h1 : GoMap.lookup sm.subscribers n with
  | none => rw [h1] at h; simp at h
  | some inner =>
    rw [h1] at h
    dsimp only at h
    cases h2 : GoMap.lookup inner b with
    | none => rw [h2] at h; simp at h
    | some set =>
      rw [h2] at h
      exact ⟨inner, set, GoMap.mem_of_lookup _ _ _ h1, GoMap.mem_of_lookup _ _ _ h2, h⟩

theorem World.settled_of_entries (w : World) (c : ChanPtr)
    (h1 : ∀ g ∈ w.pending, Goroutine.isStreamFrom c g = false)
    (h2 : ∀ e ∈ w.cable.PubSub.subscribers, ∀ f ∈ e.2, c ∈ f.2 →
      e.1 = (w.heap c).Name ∧
        (f.1 ∈ (w.heap c).streams ∨ Goroutine.unsubscribe c f.1 ∈ w.pending)) :
    w.Settled c := by
  refine ⟨fun b hb => ?_, ?_⟩
  · have := h1 _ hb
    simp [Goroutine.isStreamFrom] at this
  intro n b hm
  obtain ⟨inner, set, hi, hs, hc⟩ := SubscriberMap.entry_of_mem_members _ n b c hm
  exact h2 _ hi _ hs hc

theorem SubscriberMap.entry_none_of_members (sm : SubscriberMap) (n b : String)
    (h : sm.NoEmpty) (hm : sm.members n b = []) : sm.entry n b = none := by
  unfold SubscriberMap.members at hm
  unfold SubscriberMap.entry
  cases h1 : GoMap.lookup sm.subscribers n with
  | none => rfl
  | some inner =>
    rw [h1] at hm
    dsimp only at hm ⊢
    cases h2 : GoMap.lookup inner b with
    | none => rfl
    | some set =>
      rw [h2] at hm
      exact absurd hm ((h n inner h1).2 b set h2)

theorem List.mem_eraseIdx_of_ne_get {α : Type} (x g : α) :
    ∀ (l : List α) (i : Nat), l.get? i = some g → x ∈ l → x ≠ g → x ∈ l.eraseIdx i := by
  intro l
  induction l with
  | nil => intro i _ hx _; exact absurd hx (List.not_mem_nil x)
  | cons a l ih =>
    intro i hi hx hne
    cases i with
    | zero =>
      simp only [List.get?_cons_zero, Option.some.injEq] at hi
      subst hi
      rcases List.mem_cons.mp hx with h | h
      · exact absurd h hne
      · exact h
    | succ i =>
      simp only [List.get?_cons_succ] at hi
      rw [List.eraseIdx_cons_succ]
      rcases List.mem_cons.mp hx with h | h
      · exact List.mem_cons.mpr (Or.inl h)
      · exact List.mem_cons_of_mem _ (ih i hi h hne)

theorem List.mem_of_mem_eraseIdx_at {α : Type} (x : α) :
    ∀ (l : List α) (i : Nat), x ∈ l.eraseIdx i → x ∈ l := by
  intro l
  induction l with
  | nil => intro i h; exact h
  | cons a l ih =>
    intro i h
    cases i with
    | zero => exact List.mem_cons_of_mem _ h
    | succ i =>
      rw [List.eraseIdx_cons_succ] at h
      rcases List.mem_cons.mp h with h | h
      · exact List.mem_cons.mpr (Or.inl h)
      · exact List.mem_cons_of_mem _ (ih i h)

theorem Goroutine.detach_of_not_send (n b : String) (g : Goroutine)
    (h : ∀ s, g ≠ Goroutine.send s) : Goroutine.detach n b g = g := by
  cases g with
  | streamFrom c b' => rfl
  | unsubscribe c b' => rfl
  | send s => exact absurd rfl (h s)

theorem Goroutine.detach_send (n b : String) (s : Sender) :
    ∃ s', Goroutine.detach n b (.send s) = .send s' := by
  by_cases h : s.set = some (n, b)
  · exact ⟨{ s with set := none }, by simp [Goroutine.detach, h]⟩
  · exact ⟨s, by simp [Goroutine.detach, h]⟩

theorem World.pubsubUnsubscribe_pending_mem (w : World) (c : ChanPtr) (b : String)
    (x : Goroutine) (hx : ∀ s, x ≠ Goroutine.send s) :
    x ∈ (w.pubsubUnsubscribe c b).pending ↔ x ∈ w.pending := by
  unfold World.pubsubUnsubscribe
  split
  · show x ∈ w.pending.map (Goroutine.detach (w.nameOf c) b) ↔ x ∈ w.pending
    constructor
    · intro h
      obtain ⟨g, hg, e⟩ := List.mem_map.mp h
      by_cases hs : ∀ s, g ≠ Goroutine.send s
      · rw [Goroutine.detach_of_not_send _ _ g hs] at e
        rw [← e]
        exact hg
      · push_neg at hs
        obtain ⟨s, rfl⟩ := hs
        obtain ⟨s', e'⟩ := Goroutine.detach_send (w.nameOf c) b s
        rw [e'] at e
        exact absurd e.symm (hx s')
    · intro h
      exact List.mem_map.mpr ⟨x, h, Goroutine.detach_of_not_send _ _ x hx⟩
  · exact Iff.rfl

theorem Goroutine.body_pending_mem (w : World) (g x : Goroutine)
    (hx : ∀ s, x ≠ Goroutine.send s) :
    x ∈ (Goroutine.run w g).pending ↔ x ∈ w.pending := by
  cases g with
  | streamFrom c b =>
    unfold Goroutine.run
    rw [Channel.transmitSubscriptionConfirmation_pending]
    exact Iff.rfl
  | unsubscribe c b => exact World.pubsubUnsubscribe_pending_mem w c b x hx
  | send s =>
    obtain ⟨l, e⟩ := Goroutine.run_send w s
    rw [e]

theorem Goroutine.body_streams (w : World) (g : Goroutine) (c : ChanPtr)
    (h : ∀ b, g ≠ Goroutine.streamFrom c b) :
    ((Goroutine.run w g).heap c).streams = (w.heap c).streams := by
  cases g with
  | streamFrom c' b =>
    have hc : c ≠ c' := fun e => h b (by rw [e])
    unfold Goroutine.run
    rw [Channel.transmitSubscriptionConfirmation_streams, World.updChan_heap, if_neg hc]
    rfl
  | unsubscribe c' b =>
    show ((w.pubsubUnsubscribe c' b).heap c).streams = _
    rw [World.pubsubUnsubscribe_heap]
  | send s =>
    obtain ⟨l, e⟩ := Goroutine.run_send w s
    rw [e]

theorem Goroutine.body_noEmpty (w : World) (g : Goroutine) (h : w.cable.PubSub.NoEmpty) :
    (Goroutine.run w g).cable.PubSub.NoEmpty := by
  cases g with
  | streamFrom c b =>
    unfold Goroutine.run
    rw [Channel.transmitSubscriptionConfirmation_cable]
    exact SubscriberMap.noEmpty_Subscribe _ _ _ _ h
  | unsubscribe c b =>
    show (w.pubsubUnsubscribe c b).cable.PubSub.NoEmpty
    rw [World.pubsubUnsubscribe_pubsub]
    exact SubscriberMap.noEmpty_Unsubscribe _ _ _ _ h
  | send s =>
    obtain ⟨l, e⟩ := Goroutine.run_send w s
    rw [e]
    exact h

theorem World.runSched_noEmpty (sched : List Nat) :
    ∀ w : World, w.cable.PubSub.NoEmpty → (World.runSched w sched).cable.PubSub.NoEmpty := by
  induction sched with
  | nil => intro w h; exact h
  | cons i rest ih =>
    intro w h
    unfold World.runSched
    cases w.pending.get? i with
    | none => exact ih w h
    | some g => exact ih _ (Goroutine.body_noEmpty _ g h)


theorem Goroutine.step_settled (w : World) (c : ChanPtr) (i : Nat) (g : Goroutine)
    (hg : w.pending.get? i = some g) (h : w.Settled c) :
    (Goroutine.run { w with pending := w.pending.eraseIdx i } g).Settled c ∧
    ((Goroutine.run { w with pending := w.pending.eraseIdx i } g).heap c).streams
      = (w.heap c).streams := by
  have hgmem : g ∈ w.pending := List.get?_mem hg
  have hns : ∀ b, g ≠ Goroutine.streamFrom c b := fun b e => h.1 b (e ▸ hgmem)
  have fr := Goroutine.body_frame { w with pending := w.pending.eraseIdx i } g
  have hst := Goroutine.body_streams { w with pending := w.pending.eraseIdx i } g c hns
  refine ⟨⟨?_, ?_⟩, hst⟩
  · intro b hb
    rw [Goroutine.body_pending_mem _ _ _ (fun s e => by cases e)] at hb
    exact h.1 b (List.mem_of_mem_eraseIdx_at _ _ _ hb)
  · intro n b hm
    rw [fr.name c, hst, Goroutine.body_pending_mem _ _ _ (fun s e => by cases e)]
    have key : c ∈ w.cable.PubSub.members n b ∧ g ≠ Goroutine.unsubscribe c b := by
      cases g with
      | streamFrom c' b' =>
        have hc : c ≠ c' := fun e => hns b' (by rw [e])
        unfold Goroutine.run at hm
        rw [Channel.transmitSubscriptionConfirmation_cable] at hm
        have hm2 : c ∈ (w.cable.PubSub.Subscribe w.nameOf c' b').1.members n b := hm
        rw [SubscriberMap.members_Subscribe] at hm2
        refine ⟨?_, fun e => by cases e⟩
        by_cases hcond : n = w.nameOf c' ∧ b = b'
        · rw [if_pos hcond] at hm2
          rcases GoSet.mem_add.mp hm2 with h1 | h1
          · exact h1
          · exact absurd h1 hc
        · rw [if_neg hcond] at hm2
          exact hm2
      | unsubscribe c' b' =>
        have hm1 : c ∈ (World.pubsubUnsubscribe { w with pending := w.pending.eraseIdx i }
          c' b').cable.PubSub.members n b := hm
        rw [World.pubsubUnsubscribe_pubsub] at hm1
        have hm2 : c ∈ (w.cable.PubSub.Unsubscribe w.nameOf c' b').1.members n b := hm1
        rw [SubscriberMap.members_Unsubscribe] at hm2
        by_cases hcond : n = w.nameOf c' ∧ b = b'
        · rw [if_pos hcond] at hm2
          obtain ⟨h1, h2⟩ := GoSet.mem_remove.mp hm2
          refine ⟨h1, fun e => ?_⟩
          injection e with e1 _
          exact h2 e1.symm
        · rw [if_neg hcond] at hm2
          refine ⟨hm2, fun e => ?_⟩
          injection e with e1 e2
          subst e1 e2
          exact hcond ⟨(h.2 n b' hm2).1, rfl⟩
      | send s =>
        obtain ⟨l, e⟩ := Goroutine.run_send { w with pending := w.pending.eraseIdx i } s
        rw [e] at hm
        exact ⟨hm, fun e => by cases e⟩
    obtain ⟨hmem, hne⟩ := key
    obtain ⟨hn, hor⟩ := h.2 n b hmem
    refine ⟨hn, ?_⟩
    rcases hor with h1 | h1
    · exact Or.inl h1
    · exact Or.inr (List.mem_eraseIdx_of_ne_get _ g w.pending i hg h1 (fun e => hne e.symm))

theorem World.runSched_settled (sched : List Nat) (c : ChanPtr) :
    ∀ w : World, w.Settled c →
      (World.runSched w sched).Settled c ∧
      ((World.runSched w sched).heap c).streams = (w.heap c).streams := by
  induction sched with
  | nil => intro w h; exact ⟨h, rfl⟩
  | cons i rest ih =>
    intro w h
    unfold World.runSched
    cases hg : w.pending.get? i with
    | none => exact ih w h
    | some g =>
      dsimp only
      obtain ⟨h1, h2⟩ := Goroutine.step_settled w c i g hg h
      obtain ⟨h3, h4⟩ := ih _ h1
      exact ⟨h3, h4.trans h2⟩

theorem Channel.stopEach (c : ChanPtr) : ∀ (l : List String) (w : World),
    (l.foldl (fun w1 b => Channel.StopStreamFrom w1 c b) w).pending
        = w.pending ++ l.map (Goroutine.unsubscribe c) ∧
      (∀ x, x ∈ ((l.foldl (fun w1 b => Channel.StopStreamFrom w1 c b) w).heap c).streams ↔
        x ∈ (w.heap c).streams ∧ x ∉ l) ∧
      (l.foldl (fun w1 b => Channel.StopStreamFrom w1 c b) w).cable = w.cable := by
  intro l
  induction l with
  | nil => intro w; simp
  | cons b l ih =>
    intro w
    rw [List.foldl_cons]
    obtain ⟨h1, h2, h3⟩ := ih (Channel.StopStreamFrom w c b)
    refine ⟨?_, ?_, ?_⟩
    · rw [h1]
      show (w.pending ++ [Goroutine.unsubscribe c b]) ++ _ = _
      simp
    · intro x
      rw [h2]
      have : ((Channel.StopStreamFrom w c b).heap c).streams
          = GoSet.remove (w.heap c).streams b := by
        show ((w.updChan c
          (fun ch => { ch with streams := GoSet.remove ch.streams b })).heap c).streams = _
        rw [World.updChan_heap, if_pos rfl]
      rw [this, GoSet.mem_remove, List.mem_cons, not_or]
      tauto
    · rw [h3]
      rfl

theorem Channel.StopAllStreams_settled (w : World) (c : ChanPtr) (h : w.Settled c) :
    (Channel.StopAllStreams w c).Settled c ∧
    ((Channel.StopAllStreams w c).heap c).streams = [] ∧
    (Channel.StopAllStreams w c).pending =
      w.pending ++ (w.heap c).streams.map (Goroutine.unsubscribe c) := by
  obtain ⟨h1, h2, h3⟩ := Channel.stopEach c (w.heap c).streams w
  have fr := Channel.StopAllStreams_frame w c
  unfold Channel.StopAllStreams at fr ⊢
  refine ⟨⟨?_, ?_⟩, ?_, h1⟩
  · intro b hb
    rw [h1] at hb
    rcases List.mem_append.mp hb with hb | hb
    · exact h.1 b hb
    · obtain ⟨x, _, hx⟩ := List.mem_map.mp hb
      cases hx
  · intro n b hm
    rw [h3] at hm
    obtain ⟨hn, hor⟩ := h.2 n b hm
    rw [fr.name c, h1]
    refine ⟨hn, Or.inr ?_⟩
    rcases hor with hb | hb
    · exact List.mem_append_right _ (List.mem_map.mpr ⟨b, hb, rfl⟩)
    · exact List.mem_append_left _ hb
  · apply List.eq_nil_iff_forall_not_mem.mpr
    intro x hx
    exact ((h2 x).mp hx).2 ((h2 x).mp hx).1

/-! ## Claim on streams -/

/-- C11: for a Channel `c` that is not rejected, `StreamFrom(b)` starts one goroutine, and
once that goroutine has run, in whatever state it runs, `c` is in the broker's
`subscribers[c.Name][b]` and `b` is in the stream set of `c`.  For a later
`StopAllStreams`, called when no subscribe of `c` is in flight and the broker holds `c`
only for its streams or for broadcastings with an unsubscribe on the way: under every
schedule after which no unsubscribe of `c` is pending, the stream set of `c` is empty and
the broker holds `c` under no channel name and broadcasting; and, as the broker keeps no
empty set, the entry `subscribers[n][b']` is absent unless another Channel is in it. -/
theorem C11_stream_then_stop (w : World) (c : ChanPtr) (b : String)
    (hrej : (w.heap c).isSubscriptionRejected = false) :
    (Channel.StreamFrom w c b).pending = w.pending ++ [.streamFrom c b] ∧
    (∀ (w1 : World) (i : Nat), w1.pending.get? i = some (.streamFrom c b) →
      c ∈ (World.runSched w1 [i]).cable.PubSub.members (w1.heap c).Name b ∧
      b ∈ ((World.runSched w1 [i]).heap c).streams) ∧
    (∀ (w2 : World) (sched : List Nat), w2.Settled c →
      (∀ b', Goroutine.unsubscribe c b' ∉
        (World.runSched (Channel.StopAllStreams w2 c) sched).pending) →
      ((World.runSched (Channel.StopAllStreams w2 c) sched).heap c).streams = [] ∧
      (∀ n b', c ∉ (World.runSched (Channel.StopAllStreams w2 c) sched).cable.PubSub.members
        n b') ∧
      (w2.cable.PubSub.NoEmpty → ∀ n b',
        (∀ x ∈ (World.runSched (Channel.StopAllStreams w2 c) sched).cable.PubSub.members n b',
          x = c) →
        (World.runSched (Channel.StopAllStreams w2 c) sched).cable.PubSub.entry n b'
          = none)) := by
  refine ⟨?_, ?_, ?_⟩
  · unfold Channel.StreamFrom
    rw [if_neg (by rw [hrej]; simp)]
    rfl
  · intro w1 i hi
    unfold World.runSched
    rw [hi]
    exact Goroutine.streamFrom_subscribes { w1 with pending := w1.pending.eraseIdx i } c b
  · intro w2 sched hs hdone
    obtain ⟨s1, s2, _⟩ := Channel.StopAllStreams_settled w2 c hs
    obtain ⟨s3, s4⟩ := World.runSched_settled sched c _ s1
    have hno : ∀ n b', c ∉
        (World.runSched (Channel.StopAllStreams w2 c) sched).cable.PubSub.members n b' := by
      intro n b' hm
      rcases (s3.2 n b' hm).2 with h1 | h1
      · rw [s4, s2] at h1
        exact absurd h1 (List.not_mem_nil _)
      · exact hdone b' h1
    refine ⟨s4.trans s2, hno, ?_⟩
    intro hne n b' hall
    have hne3 : (World.runSched (Channel.StopAllStreams w2 c) sched).cable.PubSub.NoEmpty := by
      apply World.runSched_noEmpty
      rw [(Channel.StopAllStreams_pubsub w2 c)]
      exact hne
    apply SubscriberMap.entry_none_of_members _ n b' hne3
    apply List.eq_nil_iff_forall_not_mem.mpr
    intro x hx
    have := hall x hx
    subst this
    exact hno n b' hx


/-- Witness of C11: the Channel of `World.subscribedExample` streams from `room_2` as well,
then stops all streams, and the two unsubscribes run, the later one first. -/
theorem C11_stream_then_stop_witness :
    (World.subscribedExample.heap 0).isSubscriptionRejected = false ∧
    (Channel.StreamFrom World.subscribedExample 0 "room_2").pending
      = [.streamFrom 0 "room_2"] ∧
    World.twoStreams.cable.PubSub.subscribers
      = [("RoomChannel", [("room_1", [0]), ("room_2", [0])])] ∧
    0 ∈ World.twoStreams.cable.PubSub.members "RoomChannel" "room_2" ∧
    "room_2" ∈ (World.twoStreams.heap 0).streams ∧
    (Channel.StopAllStreams World.twoStreams 0).pending
      = [.unsubscribe 0 "room_1", .unsubscribe 0 "room_2"] ∧
    ((World.runSched (Channel.StopAllStreams World.twoStreams 0) [1, 0]).heap 0).streams = [] ∧
    0 ∉ (World.runSched (Channel.StopAllStreams World.twoStreams 0)
      [1, 0]).cable.PubSub.members "RoomChannel" "room_2" ∧
    (World.runSched (Channel.StopAllStreams World.twoStreams 0)
      [1, 0]).cable.PubSub.entry "RoomChannel" "room_2" = none := by
  obtain ⟨hA, hB, hC⟩ := C11_stream_then_stop World.subscribedExample 0 "room_2" (by decide)
  have hset : World.twoStreams.Settled 0 :=
    World.settled_of_entries _ _ (by decide) (by decide)
  have hdone : ∀ b', Goroutine.unsubscribe 0 b' ∉
      (World.runSched (Channel.StopAllStreams World.twoStreams 0) [1, 0]).pending := by
    intro b' hb
    have e : (World.runSched (Channel.StopAllStreams World.twoStreams 0) [1, 0]).pending = [] := by
      decide
    rw [e] at hb
    exact absurd hb (List.not_mem_nil _)
  obtain ⟨h1, h2, h3⟩ := hC World.twoStreams [1, 0] hset hdone
  have hne : World.twoStreams.cable.PubSub.NoEmpty :=
    SubscriberMap.noEmpty_of_entries _ (by decide)
  have hrun := hB (Channel.StreamFrom World.subscribedExample 0 "room_2") 0 (by decide)
  exact ⟨by decide, hA.trans (by decide), by decide, hrun.1, hrun.2, by decide, h1,
    h2 "RoomChannel" "room_2", h3 hne "RoomChannel" "room_2" (by decide)⟩


/-! ## Claims on delivery -/

theorem World.broadcast_then_run (w : World) (n b p : String)
    (hs : w.cable.PubSub.serving = true) (hnd : (w.cable.PubSub.members n b).Nodup) :
    (w.cable.PubSub.Broadcast n b p).err = none ∧
    (w.pubsubBroadcast n b p).cable.PubSub = w.cable.PubSub ∧
    (w.pubsubBroadcast n b p).sending = w.sending ∧
    (w.cable.PubSub.entry n b = none → (w.pubsubBroadcast n b p).pending = w.pending) ∧
    (w.cable.PubSub.entry n b ≠ none →
      (w.pubsubBroadcast n b p).pending =
        w.pending ++ [.send { set := some (n, b), message := p }] ∧
      ∃ l, (Goroutine.run w (.send { set := some (n, b), message := p })).sending
          = w.sending ++ l ∧
        (∀ c, l.count { receiver := c, message := p } =
          if c ∈ w.cable.PubSub.members n b then 1 else 0) ∧
        ∀ e ∈ l, e.message = p ∧ e.receiver ∈ w.cable.PubSub.members n b) := by
  refine ⟨SubscriberMap.Broadcast_err _ _ _ _, World.pubsubBroadcast_pubsub w n b p, ?_, ?_, ?_⟩
  · unfold World.pubsubBroadcast
    split <;> rfl
  · intro h
    rw [World.pubsubBroadcast_pending, if_pos h]
  · intro h
    refine ⟨by rw [World.pubsubBroadcast_pending, if_neg h], ?_⟩
    refine ⟨(w.cable.PubSub.members n b).map
      (fun c => ({ receiver := c, message := p } : envelope)), ?_, ?_, ?_⟩
    · simp [Goroutine.run, hs]
    · intro c
      have hinj : Function.Injective
          (fun c => ({ receiver := c, message := p } : envelope)) := by
        intro x y hxy
        exact congrArg envelope.receiver hxy
      rw [List.count_map_of_injective (w.cable.PubSub.members n b)
        (fun c => ({ receiver := c, message := p } : envelope)) hinj c]
      by_cases hc : c ∈ w.cable.PubSub.members n b
      · rw [if_pos hc]
        exact List.count_eq_one_of_mem hnd hc
      · rw [if_neg hc]
        exact List.count_eq_zero_of_not_mem hc
    · intro e he
      obtain ⟨c, hc, rfl⟩ := List.mem_map.mp he
      exact ⟨rfl, hc⟩

/-- C6, the code at the failing input: `Broadcast("RoomChannel", "room_1", p)` is called
while Channel 0 is the one subscriber; it returns nil, leaves the map as it is and has sent
nothing when it returns: it has started a goroutine that holds the set.  A second Channel
subscribes to `room_1` after the call; when its subscribe runs before the goroutine of
`Broadcast`, the goroutine, ranging over the set as it then is, sends an envelope to
Channel 1 as well, which was not in the set at the moment of the call.  When the one
subscriber unsubscribes after the call and before the goroutine runs, the goroutine sends no
envelope, though Channel 0 was in the set at the moment of the call. -/
theorem C6_broadcast_ranges_over_the_live_set :
    World.oneSubscriber.cable.PubSub.members "RoomChannel" "room_1" = [0] ∧
    World.oneSubscriber.cable.PubSub.serving = true ∧
    (World.oneSubscriber.cable.PubSub.Broadcast "RoomChannel" "room_1" "\"hello\"").err
      = none ∧
    (World.oneSubscriber.cable.PubSub.Broadcast "RoomChannel" "room_1" "\"hello\"").sm
      = World.oneSubscriber.cable.PubSub ∧
    World.broadcastPending.cable.PubSub = World.oneSubscriber.cable.PubSub ∧
    World.broadcastPending.sending = [] ∧
    World.broadcastPending.pending =
      [.send { set := some ("RoomChannel", "room_1"), message := "\"hello\"" }] ∧
    World.lateSubscriber.pending =
      [.send { set := some ("RoomChannel", "room_1"), message := "\"hello\"" },
       .streamFrom 1 "room_1"] ∧
    (World.runSched World.lateSubscriber [1, 0]).sending =
      [{ receiver := 0, message := "\"hello\"" }, { receiver := 1, message := "\"hello\"" }] ∧
    (World.runSched World.lateSubscriber [0, 0]).sending =
      [{ receiver := 0, message := "\"hello\"" }] ∧
    World.earlyLeaver.cable.PubSub.subscribers = [] ∧
    (World.runSched World.earlyLeaver [0]).sending = [] := by
  decide

/-- C12, the code at the failing input: the internal channel of the connection with the
identifier `u7` is delivered the payload `{"type":"disconnect","type":5}`, for which the
decoder returns an error and leaves `Type` as `disconnect`.  The handler logs the error and
goes on: the call returns with the connection closed and the disconnect message with the
reason `close by remote.` written to the socket.  The plain disconnect payload closes in the
same way; the payload `{"type":"ping"}` and a text that is not JSON leave the connection
open. -/
theorem C12_undecodable_payload_closes :
    World.remoteExample.conn.internalChannel = some 0 ∧
    (World.remoteExample.heap 0).onBroadcast = .internal ∧
    World.remoteExample.cable.PubSub.members "action_cable/u7" "action_cable/u7" = [0] ∧
    World.remoteExample.conn.closed = false ∧
    exampleJson.decodeType duplicateTypePayload = (true, "disconnect") ∧
    (Channel.deliver exampleJson World.remoteExample ⟨0, duplicateTypePayload⟩).isReturned
      = true ∧
    (Channel.deliver exampleJson World.remoteExample
      ⟨0, duplicateTypePayload⟩).world.conn.closed = true ∧
    (Channel.deliver exampleJson World.remoteExample
      ⟨0, duplicateTypePayload⟩).world.conn.wsConn =
      { messageBox := [.disconnect "disconnect" "close by remote." false], isClosed := true } ∧
    (Channel.deliver exampleJson World.remoteExample
      ⟨0, disconnectPayload⟩).world.conn.closed = true ∧
    (Channel.deliver exampleJson World.remoteExample ⟨0, pingPayload⟩).world.conn.closed
      = false ∧
    exampleJson.decodeType "not json" = (true, "") ∧
    (Channel.deliver exampleJson World.remoteExample ⟨0, "not json"⟩).world.conn.closed
      = false := by
  decide

end ActionCable
